import Mathlib

/-!
Custom-Network-Proxy-Server: the cache manager, the configuration, the statistics, the
request handler and the accept loop of the server.

Shallow embedding of `src/src/cache_manager.cpp`, `src/src/config_manager.cpp`,
`src/src/statistics.cpp`, `src/src/request_handler.cpp` and the connection limit of
`src/src/proxy_server.cpp`, with their headers.

Modelling choices.
* `std::string` is a Lean `String`; one C++ `char` is one `Char`, so `data.size()` is
  `String.length`.
* `size_t` byte counts and the `unsigned long long` counters are `Nat`: the payloads
  counted by `total_size` are all resident in memory at once, so no sum of them reaches
  `2^64`, and every `total_size -= size` in the source subtracts the size of an entry that
  `total_size` already counts (theorem `size_le_total`), so it never wraps either.
* A `double` is the rational number it stands for, and every conversion and operation
  that delivers a `double` rounds its exact result to 53 significant bits, ties to even
  (`Double.round`); `get_hit_rate` adds its two counters modulo `2 ^ 64`.
* `time_t` and the `int` time-to-live are `Int`; the reading of `time(nullptr)` is the
  parameter `now` of the operation that takes it.
* `std::unordered_map` is an association list whose order carries no meaning, and
  `std::unordered_set` a list without repetition.
* `std::list<std::string>` is a list of nodes, each with its identity, front first.  A list
  iterator is the identity of the node it points at; `fresh` is the identity the next
  `push_front` allocates.  Using the iterator of an erased node is undefined behaviour in
  C++: operations that go through a stored iterator return `none` in that case.
* The mutexes are not modelled: every operation of the cache holds its mutex from start
  to end, so the operations are atomic steps on the state.
* An exception of `std::stoi` and a call through the null `stats` pointer end a call early;
  they are results of the modelled functions (`LoadOutcome.threw`, `Ending.exception`,
  `Ending.null_dereference`).
* Sockets, the resolver and the logger are collaborators: a handler returns the sequence
  of calls it makes on them (`Event`), and what the network answers is an input
  (`Network`).
* The accept loop and the detached threads it starts are a transition system
  (`ProxyServer.step`) in which the steps of the loop and of the threads interleave: the
  state holds the value of the named semaphore and the number of threads between their
  start and their `sem_post`.  `sem_wait` returns only while the value is positive and
  takes one from it, `sem_post` adds one; an exception that leaves a thread function ends
  the process.
-/

/-- Identity of a node of `std::list`: what a list iterator points at. -/
abbrev NodeId := Nat

/-- One cached origin response: `struct CacheEntry`. -/
structure CacheEntry where
  data : String
  timestamp : Int
  ttl_seconds : Int
  size : Nat
deriving DecidableEq, Repr

/-- The members of `class CacheManager`. -/
structure CacheManager where
  cache : List (String × (CacheEntry × NodeId))
  lru : List (NodeId × String)
  fresh : NodeId
  max_entries : Nat
  default_ttl : Int
  total_size : Nat
  max_size_bytes : Nat
  cache_hits : Nat
  cache_misses : Nat
deriving DecidableEq, Repr

/-- A forward position in `std::list`: a node, or the past-the-end position. -/
inductive ListIter where
  | node (i : NodeId)
  | past_end
deriving DecidableEq, Repr

/-- How a call that walks the list through iterators ends. -/
inductive Outcome (α : Type) where
  | done (a : α)
  | undefined_behaviour
  | out_of_fuel
deriving DecidableEq, Repr

namespace CacheManager

/-! ## The two containers -/

/-- Lookup in the map: `cache.find(key)`. -/
def map_find : List (String × (CacheEntry × NodeId)) → String → Option (CacheEntry × NodeId)
  | [], _ => none
  | (k, v) :: m, key => if k = key then some v else map_find m key

/-- Removal from the map: `cache.erase(it)` for the element with this key. -/
def map_erase (m : List (String × (CacheEntry × NodeId))) (key : String) :
    List (String × (CacheEntry × NodeId)) :=
  m.filter (fun p => decide (p.1 ≠ key))

/-- Assignment into the map: `cache[key] = v`, and the update of a found element. -/
def map_assign (m : List (String × (CacheEntry × NodeId))) (key : String)
    (v : CacheEntry × NodeId) : List (String × (CacheEntry × NodeId)) :=
  (key, v) :: map_erase m key

/-- Liveness of a node: an iterator to it is valid. -/
def node_live (l : List (NodeId × String)) (i : NodeId) : Bool :=
  l.any (fun n => decide (n.1 = i))

/-- Erasure through an iterator, `lru.erase(it)`; `none` when the iterator is invalid. -/
def list_erase (l : List (NodeId × String)) (i : NodeId) : Option (List (NodeId × String)) :=
  if node_live l i then some (l.filter (fun n => decide (n.1 ≠ i))) else none

/-- The keys of the map. -/
def map_keys (m : List (String × (CacheEntry × NodeId))) : List String := m.map Prod.fst

/-- The keys of the recency list, front first. -/
def lru_keys (l : List (NodeId × String)) : List String := l.map Prod.snd

/-- The sum of `entry.size` over the map. -/
def sum_sizes (m : List (String × (CacheEntry × NodeId))) : Nat :=
  (m.map (fun p => p.2.1.size)).sum

/-! ## The operations -/

/-- The constructor `CacheManager(max_entries, default_ttl)`. -/
def new (max_entries : Nat) (default_ttl : Int) : CacheManager :=
  { cache := [], lru := [], fresh := 0, max_entries := max_entries,
    default_ttl := default_ttl, total_size := 0, max_size_bytes := 100 * 1024 * 1024,
    cache_hits := 0, cache_misses := 0 }

/-- The test `CacheManager::is_expired` at clock reading `now`. -/
def is_expired (now : Int) (entry : CacheEntry) : Bool :=
  decide (now - entry.timestamp > entry.ttl_seconds)

/-- The method `CacheManager::evict_oldest`. -/
def evict_oldest (s : CacheManager) : CacheManager :=
  match s.lru.getLast? with
  | none => s
  | some oldest =>
    let s1 := { s with lru := s.lru.dropLast }
    match map_find s1.cache oldest.2 with
    | some it =>
      { s1 with total_size := s1.total_size - it.1.size, cache := map_erase s1.cache oldest.2 }
    | none => s1

/-- The loop `while (cond && !lru.empty()) evict_oldest();` shared by `evict_if_needed`,
`set_max_entries` and `set_max_size`; every turn pops one node, so `lru.size()` turns are
enough (theorem `evict_while_exit`). -/
def evict_while (cond : CacheManager → Bool) : Nat → CacheManager → CacheManager
  | 0, s => s
  | n + 1, s => if cond s && !s.lru.isEmpty then evict_while cond n (evict_oldest s) else s

/-- The loop condition of `evict_if_needed`. -/
def over_limit (new_size : Nat) (s : CacheManager) : Bool :=
  decide (s.cache.length ≥ s.max_entries) || decide (s.total_size + new_size > s.max_size_bytes)

/-- The method `CacheManager::evict_if_needed`. -/
def evict_if_needed (s : CacheManager) (new_size : Nat) : CacheManager :=
  evict_while (over_limit new_size) s.lru.length s

/-- The method `CacheManager::get`: the new state and the payload on a hit (`true` with
`data` set), `none` on a miss (`false`). -/
def get (s : CacheManager) (key : String) (now : Int) :
    Option (CacheManager × Option String) :=
  match map_find s.cache key with
  | none => some ({ s with cache_misses := s.cache_misses + 1 }, none)
  | some it =>
    if is_expired now it.1 then
      match list_erase s.lru it.2 with
      | none => none
      | some l =>
        some ({ s with lru := l, total_size := s.total_size - it.1.size,
                       cache := map_erase s.cache key,
                       cache_misses := s.cache_misses + 1 }, none)
    else
      match list_erase s.lru it.2 with
      | none => none
      | some l =>
        some ({ s with lru := (s.fresh, key) :: l, fresh := s.fresh + 1,
                       cache := map_assign s.cache key (it.1, s.fresh),
                       cache_hits := s.cache_hits + 1 }, some it.1.data)

/-- The method `CacheManager::remove`. -/
def remove (s : CacheManager) (key : String) : Option CacheManager :=
  match map_find s.cache key with
  | some it =>
    match list_erase s.lru it.2 with
    | none => none
    | some l =>
      some { s with lru := l, total_size := s.total_size - it.1.size,
                    cache := map_erase s.cache key }
  | none => some s

/-- The last three statements of `put`: push the key to the front and store the entry. -/
def add_entry (s : CacheManager) (key data : String) (actual_ttl now : Int) : CacheManager :=
  { s with lru := (s.fresh, key) :: s.lru, fresh := s.fresh + 1,
           cache := map_assign s.cache key
             ({ data := data, timestamp := now, ttl_seconds := actual_ttl,
                size := data.length }, s.fresh),
           total_size := s.total_size + data.length }

/-- The method `CacheManager::put`. -/
def put (s : CacheManager) (key data : String) (ttl now : Int) : Option CacheManager :=
  let actual_ttl := if ttl < 0 then s.default_ttl else ttl
  let data_size := data.length
  let removed : Option CacheManager :=
    match map_find s.cache key with
    | some it =>
      match list_erase s.lru it.2 with
      | none => none
      | some l =>
        some { s with lru := l, total_size := s.total_size - it.1.size,
                      cache := map_erase s.cache key }
    | none => some s
  match removed with
  | none => none
  | some s1 => some (add_entry (evict_if_needed s1 data_size) key data actual_ttl now)

/-- The method `CacheManager::clear`. -/
def clear (s : CacheManager) : CacheManager :=
  { s with cache := [], lru := [], total_size := 0 }

/-- The method `CacheManager::set_max_entries`. -/
def set_max_entries (s : CacheManager) (max : Nat) : CacheManager :=
  let s1 := { s with max_entries := max }
  evict_while (fun t => decide (t.cache.length > t.max_entries)) s1.lru.length s1

/-- The method `CacheManager::set_default_ttl`. -/
def set_default_ttl (s : CacheManager) (seconds : Int) : CacheManager :=
  { s with default_ttl := seconds }

/-- The method `CacheManager::set_max_size`. -/
def set_max_size (s : CacheManager) (bytes : Nat) : CacheManager :=
  let s1 := { s with max_size_bytes := bytes }
  evict_while (fun t => decide (t.total_size > t.max_size_bytes)) s1.lru.length s1

/-! ## The sweep, which walks the list with a reverse iterator

A `std::reverse_iterator` stores a forward iterator `current` and designates the node
before it: `rbegin()` stores `end()`, `rend()` stores `begin()`, `*it` reads the node
before `current`, and `++it` moves `current` one node towards the front. -/

/-- Validity of a forward iterator: past-the-end, or a live node. -/
def iter_valid (l : List (NodeId × String)) : ListIter → Bool
  | ListIter.past_end => true
  | ListIter.node i => node_live l i

/-- The position `lru.begin()`. -/
def list_begin : List (NodeId × String) → ListIter
  | [] => ListIter.past_end
  | n :: _ => ListIter.node n.1

/-- The node in front of node `i`, if there is one. -/
def node_before (i : NodeId) : List (NodeId × String) → Option (NodeId × String)
  | a :: b :: rest => if b.1 = i then some a else node_before i (b :: rest)
  | _ => none

/-- The node a reverse iterator with this `current` designates (`*it`). -/
def rev_deref (l : List (NodeId × String)) : ListIter → Option (NodeId × String)
  | ListIter.past_end => l.getLast?
  | ListIter.node i => node_before i l

/-- The loop of `CacheManager::cleanup_expired`; `current` is the forward iterator inside
the reverse iterator `it`.  Every turn moves `current` one node towards the front, so
`lru.size() + 1` turns are enough. -/
def cleanup_loop (now : Int) : Nat → CacheManager → ListIter → Outcome CacheManager
  | 0, _, _ => Outcome.out_of_fuel
  | n + 1, s, current =>
    -- `it != lru.rend()` compares `current` with `begin()`
    if !iter_valid s.lru current then Outcome.undefined_behaviour
    else if current = list_begin s.lru then Outcome.done s
    else
      match rev_deref s.lru current with
      | none => Outcome.undefined_behaviour
      | some x =>
        match map_find s.cache x.2 with
        | some cache_it =>
          if is_expired now cache_it.1 then
            -- `++it`: `current` is now the node `x` itself
            match list_erase s.lru cache_it.2 with
            | none => Outcome.undefined_behaviour
            | some l =>
              cleanup_loop now n
                { s with total_size := s.total_size - cache_it.1.size,
                         cache := map_erase s.cache x.2, lru := l }
                (ListIter.node x.1)
          else cleanup_loop now n s (ListIter.node x.1)
        | none => cleanup_loop now n s (ListIter.node x.1)

/-- The method `CacheManager::cleanup_expired`; all the calls of `is_expired` in one sweep
see the same clock reading `now`. -/
def cleanup_expired (s : CacheManager) (now : Int) : Outcome CacheManager :=
  cleanup_loop now (s.lru.length + 1) s ListIter.past_end

/-! ## Invariant, reachable states and proof devices -/

/-- The representation invariant of the cache: the map has one element per key, the list
one node per key, every iterator stored in the map points at the live node that holds its
key, every node's key is in the map, `fresh` is beyond every live node, `total_size` is
the sum of the recorded sizes, and a recorded size is the length of its payload. -/
def cache_inv (s : CacheManager) : Prop :=
  (map_keys s.cache).Nodup ∧
  (s.lru.map Prod.fst).Nodup ∧
  (lru_keys s.lru).Nodup ∧
  (∀ p ∈ s.cache, (p.2.2, p.1) ∈ s.lru) ∧
  (∀ n ∈ s.lru, n.2 ∈ map_keys s.cache) ∧
  (∀ n ∈ s.lru, n.1 < s.fresh) ∧
  s.total_size = sum_sizes s.cache ∧
  (∀ p ∈ s.cache, p.2.1.size = p.2.1.data.length)

instance (s : CacheManager) : Decidable (cache_inv s) := by
  unfold cache_inv; infer_instance

/-- The states a cache can be in: those reached from a new `CacheManager` by calls of its
public methods that return. -/
inductive Reachable : CacheManager → Prop where
  | new (max_entries : Nat) (default_ttl : Int) :
      Reachable (CacheManager.new max_entries default_ttl)
  | get {s s1 : CacheManager} {r : Option String} (key : String) (now : Int) :
      Reachable s → get s key now = some (s1, r) → Reachable s1
  | put {s s1 : CacheManager} (key data : String) (ttl now : Int) :
      Reachable s → put s key data ttl now = some s1 → Reachable s1
  | remove {s s1 : CacheManager} (key : String) :
      Reachable s → remove s key = some s1 → Reachable s1
  | clear {s : CacheManager} : Reachable s → Reachable (clear s)
  | set_max_entries {s : CacheManager} (max : Nat) :
      Reachable s → Reachable (set_max_entries s max)
  | set_default_ttl {s : CacheManager} (seconds : Int) :
      Reachable s → Reachable (set_default_ttl s seconds)
  | set_max_size {s : CacheManager} (bytes : Nat) :
      Reachable s → Reachable (set_max_size s bytes)
  | cleanup_expired {s s1 : CacheManager} (now : Int) :
      Reachable s → cleanup_expired s now = Outcome.done s1 → Reachable s1

/-- Proof device: the state with the entry of `key` taken out of the map, its node out of
the list and its size out of `total_size`; what `remove`, the expired branch of `get`, the
first step of `put` and `evict_oldest` all do to a state that satisfies `cache_inv`. -/
def drop_key (s : CacheManager) (key : String) : CacheManager :=
  match map_find s.cache key with
  | some it =>
    { s with lru := s.lru.filter (fun n => decide (n.2 ≠ key)),
             total_size := s.total_size - it.1.size,
             cache := map_erase s.cache key }
  | none => s

/-- Proof device: a new front node for `key` and `entry` stored under `key`. -/
def push_entry (s : CacheManager) (key : String) (entry : CacheEntry) : CacheManager :=
  { s with lru := (s.fresh, key) :: s.lru, fresh := s.fresh + 1,
           cache := map_assign s.cache key (entry, s.fresh),
           total_size := s.total_size + entry.size }

/-- Proof device: `s1` is `s` with some nodes popped off the back of the recency list and
their entries taken out of the map; everything else but `total_size` is as in `s`. -/
structure Evicts (s s1 : CacheManager) : Prop where
  back : ∃ evicted, s.lru = s1.lru ++ evicted
  kept : s1.cache = s.cache.filter (fun p => decide (p.1 ∈ lru_keys s1.lru))
  inv : cache_inv s1
  fresh_eq : s1.fresh = s.fresh
  max_entries_eq : s1.max_entries = s.max_entries
  default_ttl_eq : s1.default_ttl = s.default_ttl
  max_size_bytes_eq : s1.max_size_bytes = s.max_size_bytes
  cache_hits_eq : s1.cache_hits = s.cache_hits
  cache_misses_eq : s1.cache_misses = s.cache_misses

/-- Proof device: the forward iterator that points at the first node of `suffix`. -/
def iter_at : List (NodeId × String) → ListIter
  | [] => ListIter.past_end
  | n :: _ => ListIter.node n.1

/-- Proof device: the sweep finds the entry of this node expired. -/
def node_expired (s : CacheManager) (now : Int) (n : NodeId × String) : Bool :=
  match map_find s.cache n.2 with
  | some it => is_expired now it.1
  | none => false

/-- A cache of two slots after `put("a", "xy")` with the default time-to-live at time 0. -/
def sample_one : CacheManager :=
  { cache := [("a", ({ data := "xy", timestamp := 0, ttl_seconds := 3600, size := 2 }, 0))],
    lru := [(0, "a")], fresh := 1, max_entries := 2, default_ttl := 3600, total_size := 2,
    max_size_bytes := 104857600, cache_hits := 0, cache_misses := 0 }

/-- A cache built with `max_entries = 0` after `put("a", "xy")` at time 0. -/
def sample_zero : CacheManager :=
  { cache := [("a", ({ data := "xy", timestamp := 0, ttl_seconds := 3600, size := 2 }, 0))],
    lru := [(0, "a")], fresh := 1, max_entries := 0, default_ttl := 3600, total_size := 2,
    max_size_bytes := 104857600, cache_hits := 0, cache_misses := 0 }

/-- Proof device: the two limits hold, or the cache holds a single entry. -/
def within_limits (s : CacheManager) : Prop :=
  (s.cache.length ≤ s.max_entries ∧ s.total_size ≤ s.max_size_bytes) ∨ s.cache.length = 1

/-- Scenario S5 of the specification, first step: a cache of two slots after the puts of
"a", "b" and "c" at times 0, 1 and 2. -/
def scenario_abc : Option CacheManager :=
  (put (CacheManager.new 2 3600) "a" "A" (-1) 0).bind fun s1 =>
    (put s1 "b" "B" (-1) 1).bind fun s2 => put s2 "c" "C" (-1) 2

/-- Scenario S5, second step: `get("a")` at time 3. -/
def scenario_get_a : Option (CacheManager × Option String) :=
  scenario_abc.bind fun s => get s "a" 3

/-- Scenario S5, third step: `get("b")` at time 4. -/
def scenario_get_b : Option (CacheManager × Option String) :=
  scenario_get_a.bind fun r => get r.1 "b" 4

/-- Scenario S5, last step: the put of "d" at time 5. -/
def scenario_put_d : Option CacheManager :=
  scenario_get_b.bind fun r => put r.1 "d" "D" (-1) 5

/-- The state of scenario S5 after `get("b")`. -/
def sample_after_get_b : CacheManager :=
  { cache := [("b", ({ data := "B", timestamp := 1, ttl_seconds := 3600, size := 1 }, 3)),
              ("c", ({ data := "C", timestamp := 2, ttl_seconds := 3600, size := 1 }, 2))],
    lru := [(3, "b"), (2, "c")], fresh := 4, max_entries := 2, default_ttl := 3600,
    total_size := 2, max_size_bytes := 104857600, cache_hits := 1, cache_misses := 1 }

/-- A cache of one slot after `put("a", "xy")` at time 0 and a `get("a")` at time 1. -/
def one_slot_get_a : Option (CacheManager × Option String) :=
  (put (CacheManager.new 1 3600) "a" "xy" (-1) 0).bind fun s => get s "a" 1

/-- The cache of one slot after the `put("b", "pq")` that follows at time 2. -/
def one_slot_put_b : Option CacheManager :=
  one_slot_get_a.bind fun r => put r.1 "b" "pq" (-1) 2

/-- An empty cache of two slots whose byte limit was set to 3. -/
def sample_small : CacheManager :=
  { cache := [], lru := [], fresh := 0, max_entries := 2, default_ttl := 3600,
    total_size := 0, max_size_bytes := 3, cache_hits := 0, cache_misses := 0 }

/-- The size recorded for `key`, or 0 when the map does not hold it. -/
def size_of_key (s : CacheManager) (key : String) : Nat :=
  match map_find s.cache key with
  | some it => it.1.size
  | none => 0

end CacheManager

/-! ## `std::string` operations used by the configuration and the request handler

The value `std::string::npos` is `none`.  `substr` throws only for a start beyond the end of
the string, which none of its calls in the source can pass; it is modelled as total. -/

namespace StdString

/-- Test that `text` begins with `needle`. -/
def starts_with : List Char → List Char → Bool
  | [], _ => true
  | _ :: _, [] => false
  | a :: needle, b :: text => decide (a = b) && starts_with needle text

/-- First position at which `needle` occurs in `text`, counted from `i` on. -/
def find_at (needle : List Char) : List Char → Nat → Option Nat
  | [], i => if needle = [] then some i else none
  | c :: text, i =>
    if starts_with needle (c :: text) then some i else find_at needle text (i + 1)

/-- The call `s.find(needle, pos)`. -/
def find (s needle : String) (pos : Nat) : Option Nat :=
  if pos ≤ s.length then find_at needle.data (s.data.drop pos) pos else none

/-- The call `s.substr(pos, count)`; `count = none` is `npos`, the rest of the string. -/
def substr (s : String) (pos : Nat) (count : Option Nat) : String :=
  match count with
  | some n => String.mk ((s.data.drop pos).take n)
  | none => String.mk (s.data.drop pos)

/-- First position in `text`, counted from `i` on, of a character not in `chars`. -/
def first_not_of_at (chars : List Char) : List Char → Nat → Option Nat
  | [], _ => none
  | c :: text, i => if c ∈ chars then first_not_of_at chars text (i + 1) else some i

/-- The call `s.find_first_not_of(chars)`. -/
def find_first_not_of (s : String) (chars : List Char) : Option Nat :=
  first_not_of_at chars s.data 0

/-- Last position in `text`, counted from `i` on, of a character not in `chars`. -/
def last_not_of_at (chars : List Char) : List Char → Nat → Option Nat
  | [], _ => none
  | c :: text, i =>
    match last_not_of_at chars text (i + 1) with
    | some j => some j
    | none => if c ∈ chars then none else some i

/-- The call `s.find_last_not_of(chars)`. -/
def find_last_not_of (s : String) (chars : List Char) : Option Nat :=
  last_not_of_at chars s.data 0

/-- The exceptions of `std::stoi`. -/
inductive StoiError where
  | invalid_argument
  | out_of_range
deriving DecidableEq, Repr

/-- The characters `strtol` skips at the start: `isspace` in the C locale. -/
def is_space (c : Char) : Bool :=
  c = ' ' || c = '\t' || c = '\n' || c = '\x0b' || c = '\x0c' || c = '\r'

/-- The value of a run of decimal digits. -/
def digits_value (ds : List Char) : Nat :=
  ds.foldl (fun acc d => 10 * acc + (d.toNat - '0'.toNat)) 0

/-- The call `std::stoi(s)` (base 10): leading white space is skipped, a sign is optional,
the longest run of digits is converted and whatever follows it is ignored; without a digit
the call throws `std::invalid_argument`, and for a value outside `int` it throws
`std::out_of_range`. -/
def stoi (s : String) : Except StoiError Int :=
  let t := s.data.dropWhile is_space
  let signed : Bool × List Char :=
    match t with
    | '-' :: r => (true, r)
    | '+' :: r => (false, r)
    | _ => (false, t)
  let ds := signed.2.takeWhile Char.isDigit
  if ds = [] then Except.error StoiError.invalid_argument
  else
    let v : Int := if signed.1 then - (digits_value ds : Int) else (digits_value ds : Int)
    if v < -2147483648 ∨ v > 2147483647 then Except.error StoiError.out_of_range
    else Except.ok v

end StdString

/-- The members of `class ConfigManager` that hold configuration values. -/
structure ConfigManager where
  port : Int
  cache_limit : Int
  cache_ttl : Int
  log_level : String
  max_cache_size_mb : Nat
  connection_timeout : Int
  enable_stats : Bool
  blocked_hosts : List String
  whitelisted_hosts : List String
deriving DecidableEq, Repr

/-- The local variables of `ConfigManager::load` together with the members it assigns while
it reads the file. -/
structure LoadState where
  config : ConfigManager
  new_blocked : List String
  new_whitelist : List String
deriving DecidableEq, Repr

/-- How a call of `ConfigManager::load` ends: it returns `true` or `false`, or an exception
of `std::stoi` leaves it; in each case with the members as they are at that point. -/
inductive LoadOutcome where
  | returned (ok : Bool) (c : ConfigManager)
  | threw (e : StdString.StoiError) (c : ConfigManager)
deriving DecidableEq, Repr

namespace ConfigManager

open StdString

/-- The constructor `ConfigManager(filename)`. -/
def new : ConfigManager :=
  { port := 8080, cache_limit := 100, cache_ttl := 3600, log_level := "INFO",
    max_cache_size_mb := 100, connection_timeout := 30, enable_stats := true,
    blocked_hosts := [], whitelisted_hosts := [] }

/-- The call `set.insert(x)` on a `std::unordered_set`, kept as a list without repetition. -/
def set_insert (set : List String) (x : String) : List String :=
  if x ∈ set then set else x :: set

/-- The call `set.count(x)` on a `std::unordered_set`. -/
def set_count (set : List String) (x : String) : Nat :=
  if x ∈ set then 1 else 0

/-- The method `ConfigManager::is_blocked`. -/
def is_blocked (c : ConfigManager) (host : String) : Bool :=
  if !c.whitelisted_hosts.isEmpty && decide (set_count c.whitelisted_hosts host ≠ 0) then false
  else decide (set_count c.blocked_hosts host > 0)

/-- The method `ConfigManager::is_whitelisted`. -/
def is_whitelisted (c : ConfigManager) (host : String) : Bool :=
  decide (set_count c.whitelisted_hosts host > 0)

/-- The characters trimmed from a line: `" \t\r\n"`. -/
def trim_chars : List Char := [' ', '\t', '\r', '\n']

/-- The trimming of a line in `load`: `none` when the line holds nothing else
(`continue`), else `line.substr(start, end - start + 1)`. -/
def trim_line (line : String) : Option String :=
  match find_first_not_of line trim_chars with
  | none => none
  | some start =>
    match find_last_not_of line trim_chars with
    | none => none
    | some last => some (substr line start (some (last - start + 1)))

/-- The value an `int` takes when it is stored in the `size_t` member `max_cache_size_mb`. -/
def to_size_t (v : Int) : Nat := (v % 18446744073709551616).toNat

/-- The chain of tests on a trimmed line in `load`. -/
def apply_directive (st : LoadState) (line : String) : Except StoiError LoadState :=
  if find line "PORT=" 0 = some 0 then
    match stoi (substr line 5 none) with
    | Except.ok v => Except.ok { st with config := { st.config with port := v } }
    | Except.error e => Except.error e
  else if find line "CACHE_LIMIT=" 0 = some 0 then
    match stoi (substr line 12 none) with
    | Except.ok v => Except.ok { st with config := { st.config with cache_limit := v } }
    | Except.error e => Except.error e
  else if find line "CACHE_TTL=" 0 = some 0 then
    match stoi (substr line 10 none) with
    | Except.ok v => Except.ok { st with config := { st.config with cache_ttl := v } }
    | Except.error e => Except.error e
  else if find line "LOG_LEVEL=" 0 = some 0 then
    Except.ok { st with config := { st.config with log_level := substr line 10 none } }
  else if find line "MAX_CACHE_SIZE_MB=" 0 = some 0 then
    match stoi (substr line 18 none) with
    | Except.ok v =>
      Except.ok { st with config := { st.config with max_cache_size_mb := to_size_t v } }
    | Except.error e => Except.error e
  else if find line "CONNECTION_TIMEOUT=" 0 = some 0 then
    match stoi (substr line 19 none) with
    | Except.ok v =>
      Except.ok { st with config := { st.config with connection_timeout := v } }
    | Except.error e => Except.error e
  else if find line "ENABLE_STATS=" 0 = some 0 then
    let val := substr line 13 none
    Except.ok { st with config := { st.config with
      enable_stats := decide (val = "true") || decide (val = "1") || decide (val = "yes") } }
  else if find line "BLOCK=" 0 = some 0 then
    Except.ok { st with new_blocked := set_insert st.new_blocked (substr line 6 none) }
  else if find line "WHITELIST=" 0 = some 0 then
    Except.ok { st with new_whitelist := set_insert st.new_whitelist (substr line 10 none) }
  else Except.ok st

/-- One turn of the loop `while (getline(file, line))` of `load`. -/
def load_line (st : LoadState) (line : String) : Except StoiError LoadState :=
  if line = "" ∨ line.data.head? = some '#' then Except.ok st
  else
    match trim_line line with
    | none => Except.ok st
    | some trimmed => apply_directive st trimmed

/-- The loop of `load` over the lines `getline` yields; it stops at the first exception,
with the state reached by the lines before. -/
def load_loop : List String → LoadState → LoadState × Option StoiError
  | [], st => (st, none)
  | line :: rest, st =>
    match load_line st line with
    | Except.ok st1 => load_loop rest st1
    | Except.error e => (st, some e)

/-- The lines `getline` yields for a file with this content: the pieces between the line
feeds, without a last empty piece. -/
def file_lines (content : String) : List String :=
  let pieces := content.data.splitOn '\n'
  let kept := if pieces.getLast? = some [] then pieces.dropLast else pieces
  kept.map String.mk

/-- The method `ConfigManager::load` on the lines of the file; `none` is a file that cannot
be opened. -/
def load_lines (c : ConfigManager) (file : Option (List String)) : LoadOutcome :=
  match file with
  | none => LoadOutcome.returned false c
  | some lines =>
    match load_loop lines { config := c, new_blocked := [], new_whitelist := [] } with
    | (st, some e) => LoadOutcome.threw e st.config
    | (st, none) =>
      LoadOutcome.returned true
        { st.config with blocked_hosts := st.new_blocked,
                         whitelisted_hosts := st.new_whitelist }

/-- The method `ConfigManager::load` on the content of the file. -/
def load (c : ConfigManager) (content : Option String) : LoadOutcome :=
  load_lines c (content.map file_lines)

end ConfigManager

/-! ## Statistics -/

/-- The counters kept for one host: `struct HostStats` (the time in milliseconds). -/
structure HostStats where
  requests : Nat
  bytes_sent : Nat
  bytes_received : Nat
  total_time : Nat
deriving DecidableEq, Repr

/-- The counters and maps of `class Statistics`. -/
structure Statistics where
  total_requests : Nat
  total_cached : Nat
  total_blocked : Nat
  total_errors : Nat
  total_bytes_sent : Nat
  total_bytes_received : Nat
  per_host_stats : List (String × HostStats)
  ip_request_count : List (String × Nat)
deriving DecidableEq, Repr

namespace Statistics

/-- The constructor `Statistics()`. -/
def new : Statistics :=
  { total_requests := 0, total_cached := 0, total_blocked := 0, total_errors := 0,
    total_bytes_sent := 0, total_bytes_received := 0, per_host_stats := [],
    ip_request_count := [] }

/-- The update `map[key] = f(map[key])` of a `std::unordered_map`, where `operator[]`
inserts the value-initialised element `zero` for a key the map does not hold. -/
def map_update {V : Type} (zero : V) (f : V → V) : List (String × V) → String → List (String × V)
  | [], key => [(key, f zero)]
  | (k, v) :: m, key => if k = key then (k, f v) :: m else (k, v) :: map_update zero f m key

/-- The value-initialised `HostStats`. -/
def no_host_stats : HostStats :=
  { requests := 0, bytes_sent := 0, bytes_received := 0, total_time := 0 }

/-- The method `Statistics::record_request`. -/
def record_request (st : Statistics) (host client_ip : String) : Statistics :=
  { st with
    total_requests := st.total_requests + 1,
    per_host_stats :=
      map_update no_host_stats (fun h => { h with requests := h.requests + 1 })
        st.per_host_stats host,
    ip_request_count := map_update 0 (fun n => n + 1) st.ip_request_count client_ip }

/-- The method `Statistics::record_cached_request`. -/
def record_cached_request (st : Statistics) : Statistics :=
  { st with total_cached := st.total_cached + 1 }

/-- The method `Statistics::record_blocked_request`. -/
def record_blocked_request (st : Statistics) : Statistics :=
  { st with total_blocked := st.total_blocked + 1 }

/-- The method `Statistics::record_error`. -/
def record_error (st : Statistics) : Statistics :=
  { st with total_errors := st.total_errors + 1 }

/-- The method `Statistics::record_bytes`. -/
def record_bytes (st : Statistics) (host : String) (sent received : Nat) : Statistics :=
  { st with
    total_bytes_sent := st.total_bytes_sent + sent,
    total_bytes_received := st.total_bytes_received + received,
    per_host_stats :=
      map_update no_host_stats
        (fun h => { h with bytes_received := h.bytes_received + received })
        (map_update no_host_stats (fun h => { h with bytes_sent := h.bytes_sent + sent })
          st.per_host_stats host) host }

/-- The method `Statistics::record_time`, the duration in milliseconds. -/
def record_time (st : Statistics) (host : String) (duration : Nat) : Statistics :=
  { st with
    per_host_stats :=
      map_update no_host_stats (fun h => { h with total_time := h.total_time + duration })
        st.per_host_stats host }

/-- The method `Statistics::get_json_stats`; `uptime` is the text the stream prints for
`get_uptime_seconds()`. -/
def get_json_stats (st : Statistics) (uptime : String) : String :=
  "\x7b\n" ++
  "  \"uptime_seconds\": " ++ uptime ++ ",\n" ++
  "  \"total_requests\": " ++ toString st.total_requests ++ ",\n" ++
  "  \"cached_requests\": " ++ toString st.total_cached ++ ",\n" ++
  "  \"blocked_requests\": " ++ toString st.total_blocked ++ ",\n" ++
  "  \"errors\": " ++ toString st.total_errors ++ ",\n" ++
  "  \"bytes_sent\": " ++ toString st.total_bytes_sent ++ ",\n" ++
  "  \"bytes_received\": " ++ toString st.total_bytes_received ++ "\n" ++
  "\x7d\n"

end Statistics

/-! ## The request handler

A call of a handler is a function from the shared state (cache, statistics), the
configuration, what the network does during the call and the clock readings, to the new
state, the sequence of calls it makes on its collaborators (logger, sockets, resolver) and
the way it ends. -/

/-- A call the handler makes on the logger, a socket or the resolver. -/
inductive Event where
  | send_client (bytes : String)
  | log_request (ip host status : String) (bytes : Nat)
  | log_url (ip url method : String)
  | log_error (message : String)
  | dns_lookup (host : String)
  | connect_origin (host : String) (port : Int)
  | send_origin (bytes : String)
  | recv_origin
  | close_origin
  | tunnel
  | close_client
deriving DecidableEq, Repr

/-- What the network and the clocks do during one call of a handler. -/
structure Network where
  dns_ok : Bool
  socket_ok : Bool
  connect_ok : Bool
  send_ok : Bool
  response : String
  fetch_time : Int
  elapsed_ms : Nat
deriving DecidableEq, Repr

/-- How a call of a handler ends: it returns, an exception of `std::stoi` leaves it, it
calls a method through the null `stats` pointer, or the cache uses an invalid iterator. -/
inductive Ending where
  | returned (result : Bool)
  | exception (e : StdString.StoiError)
  | null_dereference
  | invalid_iterator
deriving DecidableEq, Repr

/-- The result of a call of a handler. -/
structure Run where
  cache : CacheManager
  stats : Option Statistics
  events : List Event
  ending : Ending
deriving DecidableEq, Repr

/-- Which branch of `handle_client` serves a request. -/
inductive Route where
  | stats_endpoint
  | connect_tunnel
  | http_fetch
deriving DecidableEq, Repr

namespace RequestHandler

open StdString

/-- The method `RequestHandler::extract_host`. -/
def extract_host (request : String) : String :=
  match find request "Host:" 0 with
  | some hpos =>
    let s0 := hpos + 6
    let s := s0 + ((request.data.drop s0).takeWhile (fun c => decide (c = ' '))).length
    match find request "\r\n" s with
    | some e => substr request s (some (e - s))
    | none => ""
  | none => ""

/-- The value `p + 1` of a `size_t` position, where `npos + 1` wraps to 0. -/
def next_pos (p : Option Nat) : Nat :=
  match p with
  | some i => i + 1
  | none => 0

/-- The method `RequestHandler::extract_path`. -/
def extract_path (request : String) : String :=
  match find request "\r\n" 0 with
  | none => "/"
  | some line_end =>
    let first := substr request 0 (some line_end)
    let p1 := find first " " 0
    let p2 := find first " " (next_pos p1)
    match p1, p2 with
    | some i1, some i2 =>
      let path := substr first (i1 + 1) (some (i2 - i1 - 1))
      if find path "http://" 0 = some 0 then
        match find path "/" 7 with
        | none => "/"
        | some slash => substr path slash none
      else path
    | _, _ => "/"

/-- The response `send_forbidden` sends. -/
def forbidden_response : String :=
  "HTTP/1.1 403 Forbidden\r\n" ++
  "Content-Type: text/html\r\n" ++
  "Content-Length: 45\r\n" ++
  "\r\n" ++
  "<html><body><h1>403 Forbidden</h1></body></html>"

/-- The response `send_error` sends for `message`. -/
def error_response (message : String) : String :=
  "HTTP/1.1 500 Internal Server Error\r\n" ++
  "Content-Type: text/plain\r\n" ++
  "Content-Length: " ++ toString message.length ++ "\r\n" ++
  "\r\n" ++ message

/-- The method `RequestHandler::connect_to_host`: the calls it makes, and whether it
returns a socket. -/
def connect_to_host (net : Network) (host : String) (port : Int) : List Event × Bool :=
  if !net.dns_ok then
    ([Event.dns_lookup host, Event.log_error ("DNS lookup failed for: " ++ host)], false)
  else if !net.socket_ok then
    ([Event.dns_lookup host, Event.log_error "Socket creation failed"], false)
  else if !net.connect_ok then
    ([Event.dns_lookup host, Event.connect_origin host port,
      Event.log_error ("Connection failed to: " ++ host)], false)
  else ([Event.dns_lookup host, Event.connect_origin host port], true)

/-- The method `RequestHandler::handle_http_request`; `now` is the clock reading of the
cache lookup. -/
def handle_http_request (config : ConfigManager) (cache : CacheManager)
    (stats : Option Statistics) (net : Network) (now : Int)
    (request client_ip : String) : Run :=
  let host := extract_host request
  if host = "" then
    { cache := cache, stats := stats,
      events := [Event.send_client (error_response "No Host header found")],
      ending := Ending.returned false }
  else
    let path := extract_path request
    let full_url := "http://" ++ host ++ path
    let method := substr request 0 (find request " " 0)
    let ev1 := [Event.log_url client_ip full_url method]
    if config.is_blocked host then
      let ev2 := ev1 ++ [Event.log_request client_ip host "BLOCKED_HTTP" 0]
      match stats with
      | none => { cache := cache, stats := none, events := ev2,
                  ending := Ending.null_dereference }
      | some st =>
        { cache := cache, stats := some st.record_blocked_request,
          events := ev2 ++ [Event.send_client forbidden_response],
          ending := Ending.returned false }
    else
      match cache.get host now with
      | none => { cache := cache, stats := stats, events := ev1,
                  ending := Ending.invalid_iterator }
      | some (cache1, some cached_data) =>
        let ev2 := ev1 ++ [Event.send_client cached_data,
          Event.log_request client_ip host "CACHED" cached_data.length]
        match stats with
        | none => { cache := cache1, stats := none, events := ev2,
                    ending := Ending.null_dereference }
        | some st =>
          { cache := cache1,
            stats := some (((st.record_request host client_ip).record_cached_request).record_bytes
              host cached_data.length 0),
            events := ev2, ending := Ending.returned true }
      | some (cache1, none) =>
        let conn := connect_to_host net host 80
        let ev2 := ev1 ++ conn.1
        if !conn.2 then
          let ev3 := ev2 ++ [Event.send_client (error_response "Failed to connect to remote host")]
          match stats with
          | none => { cache := cache1, stats := none, events := ev3,
                      ending := Ending.null_dereference }
          | some st => { cache := cache1, stats := some st.record_error, events := ev3,
                         ending := Ending.returned false }
        else
          let new_req := "GET " ++ path ++ " HTTP/1.0\r\n" ++
            "Host: " ++ host ++ "\r\n" ++
            "Connection: close\r\n" ++
            "\r\n"
          let ev3 := ev2 ++ [Event.send_origin new_req]
          if !net.send_ok then
            let ev4 := ev3 ++ [Event.log_error "Failed to send request to remote host",
              Event.close_origin]
            match stats with
            | none => { cache := cache1, stats := none, events := ev4,
                        ending := Ending.null_dereference }
            | some st => { cache := cache1, stats := some st.record_error, events := ev4,
                           ending := Ending.returned false }
          else
            let response := net.response
            let ev4 := ev3 ++ [Event.recv_origin, Event.close_origin]
            if response = "" then
              let ev5 := ev4 ++ [Event.send_client (error_response "Empty response from server")]
              match stats with
              | none => { cache := cache1, stats := none, events := ev5,
                          ending := Ending.null_dereference }
              | some st => { cache := cache1, stats := some st.record_error, events := ev5,
                             ending := Ending.returned false }
            else
              match cache1.put host response config.cache_ttl net.fetch_time with
              | none => { cache := cache1, stats := stats, events := ev4,
                          ending := Ending.invalid_iterator }
              | some cache2 =>
                let ev5 := ev4 ++ [Event.send_client response,
                  Event.log_request client_ip host "FETCHED" response.length]
                match stats with
                | none => { cache := cache2, stats := none, events := ev5,
                            ending := Ending.null_dereference }
                | some st =>
                  { cache := cache2,
                    stats := some (((st.record_request host client_ip).record_bytes host
                      response.length new_req.length).record_time host net.elapsed_ms),
                    events := ev5, ending := Ending.returned true }

/-- The method `RequestHandler::handle_https_connect`. -/
def handle_https_connect (config : ConfigManager) (cache : CacheManager)
    (stats : Option Statistics) (net : Network) (request client_ip : String) : Run :=
  let p1 := find request " " 0
  let p2 := find request " " (next_pos p1)
  match p1, p2 with
  | some i1, some i2 =>
    let hostport := substr request (i1 + 1) (some (i2 - i1 - 1))
    let colon := find hostport ":" 0
    let host := substr hostport 0 colon
    let parsed : Except StoiError Int :=
      match colon with
      | some c => stoi (substr hostport (c + 1) none)
      | none => Except.ok 443
    match parsed with
    | Except.error e =>
      { cache := cache, stats := stats, events := [], ending := Ending.exception e }
    | Except.ok port =>
      if config.is_blocked host then
        let ev1 := [Event.log_request client_ip host "BLOCKED_HTTPS" 0]
        match stats with
        | none => { cache := cache, stats := none, events := ev1,
                    ending := Ending.null_dereference }
        | some st =>
          { cache := cache, stats := some st.record_blocked_request,
            events := ev1 ++ [Event.send_client forbidden_response],
            ending := Ending.returned false }
      else
        let conn := connect_to_host net host port
        if !conn.2 then
          let ev1 := conn.1 ++
            [Event.send_client (error_response "Failed to connect to remote host")]
          match stats with
          | none => { cache := cache, stats := none, events := ev1,
                      ending := Ending.null_dereference }
          | some st => { cache := cache, stats := some st.record_error, events := ev1,
                         ending := Ending.returned false }
        else
          let ev1 := conn.1 ++
            [Event.send_client "HTTP/1.1 200 Connection Established\r\n\r\n",
             Event.log_request client_ip host "HTTPS_TUNNEL" 0,
             Event.log_url client_ip ("https://" ++ host) "CONNECT"]
          match stats with
          | none => { cache := cache, stats := none, events := ev1,
                      ending := Ending.null_dereference }
          | some st =>
            { cache := cache,
              stats := some ((st.record_request host client_ip).record_time host
                net.elapsed_ms),
              events := ev1 ++ [Event.tunnel, Event.close_origin],
              ending := Ending.returned true }
  | _, _ =>
    { cache := cache, stats := stats,
      events := [Event.send_client (error_response "Malformed CONNECT request")],
      ending := Ending.returned false }

/-- The tests by which `handle_client` chooses the branch that serves a request. -/
def route (request : String) : Route :=
  if find request "GET /stats" 0 = some 0 || (find request "GET /stats " 0).isSome then
    Route.stats_endpoint
  else if find request "CONNECT" 0 = some 0 then Route.connect_tunnel
  else Route.http_fetch

/-- The branch of `handle_client` for the statistics endpoint. -/
def handle_stats (cache : CacheManager) (stats : Option Statistics) (uptime : String) : Run :=
  match stats with
  | none =>
    { cache := cache, stats := none,
      events := [Event.send_client "HTTP/1.1 404 Not Found\r\n\r\nStats not enabled"],
      ending := Ending.returned true }
  | some st =>
    let stats_json := st.get_json_stats uptime
    { cache := cache, stats := some st,
      events := [Event.send_client ("HTTP/1.1 200 OK\r\n" ++
        "Content-Type: application/json\r\n" ++
        "Content-Length: " ++ toString stats_json.length ++ "\r\n" ++
        "\r\n" ++ stats_json)],
      ending := Ending.returned true }

/-- The method `RequestHandler::handle_client`; `peer` is the address `getpeername` gives
(`none` when it fails) and `received` the bytes of the one `recv` (`none` when it returns
no byte).  The client socket is closed when the chosen handler returns. -/
def handle_client (config : ConfigManager) (cache : CacheManager)
    (stats : Option Statistics) (net : Network) (now : Int) (uptime : String)
    (peer received : Option String) : Run :=
  match peer with
  | none =>
    { cache := cache, stats := stats,
      events := [Event.log_error "Failed to get client address", Event.close_client],
      ending := Ending.returned true }
  | some client_ip =>
    match received with
    | none => { cache := cache, stats := stats, events := [Event.close_client],
                ending := Ending.returned true }
    | some request =>
      let run :=
        match route request with
        | Route.stats_endpoint => handle_stats cache stats uptime
        | Route.connect_tunnel => handle_https_connect config cache stats net request client_ip
        | Route.http_fetch => handle_http_request config cache stats net now request client_ip
      match run.ending with
      | Ending.returned _ =>
        { run with events := run.events ++ [Event.close_client],
                   ending := Ending.returned true }
      | _ => run

end RequestHandler

namespace RequestHandler

/-- A policy that blocks the host `evil.test`. -/
def sample_policy : ConfigManager :=
  { ConfigManager.new with blocked_hosts := ["evil.test"] }

/-- A network on which every step of a fetch succeeds and the origin answers `OK`. -/
def sample_network : Network :=
  { dns_ok := true, socket_ok := true, connect_ok := true, send_ok := true,
    response := "HTTP/1.0 200 OK\r\nContent-Length: 2\r\n\r\nOK", fetch_time := 0,
    elapsed_ms := 5 }

end RequestHandler

namespace RequestHandler

open StdString

/-- Proof device: what `extract_path` computes from the first line of the request. -/
def path_in_line (first : String) : String :=
  let p1 := find first " " 0
  let p2 := find first " " (next_pos p1)
  match p1, p2 with
  | some i1, some i2 =>
    let path := substr first (i1 + 1) (some (i2 - i1 - 1))
    if find path "http://" 0 = some 0 then
      match find path "/" 7 with
      | none => "/"
      | some slash => substr path slash none
    else path
  | _, _ => "/"

end RequestHandler

namespace ConfigManager

open StdString

/-- The lines of a file that give `value` for the directive `key`: lines that are not
empty, do not start with '#', and whose trimmed text is `key` followed by `value`. -/
def gives_value (key line value : String) : Prop :=
  line ≠ "" ∧ line.data.head? ≠ some '#' ∧
  ∃ trimmed, trim_line line = some trimmed ∧ trimmed.data = key.data ++ value.data

end ConfigManager

namespace RequestHandler

/-- The policy of scenario S1: `PORT=18080, CACHE_LIMIT=10, CACHE_TTL=60`. -/
def scenario_policy : ConfigManager :=
  { ConfigManager.new with port := 18080, cache_limit := 10, cache_ttl := 60 }

/-- The request of scenario S1. -/
def scenario_request : String :=
  "GET http://example.test/ HTTP/1.1\r\nHost: example.test\r\n\r\n"

/-- A network on which no origin can be reached. -/
def dead_network : Network :=
  { dns_ok := false, socket_ok := false, connect_ok := false, send_ok := false,
    response := "", fetch_time := 0, elapsed_ms := 0 }

end RequestHandler

namespace RequestHandler

open StdString

/-- The calls of `Logger::log_request` among the calls of a run, in their order. -/
def log_requests (events : List Event) : List Event :=
  events.filter (fun e =>
    match e with
    | Event.log_request _ _ _ _ => true
    | _ => false)

/-- The value a response declares in its `Content-Length` header line, as it is written. -/
def declared_content_length (response : String) : Option String :=
  match find response "Content-Length: " 0 with
  | none => none
  | some i =>
    match find response "\r\n" (i + 16) with
    | none => none
    | some e => some (substr response (i + 16) (some (e - (i + 16))))

/-- The body of a response: the bytes that follow its first blank line. -/
def response_body (response : String) : Option String :=
  match find response "\r\n\r\n" 0 with
  | none => none
  | some i => some (substr response (i + 4) none)

/-- The response the statistics endpoint sends when the statistics exist. -/
def stats_response (stats_json : String) : String :=
  "HTTP/1.1 200 OK\r\n" ++
  "Content-Type: application/json\r\n" ++
  "Content-Length: " ++ toString stats_json.length ++ "\r\n" ++
  "\r\n" ++ stats_json

end RequestHandler

/-- What happens in the loop of `ProxyServer::accept_connections` and in the threads it
starts, one step at a time. -/
inductive LoopEvent where
  -- the loop has accepted a client, `sem_wait` has returned when the semaphore exists, and
  -- the thread that runs `handle_client` is started
  | worker_started
  -- in one thread `handle_client` has returned and the thread has called `sem_post` when
  -- the semaphore exists
  | worker_returned
  -- an exception leaves `handle_client` in one thread: the thread function does not catch
  -- it, so `std::terminate` ends the process with all its threads
  | worker_threw
deriving DecidableEq, Repr

/-- The fields of `ProxyServer` that limit the connections: the value of the named
semaphore (`none` when `sem_open` gave `SEM_FAILED`), and the number of threads that have
been started and have not yet passed their `sem_post`. -/
structure ProxyServer where
  max_connections : Int
  connection_semaphore : Option Nat
  workers : Nat
  terminated : Bool
deriving DecidableEq, Repr

namespace ProxyServer

/-- The constructor `ProxyServer::ProxyServer`, as far as the connection limit goes.
`configured` is the value of `config->get_max_connections()` and `sem_open_ok` tells
whether the system grants the semaphore.  The initial value is passed as an unsigned
number, so that for a negative `max_connections` it lies above `SEM_VALUE_MAX` and the
semaphore is never granted. -/
def new (max_conn configured : Int) (sem_open_ok : Bool) : ProxyServer :=
  let max_connections := if max_conn > 0 then max_conn else configured
  { max_connections := max_connections,
    connection_semaphore :=
      if sem_open_ok && decide (0 ≤ max_connections) then some max_connections.toNat
      else none,
    workers := 0,
    terminated := false }

/-- One step of `accept_connections` or of a thread it started; `none` when the step cannot
happen in the state: `sem_wait` does not return while the value of the semaphore is 0, no
thread can end when none runs, and nothing happens after the process has ended. -/
def step (s : ProxyServer) (e : LoopEvent) : Option ProxyServer :=
  if s.terminated then none
  else
    match e with
    | LoopEvent.worker_started =>
      match s.connection_semaphore with
      | none => some { s with workers := s.workers + 1 }
      | some 0 => none
      | some (v + 1) =>
        some { s with connection_semaphore := some v, workers := s.workers + 1 }
    | LoopEvent.worker_returned =>
      if s.workers = 0 then none
      else
        some { s with workers := s.workers - 1,
                      connection_semaphore := s.connection_semaphore.map (fun v => v + 1) }
    | LoopEvent.worker_threw =>
      if s.workers = 0 then none
      else some { s with workers := 0, terminated := true }

/-- The state after a sequence of steps, `none` when one of them cannot happen. -/
def run (s : ProxyServer) : List LoopEvent → Option ProxyServer
  | [] => some s
  | e :: es =>
    match step s e with
    | none => none
    | some s1 => run s1 es

/-- Proof device: while the semaphore exists, its value and the number of workers add up to
`max_connections`, until the process ends. -/
def permits_inv (s : ProxyServer) : Prop :=
  ∃ v, s.connection_semaphore = some v ∧
    (s.terminated = false → (v : Int) + s.workers = s.max_connections) ∧
    (s.terminated = true → s.workers = 0 ∧ (v : Int) ≤ s.max_connections)

/-- A server with two permits in which two workers run. -/
def sample_busy : ProxyServer :=
  { max_connections := 2, connection_semaphore := some 0, workers := 2, terminated := false }

end ProxyServer

/-! ## The `double` arithmetic of the hit rate -/

namespace Double

/-- The integer nearest to `y`; of two equally near integers the even one. -/
def round_half_even (y : ℚ) : ℤ :=
  if y - ⌊y⌋ < 1 / 2 then ⌊y⌋
  else if 1 / 2 < y - ⌊y⌋ then ⌊y⌋ + 1
  else if ⌊y⌋ % 2 = 0 then ⌊y⌋
  else ⌊y⌋ + 1

/-- The exponent `e` of the last place of the `double` next to `x`: the one with
`2 ^ 52 ≤ |x| / 2 ^ e < 2 ^ 53`, a `double` having 53 significant bits. -/
def ulp_exponent (x : ℚ) : ℤ :=
  Int.log 2 |x| - 52

/-- The value of the `double` that a conversion or an arithmetic operation with the exact
result `x` delivers: the nearest number with 53 significant bits, ties to even (IEEE 754
binary64 in the default rounding mode, every operation rounded to `double`).  The range of
the exponent is not limited here: the values that `get_hit_rate` computes are 0 or lie
between `2 ^ (-64)` and `2 ^ 71`, where every `double` is normal and none overflows. -/
def round (x : ℚ) : ℚ :=
  if x = 0 then 0
  else (round_half_even (x / (2 : ℚ) ^ ulp_exponent x) : ℚ) * (2 : ℚ) ^ ulp_exponent x

end Double

namespace CacheManager

/-- The method `CacheManager::get_hit_rate`; the result is the value of the `double` it
returns.  The sum of the two `unsigned long long` counters wraps at `2 ^ 64`; the hits and
the sum are converted to `double`, divided, and the quotient is multiplied by 100, each
step rounded. -/
def get_hit_rate (s : CacheManager) : ℚ :=
  let total : ℕ := (s.cache_hits + s.cache_misses) % 2 ^ 64
  if total = 0 then 0
  else Double.round (Double.round (Double.round s.cache_hits / Double.round total) * 100)

/-- A cache that has seen one hit and two misses. -/
def sample_one_in_three : CacheManager :=
  { CacheManager.new 10 60 with cache_hits := 1, cache_misses := 2 }

/-- A cache whose two counters add up to `2 ^ 64`. -/
def sample_wrapped : CacheManager :=
  { CacheManager.new 10 60 with cache_hits := 2 ^ 64 - 1, cache_misses := 1 }

end CacheManager

namespace RequestHandler

/-- A request in which the request line `line` is followed by the header line made of
`Host:`, `n + 1` spaces and `host`; `rest` holds the further header lines and the body. -/
def request_with_host (line host rest : String) (n : Nat) : String :=
  line ++ "\r\nHost: " ++ String.mk (List.replicate n ' ') ++ host ++ "\r\n" ++ rest

end RequestHandler

namespace CacheManager

/-! ## The map -/

theorem map_find_mem {m : List (String × (CacheEntry × NodeId))} {k : String}
    {v : CacheEntry × NodeId} (h : map_find m k = some v) : (k, v) ∈ m := by
  induction m with
  | nil => simp [map_find] at h
  | cons p m ih =>
    obtain ⟨k1, v1⟩ := p
    by_cases hk : k1 = k
    · simp [map_find, hk] at h
      simp [hk, h]
    · simp [map_find, hk] at h
      exact List.mem_cons_of_mem _ (ih h)

theorem map_find_none {m : List (String × (CacheEntry × NodeId))} {k : String} :
    map_find m k = none ↔ k ∉ map_keys m := by
  induction m with
  | nil => simp [map_find, map_keys]
  | cons p m ih =>
    obtain ⟨k1, v1⟩ := p
    by_cases hk : k1 = k
    · simp [map_find, map_keys, hk]
    · have hk2 : ¬ k = k1 := fun h => hk h.symm
      simp only [map_find, hk, if_false, ih]
      simp [map_keys, hk2]

theorem map_find_of_mem {m : List (String × (CacheEntry × NodeId))} {k : String}
    {v : CacheEntry × NodeId} (hn : (map_keys m).Nodup) (h : (k, v) ∈ m) :
    map_find m k = some v := by
  induction m with
  | nil => simp at h
  | cons p m ih =>
    obtain ⟨k1, v1⟩ := p
    simp only [map_keys, List.map_cons, List.nodup_cons] at hn
    rcases List.mem_cons.mp h with h1 | h1
    · injection h1 with h2 h3
      simp [map_find, h2, h3]
    · have hk : k1 ≠ k := by
        intro e
        apply hn.1
        rw [e]
        exact List.mem_map_of_mem Prod.fst h1
      simp only [map_find, hk, if_false]
      exact ih hn.2 h1

theorem mem_map_erase {m : List (String × (CacheEntry × NodeId))} {k : String}
    {p : String × (CacheEntry × NodeId)} : p ∈ map_erase m k ↔ p ∈ m ∧ p.1 ≠ k := by
  simp [map_erase, List.mem_filter]

theorem map_find_erase_self (m : List (String × (CacheEntry × NodeId))) (k : String) :
    map_find (map_erase m k) k = none := by
  rw [map_find_none]
  intro h
  obtain ⟨p, hp, hk⟩ := List.mem_map.mp h
  exact (mem_map_erase.mp hp).2 hk

theorem map_erase_cons_eq (m : List (String × (CacheEntry × NodeId))) (k : String)
    (v : CacheEntry × NodeId) : map_erase ((k, v) :: m) k = map_erase m k := by
  simp [map_erase, List.filter_cons]

theorem map_erase_cons_ne (m : List (String × (CacheEntry × NodeId))) {k k1 : String}
    (v : CacheEntry × NodeId) (h : k1 ≠ k) :
    map_erase ((k1, v) :: m) k = (k1, v) :: map_erase m k := by
  simp [map_erase, List.filter_cons, h]

theorem map_find_erase_ne (m : List (String × (CacheEntry × NodeId))) {k k1 : String}
    (h : k1 ≠ k) : map_find (map_erase m k) k1 = map_find m k1 := by
  induction m with
  | nil => simp [map_erase, map_find]
  | cons p m ih =>
    obtain ⟨k2, v2⟩ := p
    by_cases hk : k2 = k
    · subst hk
      have hk1 : ¬ k2 = k1 := fun e => h e.symm
      rw [map_erase_cons_eq, ih]
      simp [map_find, hk1]
    · rw [map_erase_cons_ne _ _ hk]
      simp [map_find, ih]

theorem map_erase_of_not_mem {m : List (String × (CacheEntry × NodeId))} {k : String}
    (h : k ∉ map_keys m) : map_erase m k = m := by
  unfold map_erase
  rw [List.filter_eq_self]
  intro p hp
  have : p.1 ≠ k := fun e => h (e ▸ List.mem_map_of_mem Prod.fst hp)
  simp [this]

theorem map_keys_erase_nodup {m : List (String × (CacheEntry × NodeId))} (k : String)
    (h : (map_keys m).Nodup) : (map_keys (map_erase m k)).Nodup :=
  h.sublist (List.Sublist.map _ (List.filter_sublist _))

theorem sum_sizes_erase {m : List (String × (CacheEntry × NodeId))} {k : String}
    {v : CacheEntry × NodeId} (hn : (map_keys m).Nodup) (h : map_find m k = some v) :
    sum_sizes m = v.1.size + sum_sizes (map_erase m k) := by
  induction m with
  | nil => simp [map_find] at h
  | cons p m ih =>
    obtain ⟨k1, v1⟩ := p
    simp only [map_keys, List.map_cons, List.nodup_cons] at hn
    by_cases hk : k1 = k
    · simp only [map_find, hk, if_true, Option.some.injEq] at h
      have hnot : k ∉ map_keys m := hk ▸ hn.1
      have e : map_erase ((k1, v1) :: m) k = map_erase m k := by
        simp [map_erase, List.filter_cons, hk]
      rw [e, map_erase_of_not_mem hnot, ← h]
      simp [sum_sizes]
    · simp only [map_find, hk, if_false] at h
      have e : map_erase ((k1, v1) :: m) k = (k1, v1) :: map_erase m k := by
        simp [map_erase, List.filter_cons, hk]
      rw [e]
      have := ih hn.2 h
      simp only [sum_sizes, List.map_cons, List.sum_cons] at this ⊢
      omega

/-! ## The recency list -/

theorem node_live_iff {l : List (NodeId × String)} {i : NodeId} :
    node_live l i = true ↔ i ∈ l.map Prod.fst := by
  simp [node_live]

theorem filter_node_eq_filter_key {l : List (NodeId × String)}
    (hid : (l.map Prod.fst).Nodup) (hk : (lru_keys l).Nodup) {i : NodeId} {k : String}
    (h : (i, k) ∈ l) :
    l.filter (fun n => decide (n.1 ≠ i)) = l.filter (fun n => decide (n.2 ≠ k)) := by
  apply List.filter_congr
  intro n hn
  by_cases h1 : n.1 = i
  · have e : n = (i, k) := List.inj_on_of_nodup_map hid hn h h1
    simp [e]
  · have h2 : n.2 ≠ k := by
      intro e2
      have e : n = (i, k) := List.inj_on_of_nodup_map hk hn h e2
      exact h1 (by rw [e])
    simp [h1, h2]

theorem list_erase_of_inv {s : CacheManager} (hs : cache_inv s) {key : String}
    {it : CacheEntry × NodeId} (h : map_find s.cache key = some it) :
    list_erase s.lru it.2 = some (s.lru.filter (fun n => decide (n.2 ≠ key))) := by
  obtain ⟨_, hid, hk, hml, _⟩ := hs
  have hmem : (it.2, key) ∈ s.lru := hml _ (map_find_mem h)
  have hlive : node_live s.lru it.2 = true :=
    node_live_iff.mpr (List.mem_map_of_mem Prod.fst hmem)
  simp only [list_erase, hlive, if_true]
  rw [filter_node_eq_filter_key hid hk hmem]

theorem lru_keys_filter_nodup {l : List (NodeId × String)} (q : NodeId × String → Bool)
    (h : (lru_keys l).Nodup) : (lru_keys (l.filter q)).Nodup :=
  h.sublist (List.Sublist.map _ (List.filter_sublist _))

/-! ## What the operations do to a state that satisfies the invariant -/

theorem remove_eq {s : CacheManager} (hs : cache_inv s) (key : String) :
    remove s key = some (drop_key s key) := by
  unfold remove drop_key
  cases h : map_find s.cache key with
  | none => rfl
  | some it => simp only [list_erase_of_inv hs h]

theorem size_le_total {s : CacheManager} (hs : cache_inv s) {key : String}
    {it : CacheEntry × NodeId} (h : map_find s.cache key = some it) :
    it.1.size ≤ s.total_size := by
  have := sum_sizes_erase hs.1 h
  have ht := hs.2.2.2.2.2.2.1
  omega

theorem map_erase_idem (m : List (String × (CacheEntry × NodeId))) (k : String) :
    map_erase (map_erase m k) k = map_erase m k := by
  simp [map_erase, List.filter_filter]

theorem get_eq {s : CacheManager} (hs : cache_inv s) (key : String) (now : Int) :
    get s key now =
      match map_find s.cache key with
      | none => some ({ s with cache_misses := s.cache_misses + 1 }, none)
      | some it =>
        if is_expired now it.1 then
          some ({ drop_key s key with cache_misses := s.cache_misses + 1 }, none)
        else
          some ({ push_entry (drop_key s key) key it.1 with cache_hits := s.cache_hits + 1 },
                some it.1.data) := by
  unfold get
  cases h : map_find s.cache key with
  | none => rfl
  | some it =>
    have hle := size_le_total hs h
    simp only [list_erase_of_inv hs h, drop_key, h, push_entry, map_assign, map_erase_idem]
    by_cases he : is_expired now it.1 = true
    · simp [he]
    · simp only [he]
      have : s.total_size - it.1.size + it.1.size = s.total_size := by omega
      simp [this]

theorem put_eq {s : CacheManager} (hs : cache_inv s) (key data : String) (ttl now : Int) :
    put s key data ttl now =
      some (add_entry (evict_if_needed (drop_key s key) data.length) key data
        (if ttl < 0 then s.default_ttl else ttl) now) := by
  unfold put drop_key
  cases h : map_find s.cache key with
  | none => rfl
  | some it => simp only [list_erase_of_inv hs h]

theorem add_entry_eq (s : CacheManager) (key data : String) (actual_ttl now : Int) :
    add_entry s key data actual_ttl now =
      push_entry s key
        { data := data, timestamp := now, ttl_seconds := actual_ttl, size := data.length } :=
  rfl

theorem drop_key_cache (s : CacheManager) (key : String) :
    (drop_key s key).cache = map_erase s.cache key := by
  unfold drop_key
  cases h : map_find s.cache key with
  | none => exact (map_erase_of_not_mem (map_find_none.mp h)).symm
  | some it => rfl

theorem not_mem_lru_of_not_mem_map {s : CacheManager} (hs : cache_inv s) {key : String}
    (h : key ∉ map_keys s.cache) : key ∉ lru_keys s.lru := by
  intro hk
  obtain ⟨n, hn, e⟩ := List.mem_map.mp hk
  exact h (e ▸ hs.2.2.2.2.1 n hn)

theorem drop_key_lru {s : CacheManager} (hs : cache_inv s) (key : String) :
    (drop_key s key).lru = s.lru.filter (fun n => decide (n.2 ≠ key)) := by
  unfold drop_key
  cases h : map_find s.cache key with
  | none =>
    have hk := not_mem_lru_of_not_mem_map hs (map_find_none.mp h)
    symm
    rw [List.filter_eq_self]
    intro n hn
    have : n.2 ≠ key := fun e => hk (e ▸ List.mem_map_of_mem Prod.snd hn)
    simp [this]
  | some it => rfl

theorem drop_key_fields (s : CacheManager) (key : String) :
    (drop_key s key).fresh = s.fresh ∧ (drop_key s key).max_entries = s.max_entries ∧
    (drop_key s key).default_ttl = s.default_ttl ∧
    (drop_key s key).max_size_bytes = s.max_size_bytes ∧
    (drop_key s key).cache_hits = s.cache_hits ∧
    (drop_key s key).cache_misses = s.cache_misses := by
  unfold drop_key
  cases map_find s.cache key <;> simp

theorem drop_key_inv {s : CacheManager} (hs : cache_inv s) (key : String) :
    cache_inv (drop_key s key) := by
  have hc := drop_key_cache s key
  have hl := drop_key_lru hs key
  have hf := (drop_key_fields s key).1
  obtain ⟨h1, h2, h3, h4, h5, h6, h7, h8⟩ := hs
  refine ⟨?_, ?_, ?_, ?_, ?_, ?_, ?_, ?_⟩
  · rw [hc]; exact map_keys_erase_nodup key h1
  · rw [hl]; exact h2.sublist (List.Sublist.map _ (List.filter_sublist _))
  · rw [hl]; exact lru_keys_filter_nodup _ h3
  · rw [hc, hl]
    intro p hp
    obtain ⟨hp1, hp2⟩ := mem_map_erase.mp hp
    exact List.mem_filter.mpr ⟨h4 p hp1, by simp [hp2]⟩
  · rw [hc, hl]
    intro n hn
    obtain ⟨hn1, hn2⟩ := List.mem_filter.mp hn
    have hn3 : n.2 ≠ key := by simpa using hn2
    obtain ⟨p, hp, e⟩ := List.mem_map.mp (h5 n hn1)
    exact List.mem_map.mpr ⟨p, mem_map_erase.mpr ⟨hp, e ▸ hn3⟩, e⟩
  · rw [hl, hf]
    intro n hn
    exact h6 n (List.mem_filter.mp hn).1
  · unfold drop_key
    cases h : map_find s.cache key with
    | none => exact h7
    | some it =>
      have := sum_sizes_erase h1 h
      show s.total_size - it.1.size = sum_sizes (map_erase s.cache key)
      omega
  · rw [hc]
    intro p hp
    exact h8 p (mem_map_erase.mp hp).1

theorem push_entry_inv {s : CacheManager} (hs : cache_inv s) {key : String}
    (hk : key ∉ map_keys s.cache) {entry : CacheEntry}
    (he : entry.size = entry.data.length) : cache_inv (push_entry s key entry) := by
  have hkl := not_mem_lru_of_not_mem_map hs hk
  obtain ⟨h1, h2, h3, h4, h5, h6, h7, h8⟩ := hs
  have hme := map_erase_of_not_mem hk
  simp only [cache_inv, push_entry, map_assign, hme]
  refine ⟨?_, ?_, ?_, ?_, ?_, ?_, ?_, ?_⟩
  · simp only [map_keys, List.map_cons, List.nodup_cons]
    exact ⟨hk, h1⟩
  · simp only [List.map_cons, List.nodup_cons]
    refine ⟨?_, h2⟩
    intro hmem
    obtain ⟨n, hn, e⟩ := List.mem_map.mp hmem
    have hlt : n.1 < s.fresh := h6 n hn
    rw [e] at hlt
    exact Nat.lt_irrefl _ hlt
  · simp only [lru_keys, List.map_cons, List.nodup_cons]
    exact ⟨hkl, h3⟩
  · intro p hp
    rcases List.mem_cons.mp hp with e | hp
    · simp [e]
    · exact List.mem_cons_of_mem _ (h4 p hp)
  · intro n hn
    rcases List.mem_cons.mp hn with e | hn
    · simp [e, map_keys]
    · simp only [map_keys, List.map_cons]
      exact List.mem_cons_of_mem _ (h5 n hn)
  · intro n hn
    rcases List.mem_cons.mp hn with e | hn
    · simp [e]
    · exact Nat.lt_succ_of_lt (h6 n hn)
  · simp only [sum_sizes, List.map_cons, List.sum_cons] at h7 ⊢
    omega
  · intro p hp
    rcases List.mem_cons.mp hp with e | hp
    · simp [e, he]
    · exact h8 p hp

theorem not_mem_drop_key (s : CacheManager) (key : String) :
    key ∉ map_keys (drop_key s key).cache := by
  rw [drop_key_cache]
  exact map_find_none.mp (map_find_erase_self _ _)

theorem evict_oldest_eq {s : CacheManager} (hs : cache_inv s) {init : List (NodeId × String)}
    {n : NodeId × String} (hl : s.lru = init ++ [n]) :
    evict_oldest s = drop_key s n.2 ∧ (drop_key s n.2).lru = init := by
  have hmem : n ∈ s.lru := by rw [hl]; simp
  have hkey : n.2 ∈ map_keys s.cache := hs.2.2.2.2.1 n hmem
  have hfilter : s.lru.filter (fun x => decide (x.2 ≠ n.2)) = init := by
    have hnd : (lru_keys s.lru).Nodup := hs.2.2.1
    rw [hl] at hnd ⊢
    simp only [lru_keys, List.map_append, List.map_cons, List.map_nil] at hnd
    have hnot : n.2 ∉ init.map Prod.snd := by
      intro hin
      exact (List.nodup_append.mp hnd).2.2 hin (by simp)
    rw [List.filter_append]
    have e1 : init.filter (fun x => decide (x.2 ≠ n.2)) = init := by
      rw [List.filter_eq_self]
      intro x hx
      have : x.2 ≠ n.2 := fun e => hnot (e ▸ List.mem_map_of_mem Prod.snd hx)
      simp [this]
    rw [e1]
    simp
  constructor
  · unfold evict_oldest drop_key
    have hlast : s.lru.getLast? = some n := by rw [hl]; simp
    have hdrop : s.lru.dropLast = init := by rw [hl]; simp
    simp only [hlast, hdrop]
    cases h : map_find s.cache n.2 with
    | none => exact absurd hkey (map_find_none.mp h)
    | some it => simp only [hfilter]
  · rw [drop_key_lru hs, hfilter]

/-! ## The eviction loop -/

theorem evict_oldest_lru (s : CacheManager) : (evict_oldest s).lru = s.lru.dropLast := by
  unfold evict_oldest
  cases h : s.lru.getLast? with
  | none =>
    have : s.lru = [] := List.getLast?_eq_none_iff.mp h
    simp [this]
  | some n =>
    simp only
    cases map_find s.cache n.2 <;> rfl

theorem evicts_refl {s : CacheManager} (hs : cache_inv s) : Evicts s s := by
  refine ⟨⟨[], by simp⟩, ?_, hs, rfl, rfl, rfl, rfl, rfl, rfl⟩
  symm
  rw [List.filter_eq_self]
  intro p hp
  have : p.1 ∈ lru_keys s.lru :=
    List.mem_map.mpr ⟨(p.2.2, p.1), hs.2.2.2.1 p hp, rfl⟩
  simp [this]

theorem evicts_trans {s s1 s2 : CacheManager} (h1 : Evicts s s1) (h2 : Evicts s1 s2) :
    Evicts s s2 := by
  obtain ⟨e1, he1⟩ := h1.back
  obtain ⟨e2, he2⟩ := h2.back
  refine ⟨⟨e2 ++ e1, by rw [he1, he2, List.append_assoc]⟩, ?_, h2.inv,
    h2.fresh_eq.trans h1.fresh_eq, h2.max_entries_eq.trans h1.max_entries_eq,
    h2.default_ttl_eq.trans h1.default_ttl_eq,
    h2.max_size_bytes_eq.trans h1.max_size_bytes_eq,
    h2.cache_hits_eq.trans h1.cache_hits_eq, h2.cache_misses_eq.trans h1.cache_misses_eq⟩
  rw [h2.kept, h1.kept, List.filter_filter]
  apply List.filter_congr
  intro p _
  by_cases hp : p.1 ∈ lru_keys s2.lru
  · have : p.1 ∈ lru_keys s1.lru := by
      rw [he2]
      simp only [lru_keys, List.map_append, List.mem_append]
      exact Or.inl hp
    simp [hp, this]
  · simp [hp]

theorem evicts_oldest {s : CacheManager} (hs : cache_inv s) (hne : s.lru ≠ []) :
    Evicts s (evict_oldest s) := by
  obtain ⟨init, last, hl⟩ : ∃ init last, s.lru = init ++ [last] :=
    ⟨_, _, (List.dropLast_append_getLast hne).symm⟩
  obtain ⟨he, hlru⟩ := evict_oldest_eq hs hl
  have hf := drop_key_fields s last.2
  rw [he]
  refine ⟨⟨[last], by rw [hlru]; exact hl⟩, ?_, drop_key_inv hs _,
    hf.1, hf.2.1, hf.2.2.1, hf.2.2.2.1, hf.2.2.2.2.1, hf.2.2.2.2.2⟩
  rw [drop_key_cache, hlru]
  unfold map_erase
  apply List.filter_congr
  intro p hp
  have hmem : (p.2.2, p.1) ∈ s.lru := hs.2.2.2.1 p hp
  have hnd : (lru_keys s.lru).Nodup := hs.2.2.1
  rw [hl] at hnd hmem
  simp only [lru_keys, List.map_append, List.map_cons, List.map_nil] at hnd
  have hnot : last.2 ∉ lru_keys init := by
    intro hin
    exact (List.nodup_append.mp hnd).2.2 hin (by simp)
  rw [decide_eq_decide]
  constructor
  · intro hk
    rcases List.mem_append.mp hmem with h | h
    · exact List.mem_map.mpr ⟨_, h, rfl⟩
    · exfalso
      apply hk
      have := List.mem_singleton.mp h
      rw [← this]
  · intro hin hk
    exact hnot (hk ▸ hin)

theorem evict_while_evicts (cond : CacheManager → Bool) (n : Nat) {s : CacheManager}
    (hs : cache_inv s) : Evicts s (evict_while cond n s) := by
  induction n generalizing s with
  | zero => exact evicts_refl hs
  | succ n ih =>
    unfold evict_while
    by_cases hc : (cond s && !s.lru.isEmpty) = true
    · simp only [hc, if_true]
      have hne : s.lru ≠ [] := by
        intro e
        simp [e] at hc
      have h1 := evicts_oldest hs hne
      exact evicts_trans h1 (ih h1.inv)
    · rw [if_neg hc]
      exact evicts_refl hs

/-- The fuel of the eviction loop is enough: with `lru.size()` turns or more the loop has
left through its own test, so its condition is false or the list is empty. -/
theorem evict_while_exit (cond : CacheManager → Bool) (n : Nat) (s : CacheManager)
    (hn : s.lru.length ≤ n) :
    cond (evict_while cond n s) = false ∨ (evict_while cond n s).lru = [] := by
  induction n generalizing s with
  | zero =>
    right
    exact List.length_eq_zero.mp (Nat.le_zero.mp hn)
  | succ n ih =>
    unfold evict_while
    by_cases hc : (cond s && !s.lru.isEmpty) = true
    · simp only [hc, if_true]
      apply ih
      rw [evict_oldest_lru, List.length_dropLast]
      omega
    · rw [if_neg hc]
      cases hcs : cond s with
      | false => exact Or.inl rfl
      | true =>
        right
        simpa [hcs] using hc

/-! ## The sweep -/

theorem node_before_append (pre : List (NodeId × String)) (x y : NodeId × String)
    (suf : List (NodeId × String))
    (hid : ((pre ++ x :: y :: suf).map Prod.fst).Nodup) :
    node_before y.1 (pre ++ x :: y :: suf) = some x := by
  induction pre with
  | nil => simp [node_before]
  | cons a pre ih =>
    have hid2 : ((pre ++ x :: y :: suf).map Prod.fst).Nodup := by
      simp only [List.cons_append, List.map_cons, List.nodup_cons] at hid
      exact hid.2
    have hmem : y ∈ pre ++ x :: y :: suf := by simp
    cases pre with
    | nil =>
      have hne : x.1 ≠ y.1 := by
        simp only [List.nil_append, List.map_cons, List.nodup_cons, List.mem_cons] at hid2
        intro e
        exact hid2.1 (Or.inl e)
      simp only [List.cons_append, List.nil_append, node_before, hne, if_false]
      simp
    | cons b pre =>
      have hne : b.1 ≠ y.1 := by
        simp only [List.cons_append, List.map_cons, List.nodup_cons] at hid2
        intro e
        apply hid2.1
        rw [e]
        exact List.mem_map_of_mem Prod.fst (by simp)
      have := ih hid2
      simp only [List.cons_append, node_before, hne, if_false] at this ⊢
      exact this

theorem rev_deref_at (pre : List (NodeId × String)) (x : NodeId × String)
    (suf : List (NodeId × String)) (hid : ((pre ++ x :: suf).map Prod.fst).Nodup) :
    rev_deref (pre ++ x :: suf) (iter_at suf) = some x := by
  cases suf with
  | nil => simp [iter_at, rev_deref]
  | cons y suf => exact node_before_append pre x y suf hid

theorem iter_at_valid (pre suf : List (NodeId × String)) :
    iter_valid (pre ++ suf) (iter_at suf) = true := by
  cases suf with
  | nil => rfl
  | cons y suf => simp [iter_at, iter_valid, node_live]

theorem iter_at_ne_begin (pre : List (NodeId × String)) (x : NodeId × String)
    (suf : List (NodeId × String)) (hid : ((pre ++ x :: suf).map Prod.fst).Nodup) :
    iter_at suf ≠ list_begin (pre ++ x :: suf) := by
  cases suf with
  | nil => cases pre <;> simp [iter_at, list_begin]
  | cons y suf =>
    have hy : ∀ z ∈ pre ++ [x], z.1 ≠ y.1 := by
      intro z hz e
      have h1 : pre ++ x :: y :: suf = (pre ++ [x]) ++ y :: suf := by simp
      rw [h1, List.map_append] at hid
      exact (List.nodup_append.mp hid).2.2 (List.mem_map_of_mem Prod.fst hz)
        (e ▸ List.mem_map_of_mem Prod.fst (List.mem_cons_self y suf))
    cases pre with
    | nil =>
      have := hy x (by simp)
      simp only [iter_at, list_begin, List.nil_append, ne_eq, ListIter.node.injEq]
      exact fun e => this e.symm
    | cons a pre =>
      have := hy a (by simp)
      simp only [iter_at, list_begin, List.cons_append, ne_eq, ListIter.node.injEq]
      exact fun e => this e.symm

/-- The sweep from the node in front of `suffix` on: it returns, with the state untouched,
when no node in front is expired, and it uses an invalidated iterator when one is. -/
theorem cleanup_loop_spec (now : Int) {s : CacheManager} (hs : cache_inv s)
    (pre : List (NodeId × String)) :
    ∀ (suf : List (NodeId × String)) (fuel : Nat), s.lru = pre ++ suf →
      pre.length + 1 ≤ fuel →
      cleanup_loop now fuel s (iter_at suf) =
        if pre.any (node_expired s now) then Outcome.undefined_behaviour
        else Outcome.done s := by
  induction pre using List.reverseRecOn with
  | nil =>
    intro suf fuel hl hf
    obtain ⟨m, rfl⟩ : ∃ m, fuel = m + 1 := ⟨fuel - 1, by omega⟩
    have hv : iter_valid s.lru (iter_at suf) = true := by
      rw [hl]; exact iter_at_valid [] suf
    have hb : iter_at suf = list_begin s.lru := by
      rw [hl]; cases suf <;> rfl
    unfold cleanup_loop
    rw [if_neg (by simp [hv]), if_pos hb]
    simp
  | append_singleton pre x ih =>
    intro suf fuel hl hf
    obtain ⟨m, rfl⟩ : ∃ m, fuel = m + 1 := ⟨fuel - 1, by omega⟩
    have hm : pre.length + 1 ≤ m := by
      simp only [List.length_append, List.length_singleton] at hf
      omega
    have hl2 : s.lru = pre ++ x :: suf := by rw [hl]; simp
    have hid : ((pre ++ x :: suf).map Prod.fst).Nodup := hl2 ▸ hs.2.1
    have hv : iter_valid s.lru (iter_at suf) = true := by
      rw [hl]; exact iter_at_valid _ _
    have hb : iter_at suf ≠ list_begin s.lru := by
      rw [hl2]; exact iter_at_ne_begin pre x suf hid
    have hd : rev_deref s.lru (iter_at suf) = some x := by
      rw [hl2]; exact rev_deref_at pre x suf hid
    have hx : x ∈ s.lru := by rw [hl2]; simp
    have hrec := ih (x :: suf) m hl2 hm
    simp only [iter_at] at hrec
    unfold cleanup_loop
    simp only [hv, hb, hd, Bool.not_true, if_false]
    simp only [List.any_append, List.any_cons, List.any_nil, Bool.or_false]
    cases hfind : map_find s.cache x.2 with
    | none =>
      have hne : node_expired s now x = false := by simp [node_expired, hfind]
      simp only [hrec, hne, Bool.or_false]
      rfl
    | some it =>
      by_cases he : is_expired now it.1 = true
      · have hne : node_expired s now x = true := by simp [node_expired, hfind, he]
        have hit : it.2 = x.1 := by
          have h1 : (it.2, x.2) ∈ s.lru := hs.2.2.2.1 _ (map_find_mem hfind)
          have := List.inj_on_of_nodup_map hs.2.2.1 h1 hx rfl
          rw [← this]
        have hlive : node_live s.lru it.2 = true :=
          node_live_iff.mpr (hit ▸ List.mem_map_of_mem Prod.fst hx)
        have hdead : node_live (s.lru.filter (fun n => decide (n.1 ≠ it.2))) x.1 = false := by
          rw [← hit]
          simp [node_live]
        simp only [hne, Bool.or_true, he, list_erase, hlive, ↓reduceIte]
        obtain ⟨k, rfl⟩ : ∃ k, m = k + 1 := ⟨m - 1, by omega⟩
        unfold cleanup_loop
        simp only [iter_valid, hdead, Bool.not_false, ↓reduceIte]
        split <;> rfl
      · have hne : node_expired s now x = false := by simp [node_expired, hfind, he]
        simp only [hrec, hne, Bool.or_false, he]
        rfl

/-- What `cleanup_expired` does to a state that satisfies the invariant: nothing when no
entry is expired; as soon as one is, the erased node is the one the reverse iterator
stores, and the next loop test uses that invalidated iterator. -/
theorem cleanup_expired_spec {s : CacheManager} (hs : cache_inv s) (now : Int) :
    cleanup_expired s now =
      if s.lru.any (node_expired s now) then Outcome.undefined_behaviour
      else Outcome.done s := by
  unfold cleanup_expired
  have := cleanup_loop_spec now hs s.lru [] (s.lru.length + 1) (by simp) (Nat.le_refl _)
  simpa [iter_at] using this

theorem cleanup_expired_done {s s1 : CacheManager} (hs : cache_inv s) {now : Int}
    (h : cleanup_expired s now = Outcome.done s1) : s1 = s := by
  rw [cleanup_expired_spec hs] at h
  by_cases hc : s.lru.any (node_expired s now) = true
  · simp [hc] at h
  · simp only [hc] at h
    injection h with h
    exact h.symm

theorem evict_if_needed_evicts {s : CacheManager} (hs : cache_inv s) (new_size : Nat) :
    Evicts s (evict_if_needed s new_size) :=
  evict_while_evicts _ _ hs

/-- The loop of `evict_if_needed` ends by its own test. -/
theorem evict_if_needed_exit (s : CacheManager) (new_size : Nat) :
    over_limit new_size (evict_if_needed s new_size) = false ∨
    (evict_if_needed s new_size).lru = [] :=
  evict_while_exit _ _ s (Nat.le_refl _)

/-! ## Every operation keeps the invariant -/

theorem cache_inv_congr {s s1 : CacheManager} (hc : s1.cache = s.cache) (hl : s1.lru = s.lru)
    (hf : s1.fresh = s.fresh) (ht : s1.total_size = s.total_size) (hs : cache_inv s) :
    cache_inv s1 := by
  unfold cache_inv at hs ⊢
  rw [hc, hl, hf, ht]
  exact hs

theorem new_inv (max_entries : Nat) (default_ttl : Int) :
    cache_inv (CacheManager.new max_entries default_ttl) := by
  simp [cache_inv, CacheManager.new, map_keys, lru_keys, sum_sizes]

theorem get_inv {s s1 : CacheManager} {r : Option String} {key : String} {now : Int}
    (hs : cache_inv s) (h : get s key now = some (s1, r)) : cache_inv s1 := by
  rw [get_eq hs] at h
  cases hf : map_find s.cache key with
  | none =>
    simp only [hf, Option.some.injEq, Prod.mk.injEq] at h
    rw [← h.1]
    exact cache_inv_congr rfl rfl rfl rfl hs
  | some it =>
    simp only [hf] at h
    cases he : is_expired now it.1 with
    | true =>
      simp only [he, if_true, Option.some.injEq, Prod.mk.injEq] at h
      rw [← h.1]
      exact cache_inv_congr rfl rfl rfl rfl (drop_key_inv hs key)
    | false =>
      simp only [he, Bool.false_eq_true, if_false, Option.some.injEq, Prod.mk.injEq] at h
      rw [← h.1]
      exact cache_inv_congr rfl rfl rfl rfl
        (push_entry_inv (drop_key_inv hs key) (not_mem_drop_key s key)
          (hs.2.2.2.2.2.2.2 _ (map_find_mem hf)))

theorem evicts_not_mem {s s1 : CacheManager} (h : Evicts s s1) {key : String}
    (hk : key ∉ map_keys s.cache) : key ∉ map_keys s1.cache := by
  intro hin
  obtain ⟨p, hp, e⟩ := List.mem_map.mp hin
  rw [h.kept] at hp
  exact hk (e ▸ List.mem_map_of_mem Prod.fst (List.mem_filter.mp hp).1)

theorem put_inv {s s1 : CacheManager} {key data : String} {ttl now : Int}
    (hs : cache_inv s) (h : put s key data ttl now = some s1) : cache_inv s1 := by
  rw [put_eq hs] at h
  injection h with h
  rw [← h, add_entry_eq]
  have hev := evict_while_evicts (over_limit data.length) (drop_key s key).lru.length
    (drop_key_inv hs key)
  exact push_entry_inv hev.inv (evicts_not_mem hev (not_mem_drop_key s key)) rfl

theorem remove_inv {s s1 : CacheManager} {key : String} (hs : cache_inv s)
    (h : remove s key = some s1) : cache_inv s1 := by
  rw [remove_eq hs] at h
  injection h with h
  exact h ▸ drop_key_inv hs key

theorem clear_inv (s : CacheManager) : cache_inv (clear s) := by
  simp [cache_inv, clear, map_keys, lru_keys, sum_sizes]

theorem set_max_entries_evicts {s : CacheManager} (hs : cache_inv s) (max : Nat) :
    Evicts { s with max_entries := max } (set_max_entries s max) := by
  have h1 : cache_inv { s with max_entries := max } := cache_inv_congr rfl rfl rfl rfl hs
  exact evict_while_evicts _ _ h1

theorem set_max_size_evicts {s : CacheManager} (hs : cache_inv s) (bytes : Nat) :
    Evicts { s with max_size_bytes := bytes } (set_max_size s bytes) := by
  have h1 : cache_inv { s with max_size_bytes := bytes } := cache_inv_congr rfl rfl rfl rfl hs
  exact evict_while_evicts _ _ h1

theorem set_max_entries_inv {s : CacheManager} (hs : cache_inv s) (max : Nat) :
    cache_inv (set_max_entries s max) :=
  (set_max_entries_evicts hs max).inv

theorem set_max_size_inv {s : CacheManager} (hs : cache_inv s) (bytes : Nat) :
    cache_inv (set_max_size s bytes) :=
  (set_max_size_evicts hs bytes).inv

theorem set_default_ttl_inv {s : CacheManager} (hs : cache_inv s) (seconds : Int) :
    cache_inv (set_default_ttl s seconds) :=
  cache_inv_congr rfl rfl rfl rfl hs

theorem reachable_inv {s : CacheManager} (h : Reachable s) : cache_inv s := by
  induction h with
  | new m t => exact new_inv m t
  | get key now _ hg ih => exact get_inv ih hg
  | put key data ttl now _ hp ih => exact put_inv ih hp
  | remove key _ hr ih => exact remove_inv ih hr
  | clear _ ih => exact clear_inv _
  | set_max_entries max _ ih => exact set_max_entries_inv ih max
  | set_default_ttl seconds _ ih => exact set_default_ttl_inv ih seconds
  | set_max_size bytes _ ih => exact set_max_size_inv ih bytes
  | cleanup_expired now _ hc ih => exact cleanup_expired_done ih hc ▸ ih

/-- On a state that satisfies the invariant `get`, `put` and `remove` return: no stored
iterator is invalid. -/
theorem operations_return {s : CacheManager} (hs : cache_inv s) (key data : String)
    (ttl now : Int) :
    (get s key now).isSome = true ∧ (put s key data ttl now).isSome = true ∧
    (remove s key).isSome = true := by
  refine ⟨?_, by rw [put_eq hs]; rfl, by rw [remove_eq hs]; rfl⟩
  rw [get_eq hs]
  cases hf : map_find s.cache key with
  | none => rfl
  | some it =>
    by_cases he : is_expired now it.1 = true
    · simp [he]
    · simp [he]

/-! ## The two limits -/

theorem sum_sizes_filter_le (m : List (String × (CacheEntry × NodeId)))
    (q : String × (CacheEntry × NodeId) → Bool) : sum_sizes (m.filter q) ≤ sum_sizes m := by
  induction m with
  | nil => simp [sum_sizes]
  | cons p m ih =>
    simp only [sum_sizes, List.map_cons, List.sum_cons] at ih ⊢
    by_cases hq : q p = true
    · simp only [List.filter_cons, hq, if_true, List.map_cons, List.sum_cons]
      omega
    · simp only [List.filter_cons, hq]
      simp only [Bool.false_eq_true, if_false]
      omega

theorem map_erase_length (m : List (String × (CacheEntry × NodeId))) {k : String}
    {v : CacheEntry × NodeId} (hn : (map_keys m).Nodup) (h : map_find m k = some v) :
    (map_erase m k).length + 1 = m.length := by
  induction m with
  | nil => simp [map_find] at h
  | cons p m ih =>
    obtain ⟨k1, v1⟩ := p
    simp only [map_keys, List.map_cons, List.nodup_cons] at hn
    by_cases hk : k1 = k
    · subst hk
      rw [map_erase_cons_eq, map_erase_of_not_mem hn.1]
      rfl
    · simp only [map_find, hk, if_false] at h
      rw [map_erase_cons_ne _ _ hk]
      simp only [List.length_cons]
      rw [ih hn.2 h]

theorem cache_empty_of_lru_empty {s : CacheManager} (hs : cache_inv s) (h : s.lru = []) :
    s.cache = [] ∧ s.total_size = 0 := by
  have hc : s.cache = [] := by
    cases hcs : s.cache with
    | nil => rfl
    | cons p m =>
      have := hs.2.2.2.1 p (by rw [hcs]; simp)
      rw [h] at this
      simp at this
  refine ⟨hc, ?_⟩
  have := hs.2.2.2.2.2.2.1
  rw [this, hc]
  rfl

/-- A state with fewer entries and bytes under the same limits is within them too. -/
theorem within_limits_shrink {s s1 : CacheManager} (h : within_limits s)
    (hs1 : cache_inv s1) (hlen : s1.cache.length ≤ s.cache.length)
    (htot : s1.total_size ≤ s.total_size) (hme : s1.max_entries = s.max_entries)
    (hmb : s1.max_size_bytes = s.max_size_bytes) : within_limits s1 := by
  unfold within_limits at h ⊢
  rw [hme, hmb]
  rcases h with h | h
  · left; omega
  · rcases Nat.eq_zero_or_pos s1.cache.length with h0 | hpos
    · left
      have hc : s1.cache = [] := List.length_eq_zero.mp h0
      have ht : s1.total_size = 0 := by
        rw [hs1.2.2.2.2.2.2.1, hc]; rfl
      omega
    · right; omega

theorem drop_key_shrinks (s : CacheManager) (key : String) :
    (drop_key s key).cache.length ≤ s.cache.length ∧
    (drop_key s key).total_size ≤ s.total_size := by
  constructor
  · rw [drop_key_cache]
    exact List.length_filter_le _ _
  · unfold drop_key
    cases map_find s.cache key with
    | none => exact Nat.le_refl _
    | some it => exact Nat.sub_le _ _

theorem evicts_shrinks {s s1 : CacheManager} (hs : cache_inv s) (h : Evicts s s1) :
    s1.cache.length ≤ s.cache.length ∧ s1.total_size ≤ s.total_size := by
  constructor
  · rw [h.kept]
    exact List.length_filter_le _ _
  · rw [h.inv.2.2.2.2.2.2.1, hs.2.2.2.2.2.2.1, h.kept]
    exact sum_sizes_filter_le _ _

theorem get_within_limits {s s1 : CacheManager} {r : Option String} {key : String}
    {now : Int} (hs : cache_inv s) (hw : within_limits s)
    (h : get s key now = some (s1, r)) : within_limits s1 := by
  have hs1 := get_inv hs h
  rw [get_eq hs] at h
  cases hf : map_find s.cache key with
  | none =>
    simp only [hf, Option.some.injEq, Prod.mk.injEq] at h
    rw [← h.1]
    exact hw
  | some it =>
    simp only [hf] at h
    have hd := drop_key_shrinks s key
    have hfl := drop_key_fields s key
    cases he : is_expired now it.1 with
    | true =>
      simp only [he, if_true, Option.some.injEq, Prod.mk.injEq] at h
      have e := h.1
      subst e
      exact within_limits_shrink hw hs1 hd.1 hd.2 hfl.2.1 hfl.2.2.2.1
    | false =>
      simp only [he, Bool.false_eq_true, if_false, Option.some.injEq, Prod.mk.injEq] at h
      have e := h.1
      subst e
      have hlen := map_erase_length s.cache hs.1 hf
      have hle := size_le_total hs hf
      have hme := map_erase_of_not_mem (not_mem_drop_key s key)
      refine within_limits_shrink hw hs1 ?_ ?_ hfl.2.1 hfl.2.2.2.1
      · show (map_assign (drop_key s key).cache key _).length ≤ _
        rw [map_assign, hme, drop_key_cache]
        simp only [List.length_cons]
        omega
      · show (drop_key s key).total_size + it.1.size ≤ _
        simp only [drop_key, hf]
        omega

theorem put_within_limits {s s1 : CacheManager} {key data : String} {ttl now : Int}
    (hs : cache_inv s) (h : put s key data ttl now = some s1) : within_limits s1 := by
  rw [put_eq hs] at h
  injection h with h
  subst h
  have hev := evict_while_evicts (over_limit data.length) (drop_key s key).lru.length
    (drop_key_inv hs key)
  have hex := evict_while_exit (over_limit data.length) (drop_key s key).lru.length
    (drop_key s key) (Nat.le_refl _)
  have hnot := evicts_not_mem hev (not_mem_drop_key s key)
  have hme := map_erase_of_not_mem hnot
  unfold within_limits
  show ((map_assign (evict_if_needed (drop_key s key) data.length).cache key _).length ≤ _ ∧
      (evict_if_needed (drop_key s key) data.length).total_size + data.length ≤ _) ∨
    (map_assign (evict_if_needed (drop_key s key) data.length).cache key _).length = 1
  unfold evict_if_needed
  rw [map_assign, hme]
  rcases hex with hex | hex
  · left
    simp only [over_limit, Bool.or_eq_false_iff, decide_eq_false_iff_not] at hex
    simp only [List.length_cons]
    constructor
    · exact Nat.succ_le_of_lt (Nat.lt_of_not_le hex.1)
    · exact Nat.le_of_not_lt hex.2
  · right
    rw [(cache_empty_of_lru_empty hev.inv hex).1]
    rfl

theorem set_max_entries_within_limits {s : CacheManager} (hs : cache_inv s)
    (hw : within_limits s) (max : Nat) : within_limits (set_max_entries s max) := by
  have hev := set_max_entries_evicts hs max
  have h0 : cache_inv { s with max_entries := max } := cache_inv_congr rfl rfl rfl rfl hs
  have hsh := evicts_shrinks h0 hev
  have hex := evict_while_exit (fun t => decide (t.cache.length > t.max_entries))
    s.lru.length { s with max_entries := max } (Nat.le_refl _)
  have hlen : (set_max_entries s max).cache.length ≤ (set_max_entries s max).max_entries := by
    rcases hex with hex | hex
    · simp only [decide_eq_false_iff_not] at hex
      exact Nat.le_of_not_lt hex
    · rw [(cache_empty_of_lru_empty hev.inv hex).1]
      exact Nat.zero_le _
  have hw1 : within_limits (set_max_entries s max) ∨
      (set_max_entries s max).total_size ≤ (set_max_entries s max).max_size_bytes := by
    rcases hw with hw | hw
    · right
      rw [hev.max_size_bytes_eq]
      exact Nat.le_trans hsh.2 hw.2
    · left
      rcases Nat.eq_zero_or_pos (set_max_entries s max).cache.length with h0 | hpos
      · left
        have hc : (set_max_entries s max).cache = [] := List.length_eq_zero.mp h0
        have ht : (set_max_entries s max).total_size = 0 := by
          rw [hev.inv.2.2.2.2.2.2.1, hc]; rfl
        rw [h0, ht]
        exact ⟨Nat.zero_le _, Nat.zero_le _⟩
      · right
        have := hsh.1
        simp only at this
        omega
  rcases hw1 with h | h
  · exact h
  · exact Or.inl ⟨hlen, h⟩

theorem set_max_size_within_limits {s : CacheManager} (hs : cache_inv s)
    (hw : within_limits s) (bytes : Nat) : within_limits (set_max_size s bytes) := by
  have hev := set_max_size_evicts hs bytes
  have h0 : cache_inv { s with max_size_bytes := bytes } := cache_inv_congr rfl rfl rfl rfl hs
  have hsh := evicts_shrinks h0 hev
  have hex := evict_while_exit (fun t => decide (t.total_size > t.max_size_bytes))
    s.lru.length { s with max_size_bytes := bytes } (Nat.le_refl _)
  have htot : (set_max_size s bytes).total_size ≤ (set_max_size s bytes).max_size_bytes := by
    rcases hex with hex | hex
    · simp only [decide_eq_false_iff_not] at hex
      exact Nat.le_of_not_lt hex
    · rw [(cache_empty_of_lru_empty hev.inv hex).2]
      exact Nat.zero_le _
  rcases hw with hw | hw
  · left
    refine ⟨?_, htot⟩
    rw [hev.max_entries_eq]
    exact Nat.le_trans hsh.1 hw.1
  · rcases Nat.eq_zero_or_pos (set_max_size s bytes).cache.length with h0 | hpos
    · left
      rw [h0]
      exact ⟨Nat.zero_le _, htot⟩
    · right
      have := hsh.1
      simp only at this
      omega

theorem reachable_within_limits {s : CacheManager} (h : Reachable s) : within_limits s := by
  induction h with
  | new m t => left; simp [CacheManager.new]
  | get key now hr hg ih => exact get_within_limits (reachable_inv hr) ih hg
  | put key data ttl now hr hp ih => exact put_within_limits (reachable_inv hr) hp
  | @remove s s1 key hr hrm ih =>
    have hs := reachable_inv hr
    rw [remove_eq hs] at hrm
    injection hrm with hrm
    subst hrm
    have hd := drop_key_shrinks s key
    have hfl := drop_key_fields s key
    exact within_limits_shrink ih (drop_key_inv hs key) hd.1 hd.2 hfl.2.1 hfl.2.2.2.1
  | clear _ ih => left; simp [clear]
  | set_max_entries max hr ih => exact set_max_entries_within_limits (reachable_inv hr) ih max
  | set_default_ttl seconds _ ih => exact ih
  | set_max_size bytes hr ih => exact set_max_size_within_limits (reachable_inv hr) ih bytes
  | cleanup_expired now hr hc ih => exact cleanup_expired_done (reachable_inv hr) hc ▸ ih

/-! ## The claims -/

theorem sample_one_reachable : Reachable sample_one :=
  Reachable.put "a" "xy" (-1) 0 (Reachable.new 2 3600) (by decide)

/-- C1: in every state reachable from a new cache by `get`, `put`, `remove`, `clear`,
`set_max_entries`, `set_default_ttl`, `set_max_size` and `cleanup_expired`, the map and the
recency list hold the same keys, every key exactly once in each, so that the map has as
many elements as the list has nodes. -/
theorem C1_map_and_recency_list_hold_the_same_keys (s : CacheManager) (h : Reachable s) :
    (∀ k, k ∈ map_keys s.cache ↔ k ∈ lru_keys s.lru) ∧
    (∀ k, k ∈ map_keys s.cache → (lru_keys s.lru).count k = 1) ∧
    (∀ k, k ∈ lru_keys s.lru → (map_keys s.cache).count k = 1) ∧
    s.cache.length = s.lru.length := by
  have hs := reachable_inv h
  have hiff : ∀ k, k ∈ map_keys s.cache ↔ k ∈ lru_keys s.lru := by
    intro k
    constructor
    · intro hk
      obtain ⟨p, hp, e⟩ := List.mem_map.mp hk
      exact List.mem_map.mpr ⟨(p.2.2, p.1), hs.2.2.2.1 p hp, e⟩
    · intro hk
      obtain ⟨n, hn, e⟩ := List.mem_map.mp hk
      exact e ▸ hs.2.2.2.2.1 n hn
  refine ⟨hiff, ?_, ?_, ?_⟩
  · intro k hk
    exact List.count_eq_one_of_mem hs.2.2.1 ((hiff k).mp hk)
  · intro k hk
    exact List.count_eq_one_of_mem hs.1 ((hiff k).mpr hk)
  · have hperm : (map_keys s.cache).Perm (lru_keys s.lru) :=
      (List.perm_ext_iff_of_nodup hs.1 hs.2.2.1).mpr hiff
    have := hperm.length_eq
    simpa [map_keys, lru_keys] using this

theorem C1_witness :
    Reachable sample_one ∧
    ((∀ k, k ∈ map_keys sample_one.cache ↔ k ∈ lru_keys sample_one.lru) ∧
     (∀ k, k ∈ map_keys sample_one.cache → (lru_keys sample_one.lru).count k = 1) ∧
     (∀ k, k ∈ lru_keys sample_one.lru → (map_keys sample_one.cache).count k = 1) ∧
     sample_one.cache.length = sample_one.lru.length) :=
  ⟨sample_one_reachable,
   C1_map_and_recency_list_hold_the_same_keys sample_one sample_one_reachable⟩

/-- C2: in every state reachable from a new cache by the public operations, `total_size`
is the sum of `entry.size` over the entries of the map, and the size recorded in an entry
is the length of its payload. -/
theorem C2_total_size_is_the_sum_of_entry_sizes (s : CacheManager) (h : Reachable s) :
    s.total_size = sum_sizes s.cache ∧
    (∀ p ∈ s.cache, p.2.1.size = p.2.1.data.length) :=
  ⟨(reachable_inv h).2.2.2.2.2.2.1, (reachable_inv h).2.2.2.2.2.2.2⟩

theorem C2_witness :
    Reachable sample_one ∧
    (sample_one.total_size = sum_sizes sample_one.cache ∧
     (∀ p ∈ sample_one.cache, p.2.1.size = p.2.1.data.length)) :=
  ⟨sample_one_reachable, C2_total_size_is_the_sum_of_entry_sizes sample_one sample_one_reachable⟩

theorem sample_zero_reachable : Reachable sample_zero :=
  Reachable.put "a" "xy" (-1) 0 (Reachable.new 0 3600) (by decide)

/-- C3, as stated, fails: on a new cache built with `max_entries = 0`, `put("a", "xy")`
leaves one entry, more than `max_entries`, although the payload of two bytes is far below
`max_size_bytes`. -/
theorem C3_counterexample :
    put (CacheManager.new 0 3600) "a" "xy" (-1) 0 = some sample_zero ∧
    ¬ (sample_zero.cache.length ≤ sample_zero.max_entries ∧
       sample_zero.total_size ≤ sample_zero.max_size_bytes) ∧
    ¬ ("xy".length > sample_zero.max_size_bytes) := by
  decide

/-- C3, amended: in every state reachable by the public operations the number of entries
is at most `max_entries` and `total_size` is at most `max_size_bytes`, except when the
cache holds exactly one entry and either that entry is by itself larger than
`max_size_bytes` or `max_entries` is 0. -/
theorem C3_limits_hold_except_for_a_single_entry (s : CacheManager) (h : Reachable s) :
    (s.cache.length ≤ s.max_entries ∧ s.total_size ≤ s.max_size_bytes) ∨
    (∃ p, s.cache = [p] ∧
      (p.2.1.data.length > s.max_size_bytes ∨ s.max_entries = 0)) := by
  have hs := reachable_inv h
  rcases reachable_within_limits h with hw | hw
  · exact Or.inl hw
  · obtain ⟨p, hp⟩ := List.length_eq_one.mp hw
    have ht : s.total_size = p.2.1.data.length := by
      rw [hs.2.2.2.2.2.2.1, ← hs.2.2.2.2.2.2.2 p (by rw [hp]; simp), hp]
      simp [sum_sizes]
    by_cases h1 : p.2.1.data.length > s.max_size_bytes
    · exact Or.inr ⟨p, hp, Or.inl h1⟩
    · by_cases h2 : s.max_entries = 0
      · exact Or.inr ⟨p, hp, Or.inr h2⟩
      · left
        rw [hw, ht]
        exact ⟨Nat.one_le_iff_ne_zero.mpr h2, Nat.le_of_not_lt h1⟩

theorem C3_witness :
    Reachable sample_zero ∧
    ((sample_zero.cache.length ≤ sample_zero.max_entries ∧
        sample_zero.total_size ≤ sample_zero.max_size_bytes) ∨
     (∃ p, sample_zero.cache = [p] ∧
       (p.2.1.data.length > sample_zero.max_size_bytes ∨ sample_zero.max_entries = 0))) :=
  ⟨sample_zero_reachable,
   C3_limits_hold_except_for_a_single_entry sample_zero sample_zero_reachable⟩

/-- What `put` leaves and what the `get` that follows returns. -/
theorem put_then_get {s : CacheManager} (hs : cache_inv s) (key data : String)
    (ttl now later : Int)
    (hfresh : later - now ≤ (if ttl < 0 then s.default_ttl else ttl)) :
    ∃ s1 s2, put s key data ttl now = some s1 ∧
      get s1 key later = some (s2, some data) ∧
      (lru_keys s1.lru).count key = 1 ∧
      (map_keys s1.cache).count key = 1 ∧
      s1.total_size = data.length + sum_sizes (map_erase s1.cache key) := by
  have hp := put_eq hs key data ttl now
  have hs1 := put_inv hs hp
  generalize hE : evict_if_needed (drop_key s key) data.length = sE at hp hs1
  generalize hT : (if ttl < 0 then s.default_ttl else ttl) = actual at hp hs1 hfresh
  have hfind : map_find (add_entry sE key data actual now).cache key =
      some ({ data := data, timestamp := now, ttl_seconds := actual,
              size := data.length }, sE.fresh) := by
    simp [add_entry, map_assign, map_find]
  have hexp : is_expired later
      { data := data, timestamp := now, ttl_seconds := actual, size := data.length }
        = false := by
    simp only [is_expired, decide_eq_false_iff_not]
    omega
  have hg := get_eq hs1 key later
  simp only [hfind, hexp, Bool.false_eq_true, if_false] at hg
  refine ⟨_, _, hp, hg, ?_, ?_, ?_⟩
  · apply List.count_eq_one_of_mem hs1.2.2.1
    simp [add_entry, lru_keys]
  · apply List.count_eq_one_of_mem hs1.1
    simp [add_entry, map_keys, map_assign]
  · rw [hs1.2.2.2.2.2.2.1, sum_sizes_erase hs1.1 hfind]

/-- C4: on every well-formed cache state, after `put(key, data, ttl)` with `ttl >= 0` at
time `now`, a `get(key)` at a time `later` with `later - now <= ttl` hits and returns
exactly `data`; the key is once in the recency list and once in the map, and `total_size`
is the length of `data` plus the sizes of the other entries.  The same holds when the
state is the result of an earlier `put` of another payload `data1` under the same key. -/
theorem C4_get_after_put_returns_the_payload (s : CacheManager) (key data : String)
    (ttl now later : Int) (hs : cache_inv s) (httl : 0 ≤ ttl) (hfresh : later - now ≤ ttl) :
    (∃ s1 s2, put s key data ttl now = some s1 ∧
      get s1 key later = some (s2, some data) ∧
      (lru_keys s1.lru).count key = 1 ∧
      (map_keys s1.cache).count key = 1 ∧
      s1.total_size = data.length + sum_sizes (map_erase s1.cache key)) ∧
    (∀ (data1 : String) (ttl1 now1 : Int), ∃ s0 s1 s2,
      put s key data1 ttl1 now1 = some s0 ∧
      put s0 key data ttl now = some s1 ∧
      get s1 key later = some (s2, some data) ∧
      (lru_keys s1.lru).count key = 1 ∧
      (map_keys s1.cache).count key = 1 ∧
      s1.total_size = data.length + sum_sizes (map_erase s1.cache key)) := by
  have hneg : ¬ ttl < 0 := by omega
  constructor
  · apply put_then_get hs
    simp only [hneg, if_false]
    exact hfresh
  · intro data1 ttl1 now1
    have hp0 := put_eq hs key data1 ttl1 now1
    have hs0 := put_inv hs hp0
    obtain ⟨s1, s2, h⟩ := put_then_get hs0 key data ttl now later
      (by simp only [hneg, if_false]; exact hfresh)
    exact ⟨_, s1, s2, hp0, h⟩

theorem C4_witness :
    cache_inv sample_one ∧ (0 : Int) ≤ 60 ∧ (50 : Int) - 10 ≤ 60 ∧
    ((∃ s1 s2, put sample_one "a" "pq" 60 10 = some s1 ∧
      get s1 "a" 50 = some (s2, some "pq") ∧
      (lru_keys s1.lru).count "a" = 1 ∧
      (map_keys s1.cache).count "a" = 1 ∧
      s1.total_size = "pq".length + sum_sizes (map_erase s1.cache "a")) ∧
    (∀ (data1 : String) (ttl1 now1 : Int), ∃ s0 s1 s2,
      put sample_one "a" data1 ttl1 now1 = some s0 ∧
      put s0 "a" "pq" 60 10 = some s1 ∧
      get s1 "a" 50 = some (s2, some "pq") ∧
      (lru_keys s1.lru).count "a" = 1 ∧
      (map_keys s1.cache).count "a" = 1 ∧
      s1.total_size = "pq".length + sum_sizes (map_erase s1.cache "a"))) :=
  ⟨by decide, by decide, by decide,
   C4_get_after_put_returns_the_payload sample_one "a" "pq" 60 10 50
     (by decide) (by decide) (by decide)⟩

/-- C5: on every well-formed cache state that holds `key` with entry `it.1`, `get(key)`
at time `now` returns, and it is a hit (with the stored payload) exactly when
`now - timestamp <= ttl_seconds`; when `now - timestamp > ttl_seconds` it is a miss, the
key is gone from the map and from the recency list while the other entries and nodes stay
as they were, `total_size` is smaller by the entry's size, `cache_misses` is one more and
`cache_hits` is unchanged. -/
theorem C5_get_is_a_hit_iff_fresh (s : CacheManager) (key : String) (now : Int)
    (it : CacheEntry × NodeId) (hs : cache_inv s) (hf : map_find s.cache key = some it) :
    ∃ s1 r, get s key now = some (s1, r) ∧
      (r = some it.1.data ↔ now - it.1.timestamp ≤ it.1.ttl_seconds) ∧
      (r = none ↔ now - it.1.timestamp > it.1.ttl_seconds) ∧
      (now - it.1.timestamp > it.1.ttl_seconds →
        key ∉ map_keys s1.cache ∧ key ∉ lru_keys s1.lru ∧
        s1.cache = map_erase s.cache key ∧
        s1.lru = s.lru.filter (fun n => decide (n.2 ≠ key)) ∧
        s1.total_size + it.1.size = s.total_size ∧
        s1.cache_misses = s.cache_misses + 1 ∧ s1.cache_hits = s.cache_hits) := by
  have hg := get_eq hs key now
  simp only [hf] at hg
  cases he : is_expired now it.1 with
  | true =>
    have hgt : now - it.1.timestamp > it.1.ttl_seconds := by
      simpa [is_expired] using he
    simp only [he, if_true] at hg
    have hnot : key ∉ map_keys (drop_key s key).cache := not_mem_drop_key s key
    refine ⟨_, _, hg, ?_, ?_, ?_⟩
    · constructor
      · intro h; cases h
      · intro h; omega
    · exact ⟨fun _ => hgt, fun _ => rfl⟩
    · intro _
      refine ⟨hnot, not_mem_lru_of_not_mem_map (drop_key_inv hs key) hnot,
        drop_key_cache s key, drop_key_lru hs key, ?_, rfl, (drop_key_fields s key).2.2.2.2.1⟩
      have hle := size_le_total hs hf
      show (drop_key s key).total_size + it.1.size = s.total_size
      simp only [drop_key, hf]
      omega
  | false =>
    have hle : ¬ now - it.1.timestamp > it.1.ttl_seconds := by
      simpa [is_expired] using he
    simp only [he, Bool.false_eq_true, if_false] at hg
    refine ⟨_, _, hg, ?_, ?_, ?_⟩
    · exact ⟨fun _ => by omega, fun _ => rfl⟩
    · constructor
      · intro h; cases h
      · intro h; exact absurd h hle
    · intro h; exact absurd h hle

theorem C5_witness :
    cache_inv sample_one ∧
    map_find sample_one.cache "a" =
      some ({ data := "xy", timestamp := 0, ttl_seconds := 3600, size := 2 }, 0) ∧
    (∃ s1 r, get sample_one "a" 3601 = some (s1, r) ∧
      (r = some "xy" ↔ (3601 : Int) - 0 ≤ 3600) ∧
      (r = none ↔ (3601 : Int) - 0 > 3600) ∧
      ((3601 : Int) - 0 > 3600 →
        "a" ∉ map_keys s1.cache ∧ "a" ∉ lru_keys s1.lru ∧
        s1.cache = map_erase sample_one.cache "a" ∧
        s1.lru = sample_one.lru.filter (fun n => decide (n.2 ≠ "a")) ∧
        s1.total_size + 2 = sample_one.total_size ∧
        s1.cache_misses = sample_one.cache_misses + 1 ∧
        s1.cache_hits = sample_one.cache_hits)) :=
  ⟨by decide, by decide,
   C5_get_is_a_hit_iff_fresh sample_one "a" 3601
     ({ data := "xy", timestamp := 0, ttl_seconds := 3600, size := 2 }, 0)
     (by decide) (by decide)⟩

/-- C6, as stated, fails: on a new cache built with `max_entries = 0`, `put("a", "xy")`
leaves the entry in the cache, and the `get("a")` right after it is a hit with "xy". -/
theorem C6_counterexample :
    (CacheManager.new 0 3600).max_entries = 0 ∧
    put (CacheManager.new 0 3600) "a" "xy" (-1) 0 = some sample_zero ∧
    sample_zero.cache ≠ [] ∧
    (get sample_zero "a" 0).map Prod.snd = some (some "xy") := by
  decide

/-- C6, amended: when `max_entries = 0`, `put(key, data)` evicts every entry the cache
held and then stores its own, so that afterwards the cache holds exactly the entry of
`key`; a `get` of any other key is a miss, and a `get(key)` within the time-to-live is a
hit with `data`. -/
theorem C6_put_with_zero_max_entries_keeps_only_the_new_entry (s : CacheManager)
    (key data : String) (ttl now : Int) (hs : cache_inv s) (h0 : s.max_entries = 0) :
    ∃ s1, put s key data ttl now = some s1 ∧
      map_keys s1.cache = [key] ∧ lru_keys s1.lru = [key] ∧
      s1.total_size = data.length ∧
      (∀ (other : String) (later : Int), other ≠ key →
        ∃ s2, get s1 other later = some (s2, none)) ∧
      (∀ later : Int, later - now ≤ (if ttl < 0 then s.default_ttl else ttl) →
        ∃ s2, get s1 key later = some (s2, some data)) := by
  have hp := put_eq hs key data ttl now
  have hs1 := put_inv hs hp
  show ∃ s1, put s key data ttl now = some s1 ∧
      map_keys s1.cache = [key] ∧ lru_keys s1.lru = [key] ∧
      s1.total_size = data.length ∧
      (∀ (other : String) (later : Int), other ≠ key →
        ∃ s2, get s1 other later = some (s2, none)) ∧
      (∀ later : Int, later - now ≤ (if ttl < 0 then s.default_ttl else ttl) →
        ∃ s2, get s1 key later = some (s2, some data))
  have hev := evict_if_needed_evicts (drop_key_inv hs key) data.length
  have hex := evict_if_needed_exit (drop_key s key) data.length
  have hm : (evict_if_needed (drop_key s key) data.length).max_entries = 0 := by
    rw [hev.max_entries_eq, (drop_key_fields s key).2.1, h0]
  generalize evict_if_needed (drop_key s key) data.length = sE at hp hs1 hev hex hm
  generalize (if ttl < 0 then s.default_ttl else ttl) = actual at hp hs1
  have hlru : sE.lru = [] := by
    rcases hex with hex | hex
    · exfalso
      simp only [over_limit, Bool.or_eq_false_iff, decide_eq_false_iff_not] at hex
      apply hex.1
      rw [hm]
      exact Nat.zero_le _
    · exact hex
  have hemp := cache_empty_of_lru_empty hev.inv hlru
  have hc : (add_entry sE key data actual now).cache =
      [(key, ({ data := data, timestamp := now, ttl_seconds := actual,
                size := data.length }, sE.fresh))] := by
    simp [add_entry, map_assign, map_erase, hemp.1]
  refine ⟨_, hp, ?_, ?_, ?_, ?_, ?_⟩
  · rw [hc]; rfl
  · simp [add_entry, hlru, lru_keys]
  · simp [add_entry, hemp.2]
  · intro other later hne
    have hg := get_eq hs1 other later
    have hfind : map_find (add_entry sE key data actual now).cache other = none := by
      rw [hc]
      simp [map_find, hne.symm]
    simp only [hfind] at hg
    exact ⟨_, hg⟩
  · intro later hl
    have hfind : map_find (add_entry sE key data actual now).cache key =
        some ({ data := data, timestamp := now, ttl_seconds := actual,
                size := data.length }, sE.fresh) := by
      rw [hc]
      simp [map_find]
    have hexp : is_expired later
        { data := data, timestamp := now, ttl_seconds := actual, size := data.length }
          = false := by
      simp only [is_expired, decide_eq_false_iff_not]
      omega
    have hg := get_eq hs1 key later
    simp only [hfind, hexp, Bool.false_eq_true, if_false] at hg
    exact ⟨_, hg⟩

theorem C6_witness :
    cache_inv sample_zero ∧ sample_zero.max_entries = 0 ∧
    (∃ s1, put sample_zero "b" "pqr" 60 10 = some s1 ∧
      map_keys s1.cache = ["b"] ∧ lru_keys s1.lru = ["b"] ∧
      s1.total_size = "pqr".length ∧
      (∀ (other : String) (later : Int), other ≠ "b" →
        ∃ s2, get s1 other later = some (s2, none)) ∧
      (∀ later : Int, later - 10 ≤ (if (60 : Int) < 0 then sample_zero.default_ttl else 60) →
        ∃ s2, get s1 "b" later = some (s2, some "pqr"))) :=
  ⟨by decide, by decide,
   C6_put_with_zero_max_entries_keeps_only_the_new_entry sample_zero "b" "pqr" 60 10
     (by decide) (by decide)⟩

theorem map_find_filter_key (m : List (String × (CacheEntry × NodeId))) (q : String → Bool)
    {k : String} (hq : q k = true) :
    map_find (m.filter (fun p => q p.1)) k = map_find m k := by
  induction m with
  | nil => rfl
  | cons p m ih =>
    obtain ⟨k1, v1⟩ := p
    by_cases hk : k1 = k
    · subst hk
      simp [List.filter_cons, hq, map_find]
    · by_cases hq1 : q k1 = true
      · simp [List.filter_cons, hq1, map_find, hk, ih]
      · simp [List.filter_cons, hq1, map_find, hk, ih]

/-- Which nodes a `put` evicts: the recency list without the node of `key` splits into the
keys kept, which follow `key` in the new list, and the keys evicted, behind them. -/
theorem put_evicts_suffix {s : CacheManager} (hs : cache_inv s) (key data : String)
    (ttl now : Int) :
    ∃ s1 kept evicted, put s key data ttl now = some s1 ∧
      lru_keys (s.lru.filter (fun n => decide (n.2 ≠ key))) = kept ++ evicted ∧
      (kept ++ evicted).Nodup ∧
      lru_keys s1.lru = key :: kept ∧ key ∉ evicted ∧
      (∀ k ∈ evicted, k ∉ map_keys s1.cache) ∧
      (∀ k ∈ kept, map_find s1.cache k = map_find s.cache k) := by
  have hp := put_eq hs key data ttl now
  have hd := drop_key_inv hs key
  have hev := evict_if_needed_evicts hd data.length
  obtain ⟨ev, hback⟩ := hev.back
  have hnot : key ∉ lru_keys (drop_key s key).lru :=
    not_mem_lru_of_not_mem_map hd (not_mem_drop_key s key)
  generalize evict_if_needed (drop_key s key) data.length = sE at hp hev hback
  generalize (if ttl < 0 then s.default_ttl else ttl) = actual at hp
  have hsplit : lru_keys (drop_key s key).lru = lru_keys sE.lru ++ lru_keys ev := by
    rw [hback]; simp [lru_keys]
  have hnd : (lru_keys sE.lru ++ lru_keys ev).Nodup := hsplit ▸ hd.2.2.1
  have hkev : key ∉ lru_keys ev := by
    intro h
    apply hnot
    rw [hsplit]
    exact List.mem_append_right _ h
  have hkkept : key ∉ lru_keys sE.lru := by
    intro h
    apply hnot
    rw [hsplit]
    exact List.mem_append_left _ h
  refine ⟨_, lru_keys sE.lru, lru_keys ev, hp, ?_, hnd, ?_, hkev, ?_, ?_⟩
  · rw [← drop_key_lru hs, hsplit]
  · simp [add_entry, lru_keys]
  · intro k hk hin
    have hne : k ≠ key := fun e => hkev (e ▸ hk)
    have hin2 : k ∈ map_keys sE.cache := by
      simp only [add_entry, map_assign, map_keys, List.map_cons, List.mem_cons] at hin
      rcases hin with e | hin
      · exact absurd e hne
      · obtain ⟨p, hp1, e⟩ := List.mem_map.mp hin
        exact e ▸ List.mem_map_of_mem Prod.fst (mem_map_erase.mp hp1).1
    obtain ⟨p, hp1, e⟩ := List.mem_map.mp hin2
    have hkl : k ∈ lru_keys sE.lru :=
      List.mem_map.mpr ⟨(p.2.2, p.1), hev.inv.2.2.2.1 p hp1, e⟩
    exact (List.nodup_append.mp hnd).2.2 hkl hk
  · intro k hk
    have hne : k ≠ key := fun e => hkkept (e ▸ hk)
    have h1 : map_find (add_entry sE key data actual now).cache k = map_find sE.cache k := by
      simp only [add_entry, map_assign, map_find, hne.symm, if_false]
      exact map_find_erase_ne _ hne
    rw [h1, hev.kept,
      map_find_filter_key _ (fun x => decide (x ∈ lru_keys sE.lru)) (by simpa using hk),
      drop_key_cache, map_find_erase_ne _ hne]

theorem get_hit_front {s s0 : CacheManager} (hs : cache_inv s) {g v : String} {t0 : Int}
    (h : get s g t0 = some (s0, some v)) : ∃ rest, s0.lru = (s.fresh, g) :: rest := by
  rw [get_eq hs] at h
  cases hf : map_find s.cache g with
  | none => simp [hf] at h
  | some it =>
    simp only [hf] at h
    cases he : is_expired t0 it.1 with
    | true => simp [he] at h
    | false =>
      simp only [he, Bool.false_eq_true, if_false, Option.some.injEq, Prod.mk.injEq] at h
      rw [← h.1]
      exact ⟨(drop_key s g).lru, by simp [push_entry, (drop_key_fields s g).1]⟩

/-- C7, as stated, fails: in a cache of one slot, after `put("a")` and a `get("a")` that
hits, `put("b")` evicts "a", the key the preceding `get` returned. -/
theorem C7_counterexample :
    one_slot_get_a.map Prod.snd = some (some "xy") ∧
    one_slot_put_b.map (fun s => (map_keys s.cache, lru_keys s.lru)) = some (["b"], ["b"]) := by
  decide

/-- C7, amended: a `put` evicts from the back of the recency list: the list without the
node of the key that is put splits into the keys kept, which follow the new key in the new
list with their entries untouched, and the keys evicted, which are gone from the map; the
key just inserted is never among the evicted, and the key returned by the successful `get`
right before the `put` is evicted only when the `put` evicts every entry.  In scenario S5
(two slots) the puts of a, b, c leave b and c, `get(a)` misses, `get(b)` hits and moves b
to the front, and the put of d evicts c and keeps b. -/
theorem C7_put_evicts_from_the_back (s : CacheManager) (key data : String) (ttl now : Int)
    (hs : cache_inv s) :
    (∃ s1 kept evicted, put s key data ttl now = some s1 ∧
      lru_keys (s.lru.filter (fun n => decide (n.2 ≠ key))) = kept ++ evicted ∧
      lru_keys s1.lru = key :: kept ∧ key ∉ evicted ∧
      (∀ k ∈ evicted, k ∉ map_keys s1.cache) ∧
      (∀ k ∈ kept, map_find s1.cache k = map_find s.cache k) ∧
      (∀ (before : CacheManager) (g v : String) (t0 : Int), cache_inv before →
        get before g t0 = some (s, some v) → g ∈ evicted → kept = [])) ∧
    (scenario_abc.map (fun t => (map_keys t.cache, lru_keys t.lru))
        = some (["c", "b"], ["c", "b"]) ∧
     scenario_get_a.map Prod.snd = some none ∧
     scenario_get_b.map (fun r => (r.2, lru_keys r.1.lru)) = some (some "B", ["b", "c"]) ∧
     scenario_put_d.map (fun t => (map_keys t.cache, lru_keys t.lru))
        = some (["d", "b"], ["d", "b"])) := by
  refine ⟨?_, by decide⟩
  obtain ⟨s1, kept, evicted, hp, hsplit, hnd, hl, hk, hgone, hkept⟩ :=
    put_evicts_suffix hs key data ttl now
  refine ⟨s1, kept, evicted, hp, hsplit, hl, hk, hgone, hkept, ?_⟩
  intro before g v t0 hb hg hge
  obtain ⟨rest, hfront⟩ := get_hit_front hb hg
  have hne : g ≠ key := fun e => hk (e ▸ hge)
  cases kept with
  | nil => rfl
  | cons k0 kept =>
    exfalso
    rw [hfront] at hsplit
    simp only [List.filter_cons, hne, ne_eq, not_false_eq_true, decide_True, if_true,
      lru_keys, List.map_cons, List.cons_append, List.cons.injEq] at hsplit
    have hk0 : k0 ∈ evicted := hsplit.1 ▸ hge
    simp only [List.cons_append, List.nodup_cons, List.mem_append] at hnd
    exact hnd.1 (Or.inr hk0)

theorem C7_witness :
    cache_inv sample_after_get_b ∧
    scenario_get_b = some (sample_after_get_b, some "B") ∧
    ((∃ s1 kept evicted, put sample_after_get_b "d" "D" (-1) 5 = some s1 ∧
      lru_keys (sample_after_get_b.lru.filter (fun n => decide (n.2 ≠ "d")))
        = kept ++ evicted ∧
      lru_keys s1.lru = "d" :: kept ∧ "d" ∉ evicted ∧
      (∀ k ∈ evicted, k ∉ map_keys s1.cache) ∧
      (∀ k ∈ kept, map_find s1.cache k = map_find sample_after_get_b.cache k) ∧
      (∀ (before : CacheManager) (g v : String) (t0 : Int), cache_inv before →
        get before g t0 = some (sample_after_get_b, some v) → g ∈ evicted → kept = [])) ∧
    (scenario_abc.map (fun t => (map_keys t.cache, lru_keys t.lru))
        = some (["c", "b"], ["c", "b"]) ∧
     scenario_get_a.map Prod.snd = some none ∧
     scenario_get_b.map (fun r => (r.2, lru_keys r.1.lru)) = some (some "B", ["b", "c"]) ∧
     scenario_put_d.map (fun t => (map_keys t.cache, lru_keys t.lru))
        = some (["d", "b"], ["d", "b"]))) :=
  ⟨by decide, by decide,
   C7_put_evicts_from_the_back sample_after_get_b "d" "D" (-1) 5 (by decide)⟩

/-- C8: on an empty cache with `max_entries >= 1`, a `put(key, data)` whose payload is
longer than `max_size_bytes` returns and leaves the cache holding exactly `key`; a
`get(key)` within the time-to-live returns `data`; and the next `put(key2, data2)` with
`key2` different from `key`, whatever `data2`, evicts `key`: it is in neither the map nor
the recency list any more. -/
theorem C8_oversized_entry_is_stored_then_evicted (s : CacheManager)
    (key data key2 data2 : String) (ttl now ttl2 now2 : Int) (hs : cache_inv s)
    (hempty : s.cache = []) (_hmax : 1 ≤ s.max_entries)
    (hbig : data.length > s.max_size_bytes) (hne : key2 ≠ key) :
    ∃ s1, put s key data ttl now = some s1 ∧
      map_keys s1.cache = [key] ∧ lru_keys s1.lru = [key] ∧
      (∀ later : Int, later - now ≤ (if ttl < 0 then s.default_ttl else ttl) →
        ∃ s2, get s1 key later = some (s2, some data)) ∧
      (∃ s3, put s1 key2 data2 ttl2 now2 = some s3 ∧
        key ∉ map_keys s3.cache ∧ key ∉ lru_keys s3.lru ∧
        map_keys s3.cache = [key2] ∧ lru_keys s3.lru = [key2]) := by
  have hl : s.lru = [] := by
    cases hls : s.lru with
    | nil => rfl
    | cons n l =>
      have := hs.2.2.2.2.1 n (by rw [hls]; simp)
      rw [hempty] at this
      simp [map_keys] at this
  have ht : s.total_size = 0 := by
    rw [hs.2.2.2.2.2.2.1, hempty]; rfl
  have hp : put s key data ttl now =
      some (add_entry s key data (if ttl < 0 then s.default_ttl else ttl) now) := by
    simp [put, hempty, map_find, evict_if_needed, hl, evict_while]
  have hs1 := put_inv hs hp
  generalize (if ttl < 0 then s.default_ttl else ttl) = actual at hp hs1
  have hc1 : (add_entry s key data actual now).cache =
      [(key, ({ data := data, timestamp := now, ttl_seconds := actual,
                size := data.length }, s.fresh))] := by
    simp [add_entry, map_assign, map_erase, hempty]
  have hl1 : (add_entry s key data actual now).lru = [(s.fresh, key)] := by
    simp [add_entry, hl]
  have ht1 : (add_entry s key data actual now).total_size = data.length := by
    simp [add_entry, ht]
  refine ⟨_, hp, by rw [hc1]; rfl, by rw [hl1]; rfl, ?_, ?_⟩
  · intro later hlater
    have hg := get_eq hs1 key later
    have hfind : map_find (add_entry s key data actual now).cache key =
        some ({ data := data, timestamp := now, ttl_seconds := actual,
                size := data.length }, s.fresh) := by
      rw [hc1]; simp [map_find]
    have hexp : is_expired later
        { data := data, timestamp := now, ttl_seconds := actual, size := data.length }
          = false := by
      simp only [is_expired, decide_eq_false_iff_not]
      omega
    simp only [hfind, hexp, Bool.false_eq_true, if_false] at hg
    exact ⟨_, hg⟩
  · have hp2 := put_eq hs1 key2 data2 ttl2 now2
    have hfind2 : map_find (add_entry s key data actual now).cache key2 = none := by
      rw [hc1]; simp [map_find, hne.symm]
    have hd : drop_key (add_entry s key data actual now) key2 =
        add_entry s key data actual now := by
      unfold drop_key
      rw [hfind2]
    rw [hd] at hp2
    have hev := evict_if_needed_evicts hs1 data2.length
    have hex := evict_if_needed_exit (add_entry s key data actual now) data2.length
    generalize evict_if_needed (add_entry s key data actual now) data2.length = sE
      at hp2 hev hex
    have hlE : sE.lru = [] := by
      obtain ⟨ev, hback⟩ := hev.back
      rw [hl1] at hback
      cases hsE : sE.lru with
      | nil => rfl
      | cons n l =>
        exfalso
        rw [hsE] at hback
        have hn : n = (s.fresh, key) ∧ l = [] := by
          cases l with
          | nil => simp at hback; exact ⟨hback.1.symm, rfl⟩
          | cons m l => simp at hback
        have hcE : sE.cache = (add_entry s key data actual now).cache := by
          rw [hev.kept, List.filter_eq_self]
          intro p hp1
          rw [hc1] at hp1
          simp at hp1
          simp [hsE, hn.1, hn.2, lru_keys, hp1]
        have htE : sE.total_size = data.length := by
          rw [hev.inv.2.2.2.2.2.2.1, hcE, ← hs1.2.2.2.2.2.2.1, ht1]
        rcases hex with hex | hex
        · simp only [over_limit, Bool.or_eq_false_iff, decide_eq_false_iff_not] at hex
          apply hex.2
          rw [htE, hev.max_size_bytes_eq]
          show (add_entry s key data actual now).max_size_bytes < _
          simp only [add_entry]
          omega
        · rw [hsE] at hex
          simp at hex
    have hcE := (cache_empty_of_lru_empty hev.inv hlE).1
    refine ⟨_, hp2, ?_, ?_, ?_, ?_⟩
    · simp [add_entry, map_assign, map_erase, hcE, map_keys, hne.symm]
    · simp [add_entry, hlE, lru_keys, hne.symm]
    · simp [add_entry, map_assign, map_erase, hcE, map_keys]
    · simp [add_entry, hlE, lru_keys]

theorem C8_witness :
    cache_inv sample_small ∧ sample_small.cache = [] ∧ 1 ≤ sample_small.max_entries ∧
    "wxyz".length > sample_small.max_size_bytes ∧ "b" ≠ "a" ∧
    (∃ s1, put sample_small "a" "wxyz" 60 0 = some s1 ∧
      map_keys s1.cache = ["a"] ∧ lru_keys s1.lru = ["a"] ∧
      (∀ later : Int,
        later - 0 ≤ (if (60 : Int) < 0 then sample_small.default_ttl else 60) →
        ∃ s2, get s1 "a" later = some (s2, some "wxyz")) ∧
      (∃ s3, put s1 "b" "" 60 1 = some s3 ∧
        "a" ∉ map_keys s3.cache ∧ "a" ∉ lru_keys s3.lru ∧
        map_keys s3.cache = ["b"] ∧ lru_keys s3.lru = ["b"])) :=
  ⟨by decide, by decide, by decide, by decide, by decide,
   C8_oversized_entry_is_stored_then_evicted sample_small "a" "wxyz" "b" "" 60 0 60 1
     (by decide) (by decide) (by decide) (by decide) (by decide)⟩

/-- C9: on every well-formed cache state `remove(key)` returns a state in which a
`get(key)` is a miss; `total_size` is smaller by the size of the removed entry; the map
and the recency list are the old ones without `key`, all other entries and their order
unchanged, and so is every other member; a second `remove(key)` changes nothing; and
`put(key, data); remove(key); get(key)` is a miss. -/
theorem C9_remove_deletes_the_key (s : CacheManager) (key : String) (now : Int)
    (hs : cache_inv s) :
    ∃ s1, remove s key = some s1 ∧
      (∃ s2, get s1 key now = some (s2, none)) ∧
      s1.total_size + size_of_key s key = s.total_size ∧
      s1 = { s with cache := s.cache.filter (fun p => decide (p.1 ≠ key)),
                    lru := s.lru.filter (fun n => decide (n.2 ≠ key)),
                    total_size := s.total_size - size_of_key s key } ∧
      (∀ other, other ≠ key → map_find s1.cache other = map_find s.cache other) ∧
      remove s1 key = some s1 ∧
      (∀ (data : String) (ttl t0 : Int), ∃ sp sr s2,
        put s key data ttl t0 = some sp ∧ remove sp key = some sr ∧
        get sr key now = some (s2, none)) := by
  have hmiss : ∀ {t : CacheManager}, cache_inv t →
      ∃ s2, get (drop_key t key) key now = some (s2, none) := by
    intro t ht
    have hg := get_eq (drop_key_inv ht key) key now
    have hnone : map_find (drop_key t key).cache key = none :=
      map_find_none.mpr (not_mem_drop_key t key)
    simp only [hnone] at hg
    exact ⟨_, hg⟩
  have hr := remove_eq hs key
  have hd := drop_key_inv hs key
  refine ⟨_, hr, hmiss hs, ?_, ?_, ?_, ?_, ?_⟩
  · unfold size_of_key drop_key
    cases hf : map_find s.cache key with
    | none => rfl
    | some it =>
      have := size_le_total hs hf
      show s.total_size - it.1.size + it.1.size = s.total_size
      omega
  · have hl := drop_key_lru hs key
    have hc := drop_key_cache s key
    unfold size_of_key
    unfold drop_key at hl hc ⊢
    cases hf : map_find s.cache key with
    | none =>
      simp only [hf] at hl hc
      simp only [Nat.sub_zero]
      rw [← hl]
      unfold map_erase at hc
      rw [← hc]
    | some it => rfl
  · intro other hne
    rw [drop_key_cache]
    exact map_find_erase_ne _ hne
  · rw [remove_eq hd]
    have hnone : map_find (drop_key s key).cache key = none :=
      map_find_none.mpr (not_mem_drop_key s key)
    congr 1
    show drop_key (drop_key s key) key = drop_key s key
    generalize drop_key s key = t at hnone
    unfold drop_key
    rw [hnone]
  · intro data ttl t0
    have hp := put_eq hs key data ttl t0
    have hsp := put_inv hs hp
    obtain ⟨s2, hg⟩ := hmiss hsp
    exact ⟨_, _, s2, hp, remove_eq hsp key, hg⟩

theorem C9_witness :
    cache_inv sample_after_get_b ∧
    (∃ s1, remove sample_after_get_b "c" = some s1 ∧
      (∃ s2, get s1 "c" 7 = some (s2, none)) ∧
      s1.total_size + size_of_key sample_after_get_b "c" = sample_after_get_b.total_size ∧
      s1 = { sample_after_get_b with
              cache := sample_after_get_b.cache.filter (fun p => decide (p.1 ≠ "c")),
              lru := sample_after_get_b.lru.filter (fun n => decide (n.2 ≠ "c")),
              total_size := sample_after_get_b.total_size
                - size_of_key sample_after_get_b "c" } ∧
      (∀ other, other ≠ "c" →
        map_find s1.cache other = map_find sample_after_get_b.cache other) ∧
      remove s1 "c" = some s1 ∧
      (∀ (data : String) (ttl t0 : Int), ∃ sp sr s2,
        put sample_after_get_b "c" data ttl t0 = some sp ∧ remove sp "c" = some sr ∧
        get sr "c" 7 = some (s2, none))) :=
  ⟨by decide, C9_remove_deletes_the_key sample_after_get_b "c" 7 (by decide)⟩

/-- C10 fails on the code: with one expired entry in the cache (stored at time 0 with a
time-to-live of 3600 seconds, swept at time 3601), `cleanup_expired` erases the very node
its reverse iterator stores and then tests that invalidated iterator: the call has
undefined behaviour instead of returning a swept cache. -/
theorem C10_cleanup_expired_uses_an_invalidated_iterator :
    cache_inv sample_one ∧
    sample_one.cache.map (fun p => is_expired 3601 p.2.1) = [true] ∧
    cleanup_expired sample_one 3601 = Outcome.undefined_behaviour := by
  decide

end CacheManager

/-! ## Lemmas on the string operations -/

namespace StdString

theorem starts_with_iff (needle text : List Char) :
    starts_with needle text = true ↔ ∃ rest, text = needle ++ rest := by
  induction needle generalizing text with
  | nil => simp [starts_with]
  | cons a needle ih =>
    cases text with
    | nil => simp [starts_with]
    | cons b text =>
      simp only [starts_with, Bool.and_eq_true, decide_eq_true_eq, ih, List.cons_append,
        List.cons.injEq]
      constructor
      · rintro ⟨e, rest, h⟩
        exact ⟨rest, e.symm, h⟩
      · rintro ⟨rest, e, h⟩
        exact ⟨e.symm, rest, h⟩

theorem find_at_ge {needle text : List Char} {i j : Nat}
    (h : find_at needle text i = some j) : i ≤ j := by
  induction text generalizing i with
  | nil =>
    simp only [find_at] at h
    split at h
    · injection h with h; omega
    · cases h
  | cons c text ih =>
    simp only [find_at] at h
    split at h
    · injection h with h; omega
    · have := ih h; omega

/-- The call `s.find(needle) == 0` tests that `s` begins with `needle`. -/
theorem find_zero_iff (s needle : String) :
    find s needle 0 = some 0 ↔ ∃ rest, s.data = needle.data ++ rest := by
  simp only [find, Nat.zero_le, if_true, List.drop_zero]
  cases hs : s.data with
  | nil =>
    simp only [find_at]
    constructor
    · intro h
      split at h
      · rename_i hn; exact ⟨[], by simp [hn]⟩
      · cases h
    · rintro ⟨rest, h⟩
      have hn : needle.data = [] := (List.append_eq_nil.mp h.symm).1
      simp [hn]
  | cons c text =>
    simp only [find_at]
    rw [← starts_with_iff]
    by_cases hsw : starts_with needle.data (c :: text) = true
    · simp [hsw]
    · simp only [hsw, Bool.false_eq_true, if_false, iff_false]
      intro h
      have := find_at_ge h
      omega

theorem find_at_none_iff (needle text : List Char) (i : Nat) :
    find_at needle text i = none ↔ ¬ ∃ u v, text = u ++ needle ++ v := by
  induction text generalizing i with
  | nil =>
    simp only [find_at]
    constructor
    · intro h
      split at h
      · cases h
      · rename_i hn
        rintro ⟨u, v, e⟩
        apply hn
        have := List.append_eq_nil.mp e.symm
        exact (List.append_eq_nil.mp this.1).2
    · intro h
      split
      · rename_i hn
        exact absurd ⟨[], [], by simp [hn]⟩ h
      · rfl
  | cons c text ih =>
    simp only [find_at]
    by_cases hsw : starts_with needle (c :: text) = true
    · rw [if_pos hsw]
      obtain ⟨rest, h⟩ := (starts_with_iff _ _).mp hsw
      constructor
      · intro h0; cases h0
      · intro h0
        exact absurd ⟨[], rest, by simpa using h⟩ h0
    · rw [if_neg hsw, ih]
      constructor
      · intro h
        rintro ⟨u, v, e⟩
        cases u with
        | nil =>
          apply hsw
          exact (starts_with_iff _ _).mpr ⟨v, by simpa using e⟩
        | cons x u =>
          simp only [List.cons_append, List.cons.injEq] at e
          exact h ⟨u, v, e.2⟩
      · intro h
        rintro ⟨u, v, e⟩
        exact h ⟨c :: u, v, by simp [e]⟩

/-- The call `s.find(needle) != npos` tests that `needle` occurs somewhere in `s`. -/
theorem find_isSome_iff (s needle : String) :
    (find s needle 0).isSome = true ↔ ∃ u v, s.data = u ++ needle.data ++ v := by
  simp only [find, Nat.zero_le, if_true, List.drop_zero]
  rw [← not_iff_not, ← find_at_none_iff needle.data s.data 0]
  cases find_at needle.data s.data 0 <;> simp

end StdString

/-! ## The access policy -/

namespace ConfigManager

/-- C12: for every host and every policy state `is_blocked` is false when the whitelist is
not empty and holds the host, and otherwise tells whether the blocklist holds the host;
the result is a function of the blocklist, the whitelist and the host alone, hosts are
compared as they are written (a host that differs in letter case is another host), and the
call returns nothing but this answer, so it changes no state. -/
theorem C12_is_blocked_follows_whitelist_then_blocklist (c : ConfigManager) (host : String) :
    is_blocked c host =
      (if c.whitelisted_hosts ≠ [] ∧ host ∈ c.whitelisted_hosts then false
       else decide (host ∈ c.blocked_hosts)) ∧
    (∀ c2 : ConfigManager, c2.blocked_hosts = c.blocked_hosts →
      c2.whitelisted_hosts = c.whitelisted_hosts → is_blocked c2 host = is_blocked c host) ∧
    is_blocked { c with blocked_hosts := ["Example.com"], whitelisted_hosts := [] }
      "example.com" = false ∧
    is_blocked { c with blocked_hosts := ["Example.com"], whitelisted_hosts := [] }
      "Example.com" = true := by
  refine ⟨?_, ?_, by simp [is_blocked, set_count], by simp [is_blocked, set_count]⟩
  · unfold is_blocked set_count
    by_cases hw : host ∈ c.whitelisted_hosts
    · have hne : c.whitelisted_hosts ≠ [] := List.ne_nil_of_mem hw
      have he : c.whitelisted_hosts.isEmpty = false := by
        cases hc : c.whitelisted_hosts with
        | nil => exact absurd hc hne
        | cons a l => rfl
      simp [hw, hne, he]
    · by_cases hb : host ∈ c.blocked_hosts <;> simp [hw, hb]
  · intro c2 hb hw
    unfold is_blocked
    rw [hb, hw]

end ConfigManager

namespace RequestHandler

open StdString

/-- C15, as stated, fails: a request that does not start with "GET /stats" but holds
"GET /stats " further on is served by the statistics endpoint, and a request that starts
with "CONNECT" without the space goes to the tunnel handler. -/
theorem C15_counterexample :
    route "POST /x HTTP/1.1\r\n\r\nGET /stats " = Route.stats_endpoint ∧
    find "POST /x HTTP/1.1\r\n\r\nGET /stats " "GET /stats" 0 ≠ some 0 ∧
    route "CONNECTx y z" = Route.connect_tunnel ∧
    find "CONNECTx y z" "CONNECT " 0 ≠ some 0 := by
  decide

/-- C15, amended: `handle_client` serves a request at the statistics endpoint iff the
request starts with "GET /stats" or holds "GET /stats " anywhere; otherwise it calls the
tunnel handler iff the request starts with "CONNECT"; otherwise it calls the fetch
handler.  In particular a request that neither starts with "GET /stats" nor holds
"GET /stats " is never answered by the statistics endpoint. -/
theorem C15_route_of_a_request (request : String) :
    (route request = Route.stats_endpoint ↔
      ((∃ rest, request.data = "GET /stats".data ++ rest) ∨
       (∃ u v, request.data = u ++ "GET /stats ".data ++ v))) ∧
    (route request = Route.connect_tunnel ↔
      (route request ≠ Route.stats_endpoint ∧
       ∃ rest, request.data = "CONNECT".data ++ rest)) ∧
    (route request = Route.http_fetch ↔
      (route request ≠ Route.stats_endpoint ∧
       ¬ ∃ rest, request.data = "CONNECT".data ++ rest)) ∧
    (∀ (config : ConfigManager) (cache : CacheManager) (stats : Option Statistics)
        (net : Network) (now : Int) (uptime client_ip : String),
      handle_client config cache stats net now uptime (some client_ip) (some request) =
        (match (match route request with
          | Route.stats_endpoint => handle_stats cache stats uptime
          | Route.connect_tunnel =>
            handle_https_connect config cache stats net request client_ip
          | Route.http_fetch =>
            handle_http_request config cache stats net now request client_ip) with
         | run =>
           match run.ending with
           | Ending.returned _ =>
             { run with events := run.events ++ [Event.close_client],
                        ending := Ending.returned true }
           | _ => run)) := by
  have h1 := find_zero_iff request "GET /stats"
  have h2 := find_isSome_iff request "GET /stats "
  have h3 := find_zero_iff request "CONNECT"
  have hstats : route request = Route.stats_endpoint ↔
      ((∃ rest, request.data = "GET /stats".data ++ rest) ∨
       (∃ u v, request.data = u ++ "GET /stats ".data ++ v)) := by
    rw [← h1, ← h2]
    unfold route
    by_cases ha : find request "GET /stats" 0 = some 0
    · simp [ha]
    · by_cases hb : (find request "GET /stats " 0).isSome = true
      · simp [hb]
      · simp only [ha, hb, decide_False, Bool.or_self, Bool.false_eq_true, if_false,
          or_self, iff_false]
        split <;> simp
  refine ⟨hstats, ?_, ?_, ?_⟩
  · rw [← h3]
    unfold route
    by_cases hs : (decide (find request "GET /stats" 0 = some 0) ||
        (find request "GET /stats " 0).isSome) = true
    · simp [hs]
    · simp only [hs, Bool.false_eq_true, if_false]
      by_cases hc : find request "CONNECT" 0 = some 0
      · simp [hc]
      · simp [hc]
  · rw [← h3]
    unfold route
    by_cases hs : (decide (find request "GET /stats" 0 = some 0) ||
        (find request "GET /stats " 0).isSome) = true
    · simp [hs]
    · simp only [hs, Bool.false_eq_true, if_false]
      by_cases hc : find request "CONNECT" 0 = some 0
      · simp [hc]
      · simp [hc]
  · intro config cache stats net now uptime client_ip
    rfl

end RequestHandler
namespace RequestHandler

open StdString

/-- When the request holds no "Host:", `extract_host` returns the empty string and
`handle_http_request` sends the 500 reply "No Host header found" and returns, with the
cache and the statistics untouched and no other call made. -/
theorem no_host_header (config : ConfigManager) (cache : CacheManager)
    (stats : Option Statistics) (net : Network) (now : Int) (request client_ip : String)
    (h : ¬ ∃ u v, request.data = u ++ "Host:".data ++ v) :
    extract_host request = "" ∧
    handle_http_request config cache stats net now request client_ip =
      { cache := cache, stats := stats,
        events := [Event.send_client (error_response "No Host header found")],
        ending := Ending.returned false } := by
  have hfind : find request "Host:" 0 = none := by
    simp only [find, Nat.zero_le, if_true, List.drop_zero]
    exact (find_at_none_iff _ _ _).mpr h
  have hhost : extract_host request = "" := by
    simp [extract_host, hfind]
  exact ⟨hhost, by simp [handle_http_request, hhost]⟩

/-- C16 fails on the code: for the header line "Host:example.com" (no space after the
colon) `extract_host` returns "xample.com", because it starts six characters after the
start of "Host:", one more than the five it searched for; with one space or more it
returns "example.com". -/
theorem C16_extract_host_drops_a_character_without_space :
    extract_host "GET / HTTP/1.1\r\nHost:example.com\r\n\r\n" = "xample.com" ∧
    extract_host "GET / HTTP/1.1\r\nHost: example.com\r\n\r\n" = "example.com" ∧
    extract_host "GET / HTTP/1.1\r\nHost:   example.com\r\n\r\n" = "example.com" ∧
    extract_host "GET / HTTP/1.1\r\n\r\n" = "" := by
  decide

/-- C18 fails on the code: for a CONNECT target whose port part is not a number, is empty
or is out of range, `std::stoi` throws and the exception leaves `handle_https_connect`
before any reply is sent; a target without a colon gets port 443, and a request line
without two spaces gets the 500 reply "Malformed CONNECT request". -/
theorem C18_connect_port_exception_escapes :
    (handle_https_connect ConfigManager.new (CacheManager.new 10 60) (some Statistics.new)
        sample_network "CONNECT example.com:abc HTTP/1.1\r\n\r\n" "10.0.0.1").ending
      = Ending.exception StoiError.invalid_argument ∧
    (handle_https_connect ConfigManager.new (CacheManager.new 10 60) (some Statistics.new)
        sample_network "CONNECT example.com:abc HTTP/1.1\r\n\r\n" "10.0.0.1").events = [] ∧
    (handle_https_connect ConfigManager.new (CacheManager.new 10 60) (some Statistics.new)
        sample_network "CONNECT example.com: HTTP/1.1\r\n\r\n" "10.0.0.1").ending
      = Ending.exception StoiError.invalid_argument ∧
    (handle_https_connect ConfigManager.new (CacheManager.new 10 60) (some Statistics.new)
        sample_network "CONNECT example.com:99999999999 HTTP/1.1\r\n\r\n" "10.0.0.1").ending
      = Ending.exception StoiError.out_of_range ∧
    (handle_https_connect ConfigManager.new (CacheManager.new 10 60) (some Statistics.new)
        sample_network "CONNECT example.com HTTP/1.1\r\n\r\n" "10.0.0.1").events
      = [Event.dns_lookup "example.com", Event.connect_origin "example.com" 443,
         Event.send_client "HTTP/1.1 200 Connection Established\r\n\r\n",
         Event.log_request "10.0.0.1" "example.com" "HTTPS_TUNNEL" 0,
         Event.log_url "10.0.0.1" "https://example.com" "CONNECT",
         Event.tunnel, Event.close_origin] ∧
    (handle_https_connect ConfigManager.new (CacheManager.new 10 60) (some Statistics.new)
        sample_network "CONNECT" "10.0.0.1").events
      = [Event.send_client (error_response "Malformed CONNECT request")] := by
  decide

/-- C19 fails on the code: with `evil.test` blocked, the request
"CONNECT evil.test:abc HTTP/1.1" ends in the exception of `std::stoi`, which is raised
before the policy is asked: no 403 reply, no BLOCKED_HTTPS log line, and the blocked
counter keeps its value; and with the statistics disabled the blocked HTTP request logs
BLOCKED_HTTP and then calls `record_blocked_request` through the null pointer, before the
403 reply is sent. -/
theorem C19_blocked_connect_with_bad_port_gets_no_reply :
    sample_policy.is_blocked "evil.test" = true ∧
    handle_https_connect sample_policy (CacheManager.new 10 60) (some Statistics.new)
        sample_network "CONNECT evil.test:abc HTTP/1.1\r\n\r\n" "10.0.0.1"
      = { cache := CacheManager.new 10 60, stats := some Statistics.new, events := [],
          ending := Ending.exception StoiError.invalid_argument } ∧
    handle_http_request sample_policy (CacheManager.new 10 60) none sample_network 0
        "GET / HTTP/1.1\r\nHost: evil.test\r\n\r\n" "10.0.0.1"
      = { cache := CacheManager.new 10 60, stats := none,
          events := [Event.log_url "10.0.0.1" "http://evil.test/" "GET",
            Event.log_request "10.0.0.1" "evil.test" "BLOCKED_HTTP" 0],
          ending := Ending.null_dereference } := by
  decide

end RequestHandler
namespace StdString

theorem find_at_cons_of_not_starts (needle : List Char) (c : Char) (t : List Char) (i : Nat)
    (h : starts_with needle (c :: t) = false) :
    find_at needle (c :: t) i = find_at needle t (i + 1) := by
  simp [find_at, h]

theorem find_char_skip (c : Char) (a rest : List Char) (i : Nat) (h : c ∉ a) :
    find_at [c] (a ++ rest) i = find_at [c] rest (i + a.length) := by
  induction a generalizing i with
  | nil => simp
  | cons x a ih =>
    have hx : c ≠ x := fun e => h (by simp [e])
    have ha : c ∉ a := fun hm => h (List.mem_cons_of_mem _ hm)
    have hsw : starts_with [c] (x :: (a ++ rest)) = false := by
      simp [starts_with, hx]
    rw [List.cons_append, find_at_cons_of_not_starts _ _ _ _ hsw, ih (i + 1) ha,
      List.length_cons]
    congr 1
    omega

theorem find_char_hit (c : Char) (rest : List Char) (i : Nat) :
    find_at [c] (c :: rest) i = some i := by
  simp [find_at, starts_with]

theorem find_char_none (c : Char) (t : List Char) (i : Nat) (h : c ∉ t) :
    find_at [c] t i = none := by
  have := find_char_skip c t [] i h
  simp only [List.append_nil] at this
  rw [this]
  simp [find_at]

/-- A position the search for one character returns splits the text at the first
occurrence of that character. -/
theorem find_char_some (c : Char) (t : List Char) (i j : Nat)
    (h : find_at [c] t i = some j) :
    ∃ a b, t = a ++ c :: b ∧ c ∉ a ∧ j = i + a.length := by
  induction t generalizing i with
  | nil => simp [find_at] at h
  | cons x t ih =>
    by_cases hx : c = x
    · subst hx
      rw [find_char_hit] at h
      injection h with h
      exact ⟨[], t, rfl, by simp, by simp [h]⟩
    · have hsw : starts_with [c] (x :: t) = false := by
        simp [starts_with, hx]
      rw [find_at_cons_of_not_starts _ _ _ _ hsw] at h
      obtain ⟨a, b, e, hn, hj⟩ := ih (i + 1) h
      refine ⟨x :: a, b, by simp [e], ?_, by simp [hj]; omega⟩
      intro hm
      rcases List.mem_cons.mp hm with e1 | e1
      · exact hx e1
      · exact hn e1

theorem find_crlf_skip (a b : List Char) (i : Nat)
    (h : ¬ ∃ u v, a = u ++ ['\r', '\n'] ++ v) :
    find_at ['\r', '\n'] (a ++ '\r' :: '\n' :: b) i = some (i + a.length) := by
  induction a generalizing i with
  | nil => simp [find_at, starts_with]
  | cons x a ih =>
    have ha : ¬ ∃ u v, a = u ++ ['\r', '\n'] ++ v := by
      rintro ⟨u, v, e⟩
      exact h ⟨x :: u, v, by simp [e]⟩
    have hsw : starts_with ['\r', '\n'] (x :: (a ++ '\r' :: '\n' :: b)) = false := by
      cases a with
      | nil =>
        simp [starts_with]
      | cons y a =>
        by_cases hx : '\r' = x
        · by_cases hy : '\n' = y
          · exact absurd ⟨[], a, by simp [← hx, ← hy]⟩ h
          · simp [starts_with, hy]
        · simp [starts_with, hx]
    rw [List.cons_append, find_at_cons_of_not_starts _ _ _ _ hsw, ih (i + 1) ha,
      List.length_cons]
    congr 1
    omega

end StdString

namespace RequestHandler

open StdString

/-- C17, as stated, fails: for a first line with two tokens only, "GET /x", the second
token is "/x" but `extract_path` returns "/"; and for two spaces between the tokens it
returns the empty string. -/
theorem C17_counterexample :
    extract_path "GET /x\r\nHost: h\r\n\r\n" = "/" ∧
    extract_path "GET  /x HTTP/1.1\r\nHost: h\r\n\r\n" = "" := by
  decide

theorem extract_path_first_line (request : String) (first tail : List Char)
    (hreq : request.data = first ++ "\r\n".data ++ tail)
    (hfirst : ¬ ∃ u v, first = u ++ "\r\n".data ++ v) :
    find request "\r\n" 0 = some first.length ∧
    substr request 0 (some first.length) = String.mk first := by
  have hd : "\r\n".data = ['\r', '\n'] := rfl
  rw [hd] at hreq hfirst
  constructor
  · simp only [find, Nat.zero_le, if_true, List.drop_zero, hreq, hd]
    have := find_crlf_skip first tail 0 hfirst
    simpa using this
  · simp only [substr, List.drop_zero, hreq]
    congr 1
    rw [List.append_assoc]
    exact List.take_left' rfl

end RequestHandler

namespace StdString

theorem find_mk (text needle : List Char) (pos : Nat) (h : pos ≤ text.length) :
    find (String.mk text) (String.mk needle) pos = find_at needle (text.drop pos) pos := by
  simp [find, h]

end StdString

namespace RequestHandler

open StdString

theorem extract_path_eq (request : String) :
    extract_path request =
      match find request "\r\n" 0 with
      | none => "/"
      | some line_end => path_in_line (substr request 0 (some line_end)) := rfl

theorem path_in_line_few_spaces (first : List Char)
    (h : ¬ ∃ m tok rest, first = m ++ ' ' :: tok ++ ' ' :: rest) :
    path_in_line (String.mk first) = "/" := by
  have hsp : (" " : String) = String.mk [' '] := rfl
  unfold path_in_line
  rw [hsp, find_mk _ _ 0 (Nat.zero_le _), List.drop_zero]
  cases h1 : find_at [' '] first 0 with
  | none =>
    simp only [next_pos]
  | some i1 =>
    obtain ⟨a, b, e, hn, hi⟩ := find_char_some _ _ _ _ h1
    have hle : i1 + 1 ≤ first.length := by
      rw [e, hi]; simp
    have hdrop : first.drop (i1 + 1) = b := by
      rw [e, hi]
      have : a ++ ' ' :: b = (a ++ [' ']) ++ b := by simp
      rw [this]
      exact List.drop_left' (by simp)
    simp only [next_pos]
    rw [find_mk _ _ _ hle, hdrop]
    cases h2 : find_at [' '] b (i1 + 1) with
    | none => rfl
    | some i2 =>
      obtain ⟨tok, rest, e2, _, _⟩ := find_char_some _ _ _ _ h2
      exact absurd ⟨a, tok, rest, by rw [e, e2]; simp⟩ h

theorem path_in_line_token (m tok rest : List Char) (hm : ' ' ∉ m) (ht : ' ' ∉ tok) :
    path_in_line (String.mk (m ++ ' ' :: tok ++ ' ' :: rest)) =
      (if find (String.mk tok) "http://" 0 = some 0 then
        match find (String.mk tok) "/" 7 with
        | none => "/"
        | some slash => substr (String.mk tok) slash none
      else String.mk tok) := by
  have hsp : (" " : String) = String.mk [' '] := rfl
  have h1 : find_at [' '] (m ++ ' ' :: tok ++ ' ' :: rest) 0 = some m.length := by
    have := find_char_skip ' ' m (' ' :: tok ++ ' ' :: rest) 0 hm
    simp only [List.append_assoc, List.cons_append] at this ⊢
    rw [this, find_char_hit]
    simp
  have hle : m.length + 1 ≤ (m ++ ' ' :: tok ++ ' ' :: rest).length := by simp
  have hdrop : (m ++ ' ' :: tok ++ ' ' :: rest).drop (m.length + 1) = tok ++ ' ' :: rest := by
    have : m ++ ' ' :: tok ++ ' ' :: rest = (m ++ [' ']) ++ (tok ++ ' ' :: rest) := by simp
    rw [this]
    exact List.drop_left' (by simp)
  have h2 : find_at [' '] (tok ++ ' ' :: rest) (m.length + 1) =
      some (m.length + 1 + tok.length) := by
    rw [find_char_skip ' ' tok (' ' :: rest) _ ht, find_char_hit]
  have htake : substr (String.mk (m ++ ' ' :: tok ++ ' ' :: rest)) (m.length + 1)
      (some (m.length + 1 + tok.length - m.length - 1)) = String.mk tok := by
    simp only [substr, hdrop]
    congr 1
    exact List.take_left' (by omega)
  unfold path_in_line
  rw [hsp, find_mk _ _ 0 (Nat.zero_le _), List.drop_zero, h1]
  simp only [next_pos]
  rw [find_mk _ _ _ hle, hdrop, h2]
  simp only [htake]

end RequestHandler

namespace RequestHandler

open StdString

/-- C17, amended: `extract_path` returns "/" when the request holds no CRLF or when its
first line (the text before the first CRLF) does not hold two spaces; otherwise it takes
the text between the first and the second space of the first line, which may be empty, and
returns it as it is, unless it begins with "http://": then the scheme and the authority
are stripped, so that "http://h/p?q" gives "/p?q" and "http://h" gives "/".  So the result
begins with '/' whenever that text is an http:// absolute URI or the parsing fails. -/
theorem C17_extract_path_takes_the_text_between_the_first_two_spaces (request : String) :
    ((¬ ∃ u v, request.data = u ++ "\r\n".data ++ v) → extract_path request = "/") ∧
    (∀ first tail : List Char, request.data = first ++ "\r\n".data ++ tail →
      (¬ ∃ u v, first = u ++ "\r\n".data ++ v) →
      ((¬ ∃ m tok rest, first = m ++ ' ' :: tok ++ ' ' :: rest) →
        extract_path request = "/") ∧
      (∀ m tok rest, first = m ++ ' ' :: tok ++ ' ' :: rest → ' ' ∉ m → ' ' ∉ tok →
        ((¬ ∃ r, tok = "http://".data ++ r) → extract_path request = String.mk tok) ∧
        (∀ auth p, tok = "http://".data ++ auth ++ '/' :: p → '/' ∉ auth →
          extract_path request = String.mk ('/' :: p)) ∧
        (∀ auth, tok = "http://".data ++ auth → '/' ∉ auth →
          extract_path request = "/"))) := by
  constructor
  · intro h
    have hfind : find request "\r\n" 0 = none := by
      simp only [find, Nat.zero_le, if_true, List.drop_zero]
      exact (find_at_none_iff _ _ _).mpr h
    rw [extract_path_eq, hfind]
  · intro first tail hreq hfirst
    obtain ⟨h1, h2⟩ := extract_path_first_line request first tail hreq hfirst
    have hpath : extract_path request = path_in_line (String.mk first) := by
      rw [extract_path_eq, h1]
      simp only [h2]
    rw [hpath]
    constructor
    · exact path_in_line_few_spaces first
    · intro m tok rest hf hm ht
      rw [hf, path_in_line_token m tok rest hm ht]
      have hhttp : ("http://" : String).data = ['h', 't', 't', 'p', ':', '/', '/'] := rfl
      have hslash : ("/" : String) = String.mk ['/'] := rfl
      refine ⟨?_, ?_, ?_⟩
      · intro hno
        have : ¬ find (String.mk tok) "http://" 0 = some 0 := by
          rw [find_zero_iff]
          exact hno
        rw [if_neg this]
      · intro auth p htok hauth
        have hz : find (String.mk tok) "http://" 0 = some 0 := by
          rw [find_zero_iff]
          exact ⟨auth ++ '/' :: p, by rw [htok]; simp⟩
        have hle : 7 ≤ tok.length := by rw [htok, hhttp]; simp
        have hdrop : tok.drop 7 = auth ++ '/' :: p := by
          rw [htok, hhttp]; simp
        have hf7 : find (String.mk tok) "/" 7 = some (7 + auth.length) := by
          rw [hslash, find_mk _ _ _ hle, hdrop, find_char_skip '/' auth _ _ hauth,
            find_char_hit]
        rw [if_pos hz, hf7]
        simp only [substr]
        congr 1
        rw [htok, hhttp]
        have : ['h', 't', 't', 'p', ':', '/', '/'] ++ auth ++ '/' :: p =
            (['h', 't', 't', 'p', ':', '/', '/'] ++ auth) ++ ('/' :: p) := by simp
        rw [this]
        exact List.drop_left' (by simp; omega)
      · intro auth htok hauth
        have hz : find (String.mk tok) "http://" 0 = some 0 := by
          rw [find_zero_iff]
          exact ⟨auth, by rw [htok]⟩
        have hle : 7 ≤ tok.length := by rw [htok, hhttp]; simp
        have hdrop : tok.drop 7 = auth := by
          rw [htok, hhttp]; simp
        have hf7 : find (String.mk tok) "/" 7 = none := by
          rw [hslash, find_mk _ _ _ hle, hdrop]
          exact find_char_none '/' auth 7 hauth
        rw [if_pos hz, hf7]

/-- The examples of C17: "http://h/p?q" gives "/p?q" and "http://h" gives "/". -/
theorem C17_examples :
    extract_path "GET http://h/p?q HTTP/1.1\r\nHost: h\r\n\r\n" = "/p?q" ∧
    extract_path "GET http://h HTTP/1.1\r\nHost: h\r\n\r\n" = "/" ∧
    extract_path "GET /a/b HTTP/1.1\r\nHost: h\r\n\r\n" = "/a/b" ∧
    extract_path "GET /a/b HTTP/1.1" = "/" := by
  decide

end RequestHandler
namespace StdString

theorem find_zero_iff_starts (s needle : String) :
    find s needle 0 = some 0 ↔ starts_with needle.data s.data = true := by
  rw [find_zero_iff, starts_with_iff]

theorem substr_append_left (k v : String) (n : Nat) (h : k.data.length = n) :
    substr (k ++ v) n none = v := by
  simp only [substr, String.data_append]
  rw [List.drop_left' h]

end StdString

namespace ConfigManager

open StdString

/-- C13, as stated, fails: for the line "PORT=abc" `load` neither returns nor warns, the
exception of `std::stoi` leaves it (after CACHE_TTL was already set to 5, and without the
block list of the file); and for "PORT=80abc" it returns `true` with the port set to 80. -/
theorem C13_counterexample :
    load_lines ConfigManager.new (some ["CACHE_TTL=5", "PORT=abc", "BLOCK=a.b"]) =
      LoadOutcome.threw StoiError.invalid_argument { ConfigManager.new with cache_ttl := 5 } ∧
    load_lines ConfigManager.new (some ["PORT=80abc"]) =
      LoadOutcome.returned true { ConfigManager.new with port := 80 } := by
  decide

/-- A numeric directive whose value `std::stoi` rejects makes the chain of tests throw. -/
theorem apply_directive_throws (st : LoadState) (key value : String) (e : StoiError)
    (hkey : key ∈ ["PORT=", "CACHE_LIMIT=", "CACHE_TTL=", "MAX_CACHE_SIZE_MB=",
      "CONNECTION_TIMEOUT="])
    (hbad : stoi value = Except.error e) :
    apply_directive st (key ++ value) = Except.error e := by
  simp only [List.mem_cons, List.mem_singleton, List.not_mem_nil, or_false] at hkey
  unfold apply_directive
  simp only [find_zero_iff_starts, String.data_append]
  rcases hkey with h | h | h | h | h <;> subst h
  · have hs := substr_append_left "PORT=" value 5 rfl
    simp [starts_with, hs, hbad]
  · have hs := substr_append_left "CACHE_LIMIT=" value 12 rfl
    simp [starts_with, hs, hbad]
  · have hs := substr_append_left "CACHE_TTL=" value 10 rfl
    simp [starts_with, hs, hbad]
  · have hs := substr_append_left "MAX_CACHE_SIZE_MB=" value 18 rfl
    simp [starts_with, hs, hbad]
  · have hs := substr_append_left "CONNECTION_TIMEOUT=" value 19 rfl
    simp [starts_with, hs, hbad]

theorem load_loop_append (before rest : List String) (st st1 : LoadState)
    (h : load_loop before st = (st1, none)) :
    load_loop (before ++ rest) st = load_loop rest st1 := by
  induction before generalizing st with
  | nil =>
    simp only [load_loop, Prod.mk.injEq] at h
    simp [h.1]
  | cons line before ih =>
    simp only [List.cons_append, load_loop] at h ⊢
    cases hl : load_line st line with
    | ok st2 =>
      simp only [hl] at h ⊢
      exact ih st2 h
    | error e2 =>
      simp [hl] at h

/-- The members `blocked_hosts` and `whitelisted_hosts` are not assigned while the file is
read. -/
theorem load_line_keeps_hosts (st st1 : LoadState) (line : String)
    (h : load_line st line = Except.ok st1) :
    st1.config.blocked_hosts = st.config.blocked_hosts ∧
    st1.config.whitelisted_hosts = st.config.whitelisted_hosts := by
  unfold load_line at h
  split at h
  · injection h with h; subst h; exact ⟨rfl, rfl⟩
  · split at h
    · injection h with h; subst h; exact ⟨rfl, rfl⟩
    · unfold apply_directive at h
      split_ifs at h <;>
        first
        | (injection h with h; subst h; exact ⟨rfl, rfl⟩)
        | (split at h
           · injection h with h; subst h; exact ⟨rfl, rfl⟩
           · cases h)

theorem load_loop_keeps_hosts (lines : List String) (st st1 : LoadState)
    (r : Option StoiError) (h : load_loop lines st = (st1, r)) :
    st1.config.blocked_hosts = st.config.blocked_hosts ∧
    st1.config.whitelisted_hosts = st.config.whitelisted_hosts := by
  induction lines generalizing st with
  | nil =>
    simp only [load_loop, Prod.mk.injEq] at h
    rw [← h.1]
    exact ⟨rfl, rfl⟩
  | cons line lines ih =>
    simp only [load_loop] at h
    cases hl : load_line st line with
    | ok st2 =>
      simp only [hl] at h
      have h1 := ih st2 h
      have h2 := load_line_keeps_hosts st st2 line hl
      exact ⟨h1.1.trans h2.1, h1.2.trans h2.2⟩
    | error e2 =>
      simp only [hl, Prod.mk.injEq] at h
      rw [← h.1]
      exact ⟨rfl, rfl⟩

end ConfigManager

namespace ConfigManager

open StdString

/-- C13, amended: when a line of the file is a numeric directive (PORT, CACHE_LIMIT,
CACHE_TTL, MAX_CACHE_SIZE_MB, CONNECTION_TIMEOUT) whose value `std::stoi` rejects, and the
lines before it are read without exception, `load` does not return and reports nothing:
the exception of `std::stoi` leaves it at that line.  The members then hold what the lines
before assigned, so the key of the line keeps the value it had, and the block list and the
whitelist are the ones from before the call. -/
theorem C13_rejected_number_throws_out_of_load (c : ConfigManager)
    (before after : List String) (line key value : String) (st1 : LoadState)
    (e : StoiError)
    (hkey : key ∈ ["PORT=", "CACHE_LIMIT=", "CACHE_TTL=", "MAX_CACHE_SIZE_MB=",
      "CONNECTION_TIMEOUT="])
    (hc : line.data.head? ≠ some '#')
    (htrim : trim_line line = some (key ++ value))
    (hbefore : load_loop before { config := c, new_blocked := [], new_whitelist := [] }
      = (st1, none))
    (hbad : stoi value = Except.error e) :
    load_lines c (some (before ++ line :: after)) = LoadOutcome.threw e st1.config ∧
    st1.config.blocked_hosts = c.blocked_hosts ∧
    st1.config.whitelisted_hosts = c.whitelisted_hosts := by
  have hne : line ≠ "" := by
    intro h0
    rw [h0] at htrim
    simp [trim_line, find_first_not_of, first_not_of_at] at htrim
  have hline : load_line st1 line = Except.error e := by
    unfold load_line
    rw [if_neg (by simp [hne, hc]), htrim]
    exact apply_directive_throws st1 key value e hkey hbad
  refine ⟨?_, load_loop_keeps_hosts before _ st1 none hbefore⟩
  unfold load_lines
  simp only
  rw [load_loop_append before (line :: after) _ st1 hbefore]
  simp only [load_loop, hline]

theorem C13_witness :
    ("PORT=" : String) ∈ ["PORT=", "CACHE_LIMIT=", "CACHE_TTL=", "MAX_CACHE_SIZE_MB=",
      "CONNECTION_TIMEOUT="] ∧
    ("PORT=abc" : String).data.head? ≠ some '#' ∧
    trim_line "PORT=abc" = some ("PORT=" ++ "abc") ∧
    load_loop ["CACHE_TTL=5"]
        { config := ConfigManager.new, new_blocked := [], new_whitelist := [] }
      = ({ config := { ConfigManager.new with cache_ttl := 5 }, new_blocked := [],
           new_whitelist := [] }, none) ∧
    stoi "abc" = Except.error StoiError.invalid_argument ∧
    (load_lines ConfigManager.new (some (["CACHE_TTL=5"] ++ "PORT=abc" :: ["BLOCK=a.b"])) =
        LoadOutcome.threw StoiError.invalid_argument
          (LoadState.mk { ConfigManager.new with cache_ttl := 5 } [] []).config ∧
      (LoadState.mk { ConfigManager.new with cache_ttl := 5 } [] []).config.blocked_hosts
        = ConfigManager.new.blocked_hosts ∧
      (LoadState.mk { ConfigManager.new with cache_ttl := 5 } [] []).config.whitelisted_hosts
        = ConfigManager.new.whitelisted_hosts) :=
  ⟨by decide, by decide, by decide, by decide, rfl,
   C13_rejected_number_throws_out_of_load ConfigManager.new ["CACHE_TTL=5"] ["BLOCK=a.b"]
     "PORT=abc" "PORT=" "abc"
     (LoadState.mk { ConfigManager.new with cache_ttl := 5 } [] [])
     StoiError.invalid_argument (by decide) (by decide) (by decide) (by decide) rfl⟩

end ConfigManager
namespace StdString

theorem first_not_of_at_some (chars text : List Char) (i j : Nat)
    (h : first_not_of_at chars text i = some j) :
    ∃ a c b, text = a ++ c :: b ∧ (∀ x ∈ a, x ∈ chars) ∧ c ∉ chars ∧ j = i + a.length := by
  induction text generalizing i with
  | nil => simp [first_not_of_at] at h
  | cons x text ih =>
    simp only [first_not_of_at] at h
    by_cases hx : x ∈ chars
    · rw [if_pos hx] at h
      obtain ⟨a, c, b, e, ha, hc, hj⟩ := ih (i + 1) h
      refine ⟨x :: a, c, b, by simp [e], ?_, hc, by simp [hj]; omega⟩
      intro y hy
      rcases List.mem_cons.mp hy with e1 | e1
      · exact e1 ▸ hx
      · exact ha y e1
    · rw [if_neg hx] at h
      injection h with h
      exact ⟨[], x, text, rfl, by simp, hx, by simp [h]⟩

theorem last_not_of_at_some (chars text : List Char) (i j : Nat)
    (h : last_not_of_at chars text i = some j) :
    ∃ a c b, text = a ++ c :: b ∧ (∀ x ∈ b, x ∈ chars) ∧ c ∉ chars ∧ j = i + a.length := by
  induction text generalizing i j with
  | nil => simp [last_not_of_at] at h
  | cons x text ih =>
    simp only [last_not_of_at] at h
    cases hrec : last_not_of_at chars text (i + 1) with
    | some k =>
      rw [hrec] at h
      injection h with h
      obtain ⟨a, c, b, e, hb, hc, hk⟩ := ih (i + 1) k hrec
      exact ⟨x :: a, c, b, by simp [e], hb, hc, by simp [← h, hk]; omega⟩
    | none =>
      rw [hrec] at h
      simp only at h
      by_cases hx : x ∈ chars
      · rw [if_pos hx] at h; cases h
      · rw [if_neg hx] at h
        injection h with h
        refine ⟨[], x, text, rfl, ?_, hx, by simp [h]⟩
        clear ih h
        induction text generalizing i with
        | nil => simp
        | cons y text ih2 =>
          simp only [last_not_of_at] at hrec
          cases hr2 : last_not_of_at chars text (i + 1 + 1) with
          | some k => rw [hr2] at hrec; cases hrec
          | none =>
            rw [hr2] at hrec
            simp only at hrec
            by_cases hy : y ∈ chars
            · intro z hz
              rcases List.mem_cons.mp hz with e1 | e1
              · exact e1 ▸ hy
              · exact ih2 (i + 1) hr2 z e1
            · rw [if_neg hy] at hrec; cases hrec

end StdString

namespace ConfigManager

open StdString

/-- What the trimming of a line keeps: the text between the white space at the start and
the white space at the end of the line; it ends in a character that is no white space. -/
theorem trim_line_spec (line trimmed : String) (h : trim_line line = some trimmed) :
    ∃ pre mid c post, line.data = pre ++ trimmed.data ++ post ∧
      trimmed.data = mid ++ [c] ∧ c ∉ trim_chars ∧
      (∀ x ∈ pre, x ∈ trim_chars) ∧ (∀ x ∈ post, x ∈ trim_chars) ∧
      (∀ x, trimmed.data.head? = some x → x ∉ trim_chars) := by
  unfold trim_line at h
  cases h1 : find_first_not_of line trim_chars with
  | none => simp [h1] at h
  | some start =>
    cases h2 : find_last_not_of line trim_chars with
    | none => simp [h1, h2] at h
    | some last =>
      simp only [h1, h2, Option.some.injEq] at h
      obtain ⟨a1, c1, b1, e1, ha1, hc1, hj1⟩ := first_not_of_at_some _ _ _ _ h1
      obtain ⟨a2, c2, b2, e2, hb2, hc2, hj2⟩ := last_not_of_at_some _ _ _ _ h2
      simp only [Nat.zero_add] at hj1 hj2
      have hsplit : ∃ m, a2 = a1 ++ m ∧ c1 :: b1 = m ++ c2 :: b2 := by
        have e : a1 ++ c1 :: b1 = a2 ++ c2 :: b2 := e1.symm.trans e2
        rcases List.append_eq_append_iff.mp e with ⟨m, hm1, hm2⟩ | ⟨m, hm1, hm2⟩
        · exact ⟨m, hm1, hm2⟩
        · cases m with
          | nil =>
            simp only [List.append_nil, List.nil_append] at hm1 hm2
            exact ⟨[], by simp [hm1], by simp [hm2]⟩
          | cons y m =>
            exfalso
            simp only [List.cons_append, List.cons.injEq] at hm2
            apply hc2
            rw [hm2.1]
            apply ha1
            rw [hm1]
            simp
      obtain ⟨m, hm1, hm2⟩ := hsplit
      have hdata : trimmed.data = m ++ [c2] := by
        rw [← h]
        simp only [substr]
        rw [e1, hj1, List.drop_left, hm2, hj2, hm1]
        have : (a1 ++ m).length - a1.length + 1 = (m ++ [c2]).length := by simp
        rw [this]
        have e3 : m ++ c2 :: b2 = (m ++ [c2]) ++ b2 := by simp
        rw [e3, List.take_left]
      refine ⟨a1, m, c2, b2, ?_, hdata, hc2, ha1, hb2, ?_⟩
      · rw [e2, hm1, hdata]; simp
      · intro x hx
        rw [hdata] at hx
        cases m with
        | nil =>
          simp only [List.nil_append, List.head?_cons, Option.some.injEq] at hx
          exact hx ▸ hc2
        | cons y m =>
          simp only [List.cons_append, List.cons.injEq] at hm2
          simp only [List.cons_append, List.head?_cons, Option.some.injEq] at hx
          rw [← hx, ← hm2.1]
          exact hc1

end ConfigManager

namespace ConfigManager

open StdString

theorem mem_set_insert (set : List String) (x y : String) :
    y ∈ set_insert set x ↔ y = x ∨ y ∈ set := by
  unfold set_insert
  by_cases h : x ∈ set
  · rw [if_pos h]
    constructor
    · exact Or.inr
    · rintro (e | hm)
      · exact e ▸ h
      · exact hm
  · rw [if_neg h]
    simp

/-- What one trimmed line does to the two local sets of `load`. -/
theorem apply_directive_sets (st st1 : LoadState) (t : String)
    (h : apply_directive st t = Except.ok st1) :
    st1.new_blocked =
      (if starts_with "BLOCK=".data t.data = true
        then set_insert st.new_blocked (substr t 6 none) else st.new_blocked) ∧
    st1.new_whitelist =
      (if starts_with "WHITELIST=".data t.data = true
        then set_insert st.new_whitelist (substr t 10 none) else st.new_whitelist) := by
  unfold apply_directive at h
  simp only [find_zero_iff_starts] at h
  cases hd : t.data with
  | nil =>
    rw [hd] at h
    simp only [starts_with, Bool.false_eq_true, if_false] at h ⊢
    injection h with h
    subst h
    exact ⟨rfl, rfl⟩
  | cons c text =>
    rw [hd] at h
    simp only [starts_with, Bool.and_eq_true, decide_eq_true_eq] at h ⊢
    split_ifs at h with h1 h2 h3 h4 h5 h6 h7 h8 h9
    · have hc : c = 'P' := h1.1.symm
      subst hc
      split at h
      · injection h with h; subst h; simp
      · cases h
    · have hc : c = 'C' := h2.1.symm
      subst hc
      split at h
      · injection h with h; subst h; simp
      · cases h
    · have hc : c = 'C' := h3.1.symm
      subst hc
      split at h
      · injection h with h; subst h; simp
      · cases h
    · have hc : c = 'L' := h4.1.symm
      subst hc
      injection h with h; subst h; simp
    · have hc : c = 'M' := h5.1.symm
      subst hc
      split at h
      · injection h with h; subst h; simp
      · cases h
    · have hc : c = 'C' := h6.1.symm
      subst hc
      split at h
      · injection h with h; subst h; simp
      · cases h
    · have hc : c = 'E' := h7.1.symm
      subst hc
      injection h with h; subst h; simp
    · have hc : c = 'B' := h8.1.symm
      subst hc
      injection h with h; subst h
      simp [h8]
    · have hc : c = 'W' := h9.1.symm
      subst hc
      injection h with h; subst h
      simp [h9]
    · injection h with h; subst h
      simp [h8, h9]

end ConfigManager

namespace ConfigManager

open StdString

theorem key_value_iff (key t host : String) (n : Nat) (hn : key.data.length = n)
    (hsw : starts_with key.data t.data = true) :
    host = substr t n none ↔ t.data = key.data ++ host.data := by
  obtain ⟨r, hr⟩ := (starts_with_iff _ _).mp hsw
  have hsub : substr t n none = String.mk r := by
    simp only [substr, hr]
    rw [List.drop_left' hn]
  rw [hsub, hr]
  constructor
  · intro e
    rw [e]
  · intro e
    have : r = host.data := List.append_cancel_left e
    rw [this]

/-- What one line of the file does to the two local sets of `load`. -/
theorem load_line_sets (st st1 : LoadState) (line : String)
    (h : load_line st line = Except.ok st1) (host : String) :
    (host ∈ st1.new_blocked ↔ host ∈ st.new_blocked ∨ gives_value "BLOCK=" line host) ∧
    (host ∈ st1.new_whitelist ↔
      host ∈ st.new_whitelist ∨ gives_value "WHITELIST=" line host) := by
  unfold load_line at h
  by_cases hskip : line = "" ∨ line.data.head? = some '#'
  · rw [if_pos hskip] at h
    injection h with h
    subst h
    have hno : ∀ key, ¬ gives_value key line host := by
      rintro key ⟨h1, h2, _⟩
      rcases hskip with e | e
      · exact h1 e
      · exact h2 e
    simp [hno]
  · rw [if_neg hskip] at h
    have hne : line ≠ "" := fun e => hskip (Or.inl e)
    have hc : line.data.head? ≠ some '#' := fun e => hskip (Or.inr e)
    cases ht : trim_line line with
    | none =>
      rw [ht] at h
      injection h with h
      subst h
      have hno : ∀ key, ¬ gives_value key line host := by
        rintro key ⟨_, _, t, h3, _⟩
        rw [ht] at h3
        cases h3
      simp [hno]
    | some t =>
      rw [ht] at h
      obtain ⟨hb, hw⟩ := apply_directive_sets st st1 t h
      have hgv : ∀ key, gives_value key line host ↔ t.data = key.data ++ host.data := by
        intro key
        constructor
        · rintro ⟨_, _, t2, h3, h4⟩
          rw [ht] at h3
          injection h3 with h3
          rw [h3]
          exact h4
        · intro e
          exact ⟨hne, hc, t, ht, e⟩
      rw [hgv, hgv, hb, hw]
      constructor
      · by_cases hsw : starts_with "BLOCK=".data t.data = true
        · rw [if_pos hsw, mem_set_insert, key_value_iff "BLOCK=" t host 6 rfl hsw]
          exact or_comm
        · rw [if_neg hsw]
          constructor
          · exact Or.inl
          · rintro (hm | e)
            · exact hm
            · exact absurd ((starts_with_iff _ _).mpr ⟨host.data, e⟩) hsw
      · by_cases hsw : starts_with "WHITELIST=".data t.data = true
        · rw [if_pos hsw, mem_set_insert, key_value_iff "WHITELIST=" t host 10 rfl hsw]
          exact or_comm
        · rw [if_neg hsw]
          constructor
          · exact Or.inl
          · rintro (hm | e)
            · exact hm
            · exact absurd ((starts_with_iff _ _).mpr ⟨host.data, e⟩) hsw

theorem load_loop_sets (lines : List String) (st st1 : LoadState)
    (h : load_loop lines st = (st1, none)) (host : String) :
    (host ∈ st1.new_blocked ↔
      host ∈ st.new_blocked ∨ ∃ line ∈ lines, gives_value "BLOCK=" line host) ∧
    (host ∈ st1.new_whitelist ↔
      host ∈ st.new_whitelist ∨ ∃ line ∈ lines, gives_value "WHITELIST=" line host) := by
  induction lines generalizing st with
  | nil =>
    simp only [load_loop, Prod.mk.injEq] at h
    rw [← h.1]
    simp
  | cons line lines ih =>
    simp only [load_loop] at h
    cases hl : load_line st line with
    | ok st2 =>
      simp only [hl] at h
      obtain ⟨i1, i2⟩ := ih st2 h
      obtain ⟨l1, l2⟩ := load_line_sets st st2 line hl host
      rw [i1, i2, l1, l2]
      simp only [List.mem_cons, exists_eq_or_imp]
      exact ⟨or_assoc, or_assoc⟩
    | error e2 =>
      simp [hl] at h

end ConfigManager

namespace ConfigManager

open StdString

/-- C14, as stated, fails: for the line "BLOCK= evil.com" the stored host is " evil.com",
with the space that follows the equals sign, not the trimmed value "evil.com". -/
theorem C14_counterexample :
    load_lines ConfigManager.new (some ["BLOCK= evil.com"]) =
      LoadOutcome.returned true { ConfigManager.new with blocked_hosts := [" evil.com"] } ∧
    (" evil.com" : String).data.head? = some ' ' ∧
    ConfigManager.is_blocked { ConfigManager.new with blocked_hosts := [" evil.com"] }
      "evil.com" = false := by
  decide

theorem stored_host_end (key line host : String) (h : gives_value key line host)
    (ch : Char) (hlast : host.data.getLast? = some ch) : ch ∉ trim_chars := by
  obtain ⟨_, _, t, ht, hd⟩ := h
  obtain ⟨pre, mid, c, post, _, hmid, hc, _⟩ := trim_line_spec line t ht
  have h1 : t.data.getLast? = some c := by rw [hmid]; exact List.getLast?_concat mid
  rw [hd, List.getLast?_append, hlast] at h1
  simp only [Option.or_some, Option.some.injEq] at h1
  rw [h1]
  exact hc

/-- C14, amended: after a `load` that returns `true`, the blocklist holds exactly the
texts that follow "BLOCK=" in the trimmed lines of the file, and the whitelist exactly the
texts that follow "WHITELIST=", whatever the two sets held before the call; empty lines,
lines that start with '#', lines of white space and lines with another key give nothing.
Only the line is trimmed: a stored host never ends in a space, a tab, a CR or a line
feed, but white space between the equals sign and the host is kept as part of the host. -/
theorem C14_sets_hold_the_values_of_the_trimmed_lines (c : ConfigManager)
    (lines : List String) (c1 : ConfigManager)
    (h : load_lines c (some lines) = LoadOutcome.returned true c1) :
    (∀ host, host ∈ c1.blocked_hosts ↔ ∃ line ∈ lines, gives_value "BLOCK=" line host) ∧
    (∀ host, host ∈ c1.whitelisted_hosts ↔
      ∃ line ∈ lines, gives_value "WHITELIST=" line host) ∧
    (∀ host ∈ c1.blocked_hosts ++ c1.whitelisted_hosts, ∀ ch,
      host.data.getLast? = some ch → ch ∉ trim_chars) := by
  unfold load_lines at h
  simp only at h
  cases hloop : load_loop lines { config := c, new_blocked := [], new_whitelist := [] } with
  | mk st r =>
    rw [hloop] at h
    cases r with
    | some e => simp at h
    | none =>
      simp only [LoadOutcome.returned.injEq, true_and] at h
      subst h
      have hb : ∀ host, host ∈ st.new_blocked ↔
          ∃ line ∈ lines, gives_value "BLOCK=" line host := by
        intro host
        have := (load_loop_sets lines _ st hloop host).1
        simpa using this
      have hw : ∀ host, host ∈ st.new_whitelist ↔
          ∃ line ∈ lines, gives_value "WHITELIST=" line host := by
        intro host
        have := (load_loop_sets lines _ st hloop host).2
        simpa using this
      refine ⟨hb, hw, ?_⟩
      intro host hmem ch hlast
      rcases List.mem_append.mp hmem with hm | hm
      · obtain ⟨line, _, hg⟩ := (hb host).mp hm
        exact stored_host_end _ line host hg ch hlast
      · obtain ⟨line, _, hg⟩ := (hw host).mp hm
        exact stored_host_end _ line host hg ch hlast

theorem C14_witness :
    load_lines { ConfigManager.new with blocked_hosts := ["old.test"] }
        (some ["# policy", "", "  BLOCK=evil.test \r", "WHITELIST=good.test", "FOO=1"]) =
      LoadOutcome.returned true
        { ConfigManager.new with blocked_hosts := ["evil.test"],
                                 whitelisted_hosts := ["good.test"] } ∧
    ((∀ host, host ∈ ["evil.test"] ↔
        ∃ line ∈ ["# policy", "", "  BLOCK=evil.test \r", "WHITELIST=good.test", "FOO=1"],
          gives_value "BLOCK=" line host) ∧
     (∀ host, host ∈ ["good.test"] ↔
        ∃ line ∈ ["# policy", "", "  BLOCK=evil.test \r", "WHITELIST=good.test", "FOO=1"],
          gives_value "WHITELIST=" line host) ∧
     (∀ host ∈ ["evil.test"] ++ ["good.test"], ∀ ch,
        host.data.getLast? = some ch → ch ∉ trim_chars)) :=
  ⟨by decide,
   C14_sets_hold_the_values_of_the_trimmed_lines
     { ConfigManager.new with blocked_hosts := ["old.test"] }
     ["# policy", "", "  BLOCK=evil.test \r", "WHITELIST=good.test", "FOO=1"]
     { ConfigManager.new with blocked_hosts := ["evil.test"],
                              whitelisted_hosts := ["good.test"] }
     (by decide)⟩

end ConfigManager

namespace RequestHandler

open StdString CacheManager

/-- The blocked path of `handle_http_request` when the statistics exist: the URL line and
the BLOCKED_HTTP line are logged, the blocked counter goes up by one, the 403 reply is
sent, and neither the cache nor the resolver nor an origin is touched. -/
theorem blocked_http_request (config : ConfigManager) (cache : CacheManager)
    (st : Statistics) (net : Network) (now : Int) (request client_ip : String)
    (hhost : extract_host request ≠ "")
    (hb : config.is_blocked (extract_host request) = true) :
    handle_http_request config cache (some st) net now request client_ip =
      { cache := cache, stats := some st.record_blocked_request,
        events := [Event.log_url client_ip
            ("http://" ++ extract_host request ++ extract_path request)
            (substr request 0 (find request " " 0)),
          Event.log_request client_ip (extract_host request) "BLOCKED_HTTP" 0,
          Event.send_client forbidden_response],
        ending := Ending.returned false } ∧
    st.record_blocked_request.total_blocked = st.total_blocked + 1 ∧
    (∃ rest, forbidden_response.data = "HTTP/1.1 403".data ++ rest) := by
  refine ⟨?_, rfl, ?_⟩
  · simp [handle_http_request, hhost, hb]
  · exact (starts_with_iff _ _).mp (by decide)

/-- The blocked path of `handle_https_connect` when the statistics exist and the port
part of the target, if there is one, is a number `std::stoi` accepts. -/
theorem blocked_connect_request (config : ConfigManager) (cache : CacheManager)
    (st : Statistics) (net : Network) (request client_ip : String) (i1 i2 : Nat)
    (port : Int)
    (h1 : find request " " 0 = some i1) (h2 : find request " " (i1 + 1) = some i2)
    (hport : (match find (substr request (i1 + 1) (some (i2 - i1 - 1))) ":" 0 with
        | some c => stoi (substr (substr request (i1 + 1) (some (i2 - i1 - 1))) (c + 1) none)
        | none => Except.ok 443) = Except.ok port)
    (hb : config.is_blocked
      (substr (substr request (i1 + 1) (some (i2 - i1 - 1))) 0
        (find (substr request (i1 + 1) (some (i2 - i1 - 1))) ":" 0)) = true) :
    handle_https_connect config cache (some st) net request client_ip =
      { cache := cache, stats := some st.record_blocked_request,
        events := [Event.log_request client_ip
            (substr (substr request (i1 + 1) (some (i2 - i1 - 1))) 0
              (find (substr request (i1 + 1) (some (i2 - i1 - 1))) ":" 0))
            "BLOCKED_HTTPS" 0,
          Event.send_client forbidden_response],
        ending := Ending.returned false } := by
  unfold handle_https_connect
  simp only [h1, next_pos, h2, hport, hb, if_true, List.singleton_append]

end RequestHandler

namespace RequestHandler

open StdString CacheManager

/-- Fetch, then hit, in terms of the host `extract_host` reads from the request: when it
is not empty and not blocked, for an empty cache, existing statistics and a network on
which the fetch succeeds with a non-empty response, the first request sends exactly the
response to the client, logs FETCHED, stores the response under that host and counts one
request, no cached request and the bytes of the response; a second identical request within
the time-to-live sends the same bytes without any call on the resolver or the origin, logs
CACHED, and counts a second request, one cached request and the bytes of the response once
more. -/
theorem fetch_then_cached (config : ConfigManager) (cache : CacheManager)
    (st : Statistics) (net1 net2 : Network) (now1 now2 : Int) (request client_ip : String)
    (hhost : extract_host request ≠ "")
    (hunblocked : config.is_blocked (extract_host request) = false)
    (hinv : cache_inv cache) (hempty : cache.cache = []) (_hmax : 1 ≤ cache.max_entries)
    (hnet : net1.dns_ok = true ∧ net1.socket_ok = true ∧ net1.connect_ok = true ∧
      net1.send_ok = true)
    (hresp : net1.response ≠ "")
    (hfresh : now2 - net1.fetch_time ≤
      (if config.cache_ttl < 0 then cache.default_ttl else config.cache_ttl)) :
    ∃ run1 run2 st1 st2,
      handle_http_request config cache (some st) net1 now1 request client_ip = run1 ∧
      handle_http_request config run1.cache run1.stats net2 now2 request client_ip = run2 ∧
      run1.ending = Ending.returned true ∧
      run1.events =
        [Event.log_url client_ip ("http://" ++ extract_host request ++ extract_path request)
           (substr request 0 (find request " " 0)),
         Event.dns_lookup (extract_host request),
         Event.connect_origin (extract_host request) 80,
         Event.send_origin ("GET " ++ extract_path request ++ " HTTP/1.0\r\n" ++
           "Host: " ++ extract_host request ++ "\r\n" ++ "Connection: close\r\n" ++ "\r\n"),
         Event.recv_origin, Event.close_origin,
         Event.send_client net1.response,
         Event.log_request client_ip (extract_host request) "FETCHED"
           net1.response.length] ∧
      (∃ it, map_find run1.cache.cache (extract_host request) = some it ∧
        it.1.data = net1.response) ∧
      run1.stats = some st1 ∧
      st1.total_requests = st.total_requests + 1 ∧ st1.total_cached = st.total_cached ∧
      st1.total_bytes_sent = st.total_bytes_sent + net1.response.length ∧
      run2.ending = Ending.returned true ∧
      run2.events =
        [Event.log_url client_ip ("http://" ++ extract_host request ++ extract_path request)
           (substr request 0 (find request " " 0)),
         Event.send_client net1.response,
         Event.log_request client_ip (extract_host request) "CACHED"
           net1.response.length] ∧
      run2.stats = some st2 ∧
      st2.total_requests = st.total_requests + 2 ∧
      st2.total_cached = st.total_cached + 1 ∧
      st2.total_bytes_sent = st.total_bytes_sent + 2 * net1.response.length := by
  obtain ⟨hdns, hsock, hconn, hsend⟩ := hnet
  have hget1 : cache.get (extract_host request) now1 =
      some ({ cache with cache_misses := cache.cache_misses + 1 }, none) := by
    simp [CacheManager.get, hempty, map_find]
  have hinv1 : cache_inv { cache with cache_misses := cache.cache_misses + 1 } :=
    cache_inv_congr rfl rfl rfl rfl hinv
  obtain ⟨s1, s2, hput, hget2, _⟩ :=
    put_then_get hinv1 (extract_host request) net1.response config.cache_ttl
      net1.fetch_time now2 hfresh
  have hfind : ∃ it, map_find s1.cache (extract_host request) = some it ∧
      it.1.data = net1.response := by
    have hp := put_eq hinv1 (extract_host request) net1.response config.cache_ttl
      net1.fetch_time
    rw [hput] at hp
    injection hp with hp
    rw [hp]
    generalize evict_if_needed _ _ = sE
    generalize (if config.cache_ttl < 0 then _ else config.cache_ttl) = actual
    exact ⟨({ data := net1.response, timestamp := net1.fetch_time, ttl_seconds := actual,
              size := net1.response.length }, sE.fresh),
      by simp [add_entry, map_assign, map_find], rfl⟩
  have hrun1 : handle_http_request config cache (some st) net1 now1 request client_ip =
      { cache := s1,
        stats := some (((st.record_request (extract_host request) client_ip).record_bytes
          (extract_host request) net1.response.length
          ("GET " ++ extract_path request ++ " HTTP/1.0\r\n" ++
            "Host: " ++ extract_host request ++ "\r\n" ++ "Connection: close\r\n" ++
            "\r\n").length).record_time (extract_host request) net1.elapsed_ms),
        events :=
          [Event.log_url client_ip
             ("http://" ++ extract_host request ++ extract_path request)
             (substr request 0 (find request " " 0)),
           Event.dns_lookup (extract_host request),
           Event.connect_origin (extract_host request) 80,
           Event.send_origin ("GET " ++ extract_path request ++ " HTTP/1.0\r\n" ++
             "Host: " ++ extract_host request ++ "\r\n" ++ "Connection: close\r\n" ++
             "\r\n"),
           Event.recv_origin, Event.close_origin,
           Event.send_client net1.response,
           Event.log_request client_ip (extract_host request) "FETCHED"
             net1.response.length],
        ending := Ending.returned true } := by
    unfold handle_http_request
    simp only [hhost, if_false, hunblocked, Bool.false_eq_true, hget1, connect_to_host,
      hdns, hsock, hconn, hsend, Bool.not_true, hresp, hput, List.singleton_append,
      List.cons_append, List.nil_append]
  have hrun2 : handle_http_request config s1
      (some (((st.record_request (extract_host request) client_ip).record_bytes
          (extract_host request) net1.response.length
          ("GET " ++ extract_path request ++ " HTTP/1.0\r\n" ++
            "Host: " ++ extract_host request ++ "\r\n" ++ "Connection: close\r\n" ++
            "\r\n").length).record_time (extract_host request) net1.elapsed_ms))
      net2 now2 request client_ip =
      { cache := s2,
        stats := some ((((((st.record_request (extract_host request) client_ip).record_bytes
          (extract_host request) net1.response.length
          ("GET " ++ extract_path request ++ " HTTP/1.0\r\n" ++
            "Host: " ++ extract_host request ++ "\r\n" ++ "Connection: close\r\n" ++
            "\r\n").length).record_time (extract_host request) net1.elapsed_ms).record_request
            (extract_host request) client_ip).record_cached_request).record_bytes
            (extract_host request) net1.response.length 0),
        events :=
          [Event.log_url client_ip
             ("http://" ++ extract_host request ++ extract_path request)
             (substr request 0 (find request " " 0)),
           Event.send_client net1.response,
           Event.log_request client_ip (extract_host request) "CACHED"
             net1.response.length],
        ending := Ending.returned true } := by
    unfold handle_http_request
    simp only [hhost, if_false, hunblocked, Bool.false_eq_true, hget2,
      List.singleton_append, List.cons_append, List.nil_append]
  refine ⟨_, _, _, _, hrun1, hrun2, rfl, rfl, hfind, rfl, ?_, ?_, ?_, rfl, rfl, rfl,
    ?_, ?_, ?_⟩
  · simp [Statistics.record_request, Statistics.record_bytes, Statistics.record_time]
  · simp [Statistics.record_request, Statistics.record_bytes, Statistics.record_time]
  · simp [Statistics.record_request, Statistics.record_bytes, Statistics.record_time]
  · simp [Statistics.record_request, Statistics.record_bytes, Statistics.record_time,
      Statistics.record_cached_request]
  · simp [Statistics.record_request, Statistics.record_bytes, Statistics.record_time,
      Statistics.record_cached_request]
  · simp [Statistics.record_request, Statistics.record_bytes, Statistics.record_time,
      Statistics.record_cached_request]
    omega

end RequestHandler

namespace RequestHandler

open StdString CacheManager

theorem fetch_then_cached_scenario :
    extract_host scenario_request ≠ "" ∧
    scenario_policy.is_blocked (extract_host scenario_request) = false ∧
    cache_inv (CacheManager.new 10 60) ∧ (CacheManager.new 10 60).cache = [] ∧
    1 ≤ (CacheManager.new 10 60).max_entries ∧
    (sample_network.dns_ok = true ∧ sample_network.socket_ok = true ∧
      sample_network.connect_ok = true ∧ sample_network.send_ok = true) ∧
    sample_network.response ≠ "" ∧
    (30 : Int) - sample_network.fetch_time ≤
      (if scenario_policy.cache_ttl < 0 then (CacheManager.new 10 60).default_ttl
       else scenario_policy.cache_ttl) ∧
    (∃ run1 run2 st1 st2,
      handle_http_request scenario_policy (CacheManager.new 10 60) (some Statistics.new)
        sample_network 0 scenario_request "10.0.0.1" = run1 ∧
      handle_http_request scenario_policy run1.cache run1.stats dead_network 30
        scenario_request "10.0.0.1" = run2 ∧
      run1.ending = Ending.returned true ∧
      run1.events =
        [Event.log_url "10.0.0.1"
           ("http://" ++ extract_host scenario_request ++ extract_path scenario_request)
           (substr scenario_request 0 (find scenario_request " " 0)),
         Event.dns_lookup (extract_host scenario_request),
         Event.connect_origin (extract_host scenario_request) 80,
         Event.send_origin ("GET " ++ extract_path scenario_request ++ " HTTP/1.0\r\n" ++
           "Host: " ++ extract_host scenario_request ++ "\r\n" ++ "Connection: close\r\n" ++
           "\r\n"),
         Event.recv_origin, Event.close_origin,
         Event.send_client sample_network.response,
         Event.log_request "10.0.0.1" (extract_host scenario_request) "FETCHED"
           sample_network.response.length] ∧
      (∃ it, map_find run1.cache.cache (extract_host scenario_request) = some it ∧
        it.1.data = sample_network.response) ∧
      run1.stats = some st1 ∧
      st1.total_requests = Statistics.new.total_requests + 1 ∧
      st1.total_cached = Statistics.new.total_cached ∧
      st1.total_bytes_sent =
        Statistics.new.total_bytes_sent + sample_network.response.length ∧
      run2.ending = Ending.returned true ∧
      run2.events =
        [Event.log_url "10.0.0.1"
           ("http://" ++ extract_host scenario_request ++ extract_path scenario_request)
           (substr scenario_request 0 (find scenario_request " " 0)),
         Event.send_client sample_network.response,
         Event.log_request "10.0.0.1" (extract_host scenario_request) "CACHED"
           sample_network.response.length] ∧
      run2.stats = some st2 ∧
      st2.total_requests = Statistics.new.total_requests + 2 ∧
      st2.total_cached = Statistics.new.total_cached + 1 ∧
      st2.total_bytes_sent =
        Statistics.new.total_bytes_sent + 2 * sample_network.response.length) :=
  ⟨by decide, by decide, by decide, by decide, by decide, by decide, by decide, by decide,
   fetch_then_cached scenario_policy (CacheManager.new 10 60) Statistics.new
     sample_network dead_network 0 30 scenario_request "10.0.0.1"
     (by decide) (by decide) (by decide) (by decide) (by decide) (by decide) (by decide)
     (by decide)⟩

end RequestHandler

namespace RequestHandler

open StdString

/-- Whenever `extract_host` returns the empty string, `handle_http_request` sends the 500
reply "No Host header found" and returns, with the cache and the statistics untouched and
no other call made. -/
theorem empty_host_reply (config : ConfigManager) (cache : CacheManager)
    (stats : Option Statistics) (net : Network) (now : Int) (request client_ip : String)
    (h : extract_host request = "") :
    handle_http_request config cache stats net now request client_ip =
      { cache := cache, stats := stats,
        events := [Event.send_client (error_response "No Host header found")],
        ending := Ending.returned false } := by
  simp [handle_http_request, h]

/-- When the request holds no CRLF at all, `extract_host` returns the empty string. -/
theorem extract_host_without_crlf (request : String)
    (h : ¬ ∃ u v, request.data = u ++ "\r\n".data ++ v) : extract_host request = "" := by
  have hnone : ∀ pos, find request "\r\n" pos = none := by
    intro pos
    unfold find
    split
    · rw [find_at_none_iff]
      rintro ⟨u, v, e⟩
      apply h
      refine ⟨request.data.take pos ++ u, v, ?_⟩
      rw [List.append_assoc, List.append_assoc, ← List.append_assoc u, ← e,
        List.take_append_drop]
    · rfl
  unfold extract_host
  cases find request "Host:" 0 with
  | none => rfl
  | some hpos => simp only [hnone]

end RequestHandler

/-! ## The calls of log_request -/

namespace RequestHandler

open StdString CacheManager

theorem log_requests_connect (net : Network) (host : String) (port : Int) :
    log_requests (connect_to_host net host port).1 = [] := by
  unfold connect_to_host
  split_ifs <;> rfl

theorem log_requests_append (a b : List Event) :
    log_requests (a ++ b) = log_requests a ++ log_requests b := by
  simp [log_requests]

theorem error_response_ne_forbidden :
    error_response "Failed to connect to remote host" ≠ forbidden_response ∧
    error_response "Empty response from server" ≠ forbidden_response ∧
    error_response "Malformed CONNECT request" ≠ forbidden_response ∧
    error_response "No Host header found" ≠ forbidden_response := by
  decide

/-- C21 fails on the code: a request without a Host header is answered with the 500 reply
and no call of `log_request` is made; the same holds for a CONNECT request without two
spaces and for a fetch whose connection fails. -/
theorem C21_counterexample :
    log_requests (handle_http_request ConfigManager.new (CacheManager.new 10 60)
      (some Statistics.new) sample_network 0 "GET / HTTP/1.1\r\n\r\n" "10.0.0.1").events = [] ∧
    (handle_http_request ConfigManager.new (CacheManager.new 10 60)
      (some Statistics.new) sample_network 0 "GET / HTTP/1.1\r\n\r\n" "10.0.0.1").events
      = [Event.send_client (error_response "No Host header found")] ∧
    log_requests (handle_https_connect ConfigManager.new (CacheManager.new 10 60)
      (some Statistics.new) sample_network "CONNECT" "10.0.0.1").events = [] ∧
    log_requests (handle_http_request ConfigManager.new (CacheManager.new 10 60)
      (some Statistics.new) dead_network 0 scenario_request "10.0.0.1").events = [] := by
  decide

end RequestHandler

namespace RequestHandler

open StdString CacheManager

theorem send_client_not_mem_connect (net : Network) (host : String) (port : Int)
    (bytes : String) : Event.send_client bytes ∉ (connect_to_host net host port).1 := by
  unfold connect_to_host
  split_ifs <;> simp

/-- The calls of `log_request` of `handle_http_request`, path by path. -/
theorem http_log_requests (config : ConfigManager) (cache : CacheManager)
    (stats : Option Statistics) (net : Network) (now : Int) (request client_ip : String) :
    ((handle_http_request config cache stats net now request client_ip).ending
        = Ending.returned true →
      ∃ bytes,
        log_requests (handle_http_request config cache stats net now request client_ip).events
          = [Event.log_request client_ip (extract_host request) "CACHED" bytes] ∨
        log_requests (handle_http_request config cache stats net now request client_ip).events
          = [Event.log_request client_ip (extract_host request) "FETCHED" bytes]) ∧
    ((handle_http_request config cache stats net now request client_ip).ending
        = Ending.returned false →
      Event.send_client forbidden_response ∈
        (handle_http_request config cache stats net now request client_ip).events →
      log_requests (handle_http_request config cache stats net now request client_ip).events
        = [Event.log_request client_ip (extract_host request) "BLOCKED_HTTP" 0]) ∧
    ((handle_http_request config cache stats net now request client_ip).ending
        = Ending.returned false →
      Event.send_client forbidden_response ∉
        (handle_http_request config cache stats net now request client_ip).events →
      log_requests (handle_http_request config cache stats net now request client_ip).events
        = []) ∧
    (log_requests
      (handle_http_request config cache stats net now request client_ip).events).length ≤ 1 := by
  obtain ⟨n1, n2, n3, n4⟩ := error_response_ne_forbidden
  have hc := log_requests_connect net (extract_host request) 80
  have hm := send_client_not_mem_connect net (extract_host request) 80 forbidden_response
  have hc1 := hc
  unfold log_requests at hc1
  unfold handle_http_request
  simp only []
  by_cases hh : extract_host request = ""
  · rw [if_pos hh]
    simp [log_requests, n4.symm]
  · rw [if_neg hh]
    cases hb : config.is_blocked (extract_host request) with
    | true =>
      rw [if_pos rfl]
      cases stats <;> simp [log_requests, hc1]
    | false =>
      rw [if_neg Bool.false_ne_true]
      cases hg : cache.get (extract_host request) now with
      | none => simp [log_requests]
      | some r =>
        obtain ⟨cache1, data⟩ := r
        cases data with
        | some cached_data => cases stats <;> simp [log_requests, hc1]
        | none =>
          simp only []
          cases hconn : (connect_to_host net (extract_host request) 80).2 with
          | false =>
            simp only [Bool.not_false, if_true]
            cases stats <;> simp [log_requests_append, hc, hm, n1.symm] <;> simp [log_requests, hc1]
          | true =>
            simp only [Bool.not_true, Bool.false_eq_true, if_false]
            cases hs : net.send_ok with
            | false =>
              simp only [Bool.not_false, if_true]
              cases stats <;> simp [log_requests_append, hc, hm] <;> simp [log_requests, hc1]
            | true =>
              simp only [Bool.not_true, Bool.false_eq_true, if_false]
              by_cases hr : net.response = ""
              · rw [if_pos hr]
                cases stats <;> simp [log_requests_append, hc, hm, n2.symm] <;>
                  simp [log_requests, hc1]
              · rw [if_neg hr]
                cases hp : cache1.put (extract_host request) net.response config.cache_ttl
                  net.fetch_time with
                | none => simp [log_requests, hc1]
                | some cache2 =>
                  cases stats <;> simp [log_requests_append, hc] <;> simp [log_requests, hc1]

end RequestHandler

namespace RequestHandler

open StdString CacheManager

/-- The calls of `log_request` of `handle_https_connect`, path by path. -/
theorem connect_log_requests (config : ConfigManager) (cache : CacheManager)
    (stats : Option Statistics) (net : Network) (request client_ip : String) :
    ((handle_https_connect config cache stats net request client_ip).ending
        = Ending.returned true →
      ∃ host,
        log_requests (handle_https_connect config cache stats net request client_ip).events
          = [Event.log_request client_ip host "HTTPS_TUNNEL" 0]) ∧
    ((handle_https_connect config cache stats net request client_ip).ending
        = Ending.returned false →
      Event.send_client forbidden_response ∈
        (handle_https_connect config cache stats net request client_ip).events →
      ∃ host,
        log_requests (handle_https_connect config cache stats net request client_ip).events
          = [Event.log_request client_ip host "BLOCKED_HTTPS" 0]) ∧
    ((handle_https_connect config cache stats net request client_ip).ending
        = Ending.returned false →
      Event.send_client forbidden_response ∉
        (handle_https_connect config cache stats net request client_ip).events →
      log_requests (handle_https_connect config cache stats net request client_ip).events
        = []) ∧
    (log_requests
      (handle_https_connect config cache stats net request client_ip).events).length ≤ 1 := by
  obtain ⟨n1, n2, n3, n4⟩ := error_response_ne_forbidden
  unfold handle_https_connect
  simp only []
  cases h1 : find request " " 0 with
  | none => simp [log_requests, n3.symm]
  | some i1 =>
    cases h2 : find request " " (next_pos (some i1)) with
    | none => simp [log_requests, n3.symm]
    | some i2 =>
      simp only []
      generalize substr request (i1 + 1) (some (i2 - i1 - 1)) = hostport
      generalize find hostport ":" 0 = colon
      generalize substr hostport 0 colon = host
      cases colon with
      | none =>
        simp only []
        generalize (443 : Int) = port
        have hc := log_requests_connect net host port
        have hm := send_client_not_mem_connect net host port forbidden_response
        unfold log_requests at hc
        cases hb : config.is_blocked host with
        | true =>
          rw [if_pos rfl]
          cases stats <;> simp [log_requests]
        | false =>
          rw [if_neg Bool.false_ne_true]
          cases hconn : (connect_to_host net host port).2 with
          | false =>
            simp only [Bool.not_false, if_true]
            cases stats <;> simp [log_requests, hc, hm, n1.symm]
          | true =>
            simp only [Bool.not_true, Bool.false_eq_true, if_false]
            cases stats <;> simp [log_requests, hc]
      | some c =>
        simp only []
        generalize stoi (substr hostport (c + 1) none) = parsed
        cases parsed with
        | error e => simp [log_requests]
        | ok port =>
          simp only []
          have hc := log_requests_connect net host port
          have hm := send_client_not_mem_connect net host port forbidden_response
          unfold log_requests at hc
          cases hb : config.is_blocked host with
          | true =>
            rw [if_pos rfl]
            cases stats <;> simp [log_requests]
          | false =>
            rw [if_neg Bool.false_ne_true]
            cases hconn : (connect_to_host net host port).2 with
            | false =>
              simp only [Bool.not_false, if_true]
              cases stats <;> simp [log_requests, hc, hm, n1.symm]
            | true =>
              simp only [Bool.not_true, Bool.false_eq_true, if_false]
              cases stats <;> simp [log_requests, hc]

end RequestHandler

namespace RequestHandler

open StdString CacheManager

/-- C21, amended: on every run of `handle_http_request` and of `handle_https_connect` at
most one call of `log_request` is made.  A run that returns true makes exactly one, with
the status CACHED or FETCHED (HTTP) or HTTPS_TUNNEL (CONNECT); a run that returns false
after sending the 403 reply makes exactly one, with the status BLOCKED_HTTP or
BLOCKED_HTTPS; a run that returns false without the 403 reply (missing Host header,
malformed CONNECT, connection failure, failed send to the origin, empty response of the
origin) makes none. -/
theorem C21_one_log_request_on_served_paths_none_on_error_paths
    (config : ConfigManager) (cache : CacheManager) (stats : Option Statistics)
    (net : Network) (now : Int) (request client_ip : String) :
    (((handle_http_request config cache stats net now request client_ip).ending
        = Ending.returned true →
      ∃ bytes,
        log_requests (handle_http_request config cache stats net now request client_ip).events
          = [Event.log_request client_ip (extract_host request) "CACHED" bytes] ∨
        log_requests (handle_http_request config cache stats net now request client_ip).events
          = [Event.log_request client_ip (extract_host request) "FETCHED" bytes]) ∧
    ((handle_http_request config cache stats net now request client_ip).ending
        = Ending.returned false →
      Event.send_client forbidden_response ∈
        (handle_http_request config cache stats net now request client_ip).events →
      log_requests (handle_http_request config cache stats net now request client_ip).events
        = [Event.log_request client_ip (extract_host request) "BLOCKED_HTTP" 0]) ∧
    ((handle_http_request config cache stats net now request client_ip).ending
        = Ending.returned false →
      Event.send_client forbidden_response ∉
        (handle_http_request config cache stats net now request client_ip).events →
      log_requests (handle_http_request config cache stats net now request client_ip).events
        = []) ∧
    (log_requests
      (handle_http_request config cache stats net now request client_ip).events).length ≤ 1) ∧
    (((handle_https_connect config cache stats net request client_ip).ending
        = Ending.returned true →
      ∃ host,
        log_requests (handle_https_connect config cache stats net request client_ip).events
          = [Event.log_request client_ip host "HTTPS_TUNNEL" 0]) ∧
    ((handle_https_connect config cache stats net request client_ip).ending
        = Ending.returned false →
      Event.send_client forbidden_response ∈
        (handle_https_connect config cache stats net request client_ip).events →
      ∃ host,
        log_requests (handle_https_connect config cache stats net request client_ip).events
          = [Event.log_request client_ip host "BLOCKED_HTTPS" 0]) ∧
    ((handle_https_connect config cache stats net request client_ip).ending
        = Ending.returned false →
      Event.send_client forbidden_response ∉
        (handle_https_connect config cache stats net request client_ip).events →
      log_requests (handle_https_connect config cache stats net request client_ip).events
        = []) ∧
    (log_requests
      (handle_https_connect config cache stats net request client_ip).events).length ≤ 1) :=
  ⟨http_log_requests config cache stats net now request client_ip,
   connect_log_requests config cache stats net request client_ip⟩

/-- The amended C21 at work: the fetch of scenario S1 returns true and logs once (FETCHED),
and the CONNECT request to a blocked host returns false after the 403 reply and logs once
(BLOCKED_HTTPS). -/
theorem C21_witness :
    ((handle_http_request scenario_policy (CacheManager.new 10 60) (some Statistics.new)
        sample_network 0 scenario_request "10.0.0.1").ending = Ending.returned true ∧
     ∃ bytes,
       log_requests (handle_http_request scenario_policy (CacheManager.new 10 60)
           (some Statistics.new) sample_network 0 scenario_request "10.0.0.1").events
         = [Event.log_request "10.0.0.1" (extract_host scenario_request) "CACHED" bytes] ∨
       log_requests (handle_http_request scenario_policy (CacheManager.new 10 60)
           (some Statistics.new) sample_network 0 scenario_request "10.0.0.1").events
         = [Event.log_request "10.0.0.1" (extract_host scenario_request) "FETCHED" bytes]) ∧
    ((handle_https_connect sample_policy (CacheManager.new 10 60) (some Statistics.new)
        sample_network "CONNECT evil.test:443 HTTP/1.1\r\n\r\n" "10.0.0.1").ending
        = Ending.returned false ∧
     Event.send_client forbidden_response ∈
       (handle_https_connect sample_policy (CacheManager.new 10 60) (some Statistics.new)
         sample_network "CONNECT evil.test:443 HTTP/1.1\r\n\r\n" "10.0.0.1").events ∧
     ∃ host,
       log_requests (handle_https_connect sample_policy (CacheManager.new 10 60)
           (some Statistics.new) sample_network "CONNECT evil.test:443 HTTP/1.1\r\n\r\n"
           "10.0.0.1").events
         = [Event.log_request "10.0.0.1" host "BLOCKED_HTTPS" 0]) :=
  ⟨⟨by decide,
    (C21_one_log_request_on_served_paths_none_on_error_paths scenario_policy
      (CacheManager.new 10 60) (some Statistics.new) sample_network 0 scenario_request
      "10.0.0.1").1.1 (by decide)⟩,
   ⟨by decide, by decide,
    (C21_one_log_request_on_served_paths_none_on_error_paths sample_policy
      (CacheManager.new 10 60) (some Statistics.new) sample_network 0
      "CONNECT evil.test:443 HTTP/1.1\r\n\r\n" "10.0.0.1").2.2.1 (by decide) (by decide)⟩⟩

end RequestHandler

namespace RequestHandler

open StdString CacheManager

/-! ## Requests without statistics -/

/-- C22 fails on the code.  Without a Statistics object (`stats` is the null pointer), for
every policy, every well-formed cache, every network and every request that names a host,
`handle_http_request` ends in a call through the null pointer, on each of its paths; for a
blocked host this happens before the 403 reply, which is sent when the statistics exist.
`handle_https_connect` without statistics never returns true and never relays a byte. -/
theorem C22_absent_statistics_are_dereferenced (config : ConfigManager)
    (cache : CacheManager) (net : Network) (now : Int) (request client_ip : String)
    (hinv : cache_inv cache) (hhost : extract_host request ≠ "") :
    (handle_http_request config cache none net now request client_ip).ending
      = Ending.null_dereference ∧
    (config.is_blocked (extract_host request) = true →
      Event.send_client forbidden_response ∉
        (handle_http_request config cache none net now request client_ip).events ∧
      ∀ st : Statistics,
        (handle_http_request config cache (some st) net now request client_ip).ending
          = Ending.returned false ∧
        Event.send_client forbidden_response ∈
          (handle_http_request config cache (some st) net now request client_ip).events) ∧
    (handle_https_connect config cache none net request client_ip).ending
      ≠ Ending.returned true ∧
    Event.tunnel ∉ (handle_https_connect config cache none net request client_ip).events := by
  refine ⟨?_, ?_, ?_⟩
  · unfold handle_http_request
    simp only []
    rw [if_neg hhost]
    cases hb : config.is_blocked (extract_host request) with
    | true => rw [if_pos rfl]
    | false =>
      rw [if_neg Bool.false_ne_true]
      have hsome := (operations_return hinv (extract_host request) "" 0 now).1
      cases hg : cache.get (extract_host request) now with
      | none => rw [hg] at hsome; cases hsome
      | some r =>
        obtain ⟨cache1, data⟩ := r
        have hinv1 := get_inv hinv hg
        cases data with
        | some cached_data => rfl
        | none =>
          simp only []
          split_ifs with h1 h2 h3
          · rfl
          · rfl
          · rfl
          · rw [put_eq hinv1]
  · intro hb
    unfold handle_http_request
    simp only []
    simp only [if_neg hhost, if_pos hb]
    simp
  · unfold handle_https_connect
    simp only []
    cases find request " " 0 with
    | none => simp
    | some i1 =>
      cases find request " " (next_pos (some i1)) with
      | none => simp
      | some i2 =>
        simp only []
        generalize substr request (i1 + 1) (some (i2 - i1 - 1)) = hostport
        generalize find hostport ":" 0 = colon
        generalize substr hostport 0 colon = host
        have hc : ∀ port, Event.tunnel ∉ (connect_to_host net host port).1 := by
          intro port
          unfold connect_to_host
          split_ifs <;> simp
        cases colon with
        | none =>
          simp only []
          split_ifs <;> simp [hc]
        | some c =>
          simp only []
          cases stoi (substr hostport (c + 1) none) with
          | error e => simp
          | ok port =>
            simp only []
            split_ifs <;> simp [hc]

end RequestHandler

namespace RequestHandler

open StdString CacheManager

/-- The failure of C22 at work: with `evil.test` blocked and no Statistics object, the
request for `evil.test` ends in the call through the null pointer without the 403 reply,
which the same request gets when the statistics exist; and the fetch of scenario S1, which
returns true with statistics, ends in the call through the null pointer without them. -/
theorem C22_witness :
    cache_inv (CacheManager.new 10 60) ∧
    extract_host "GET / HTTP/1.1\r\nHost: evil.test\r\n\r\n" ≠ "" ∧
    ((handle_http_request sample_policy (CacheManager.new 10 60) none sample_network 0
        "GET / HTTP/1.1\r\nHost: evil.test\r\n\r\n" "10.0.0.1").ending
      = Ending.null_dereference ∧
    (sample_policy.is_blocked (extract_host "GET / HTTP/1.1\r\nHost: evil.test\r\n\r\n")
        = true →
      Event.send_client forbidden_response ∉
        (handle_http_request sample_policy (CacheManager.new 10 60) none sample_network 0
          "GET / HTTP/1.1\r\nHost: evil.test\r\n\r\n" "10.0.0.1").events ∧
      ∀ st : Statistics,
        (handle_http_request sample_policy (CacheManager.new 10 60) (some st) sample_network 0
          "GET / HTTP/1.1\r\nHost: evil.test\r\n\r\n" "10.0.0.1").ending
          = Ending.returned false ∧
        Event.send_client forbidden_response ∈
          (handle_http_request sample_policy (CacheManager.new 10 60) (some st)
            sample_network 0 "GET / HTTP/1.1\r\nHost: evil.test\r\n\r\n" "10.0.0.1").events) ∧
    (handle_https_connect sample_policy (CacheManager.new 10 60) none sample_network
        "GET / HTTP/1.1\r\nHost: evil.test\r\n\r\n" "10.0.0.1").ending
      ≠ Ending.returned true ∧
    Event.tunnel ∉ (handle_https_connect sample_policy (CacheManager.new 10 60) none
      sample_network "GET / HTTP/1.1\r\nHost: evil.test\r\n\r\n" "10.0.0.1").events) ∧
    (handle_http_request scenario_policy (CacheManager.new 10 60) (some Statistics.new)
        sample_network 0 scenario_request "10.0.0.1").ending = Ending.returned true ∧
    (handle_http_request scenario_policy (CacheManager.new 10 60) none
        sample_network 0 scenario_request "10.0.0.1").ending = Ending.null_dereference ∧
    (handle_https_connect scenario_policy (CacheManager.new 10 60) (some Statistics.new)
        sample_network "CONNECT example.test:443 HTTP/1.1\r\n\r\n" "10.0.0.1").ending
      = Ending.returned true ∧
    (handle_https_connect scenario_policy (CacheManager.new 10 60) none
        sample_network "CONNECT example.test:443 HTTP/1.1\r\n\r\n" "10.0.0.1")
      = { cache := CacheManager.new 10 60, stats := none,
          events := [Event.dns_lookup "example.test",
            Event.connect_origin "example.test" 443,
            Event.send_client "HTTP/1.1 200 Connection Established\r\n\r\n",
            Event.log_request "10.0.0.1" "example.test" "HTTPS_TUNNEL" 0,
            Event.log_url "10.0.0.1" "https://example.test" "CONNECT"],
          ending := Ending.null_dereference } :=
  ⟨by decide, by decide,
   C22_absent_statistics_are_dereferenced sample_policy (CacheManager.new 10 60)
     sample_network 0 "GET / HTTP/1.1\r\nHost: evil.test\r\n\r\n" "10.0.0.1"
     (by decide) (by decide),
   by decide, by decide, by decide, by decide⟩

end RequestHandler

namespace RequestHandler

open StdString CacheManager

/-! ## The 403 reply -/

/-- C24 fails on the code for the 403 reply: `send_forbidden` declares `Content-Length: 45`
and the body that follows the blank line has 48 bytes; the reply is what a blocked request
is answered with. -/
theorem C24_forbidden_reply_declares_45_for_48_bytes :
    declared_content_length forbidden_response = some "45" ∧
    response_body forbidden_response
      = some "<html><body><h1>403 Forbidden</h1></body></html>" ∧
    "<html><body><h1>403 Forbidden</h1></body></html>".length = 48 ∧
    "<html><body><h1>403 Forbidden</h1></body></html>".utf8ByteSize = 48 ∧
    Event.send_client forbidden_response ∈
      (handle_http_request sample_policy (CacheManager.new 10 60) (some Statistics.new)
        sample_network 0 "GET / HTTP/1.1\r\nHost: evil.test\r\n\r\n" "10.0.0.1").events := by
  decide

theorem handle_stats_reply (cache : CacheManager) (st : Statistics) (uptime : String) :
    (handle_stats cache (some st) uptime).events
      = [Event.send_client (stats_response (st.get_json_stats uptime))] := rfl

end RequestHandler

/-! ## The declared length of the replies -/

namespace StdString

theorem digitChar_ne_cr (k : Nat) (hk : k < 10) : Nat.digitChar k ≠ '\r' := by
  interval_cases k <;> decide

theorem toDigitsCore_no_cr (fuel n : Nat) (ds : List Char) (h : '\r' ∉ ds) :
    '\r' ∉ Nat.toDigitsCore 10 fuel n ds := by
  induction fuel generalizing n ds with
  | zero => simpa [Nat.toDigitsCore] using h
  | succ fuel ih =>
    have hd : '\r' ∉ Nat.digitChar (n % 10) :: ds := by
      simp only [List.mem_cons, not_or]
      exact ⟨(digitChar_ne_cr _ (Nat.mod_lt _ (by decide))).symm, h⟩
    simp only [Nat.toDigitsCore]
    split_ifs
    · exact hd
    · exact ih _ _ hd

theorem toString_no_cr (n : Nat) : '\r' ∉ (toString n).data := by
  show '\r' ∉ (Nat.repr n).data
  unfold Nat.repr Nat.toDigits
  exact toDigitsCore_no_cr _ _ _ (by simp)

theorem find_at_skip (c : Char) (needle a rest : List Char) (i : Nat) (h : c ∉ a) :
    find_at (c :: needle) (a ++ rest) i = find_at (c :: needle) rest (i + a.length) := by
  induction a generalizing i with
  | nil => simp
  | cons x a ih =>
    simp only [List.mem_cons, not_or] at h
    have hsw : starts_with (c :: needle) (x :: (a ++ rest)) = false := by
      simp [starts_with, h.1]
    rw [List.cons_append, find_at_cons_of_not_starts _ _ _ _ hsw, ih _ h.2]
    simp only [List.length_cons]
    congr 1
    omega

theorem find_at_here (needle rest : List Char) (i : Nat) (h : needle ≠ []) :
    find_at needle (needle ++ rest) i = some i := by
  cases needle with
  | nil => exact absurd rfl h
  | cons c needle =>
    have : starts_with (c :: needle) (c :: needle ++ rest) = true :=
      (starts_with_iff _ _).2 ⟨rest, rfl⟩
    simp only [List.cons_append] at this ⊢
    simp [find_at, this]

theorem starts_with_append (needle text rest : List Char)
    (h : starts_with needle text = true) : starts_with needle (text ++ rest) = true := by
  obtain ⟨r, hr⟩ := (starts_with_iff _ _).1 h
  exact (starts_with_iff _ _).2 ⟨r ++ rest, by rw [hr, List.append_assoc]⟩

theorem starts_with_of_append (needle text rest : List Char)
    (h : starts_with needle (text ++ rest) = true) (hl : needle.length ≤ text.length) :
    starts_with needle text = true := by
  induction needle generalizing text with
  | nil => simp [starts_with]
  | cons a needle ih =>
    cases text with
    | nil => simp at hl
    | cons b text =>
      simp only [List.cons_append, starts_with, Bool.and_eq_true, decide_eq_true_eq] at h ⊢
      exact ⟨h.1, ih _ h.2 (by simpa using hl)⟩

theorem find_at_append (needle text rest : List Char) (i j : Nat)
    (h : find_at needle text i = some j) (hl : j + needle.length ≤ i + text.length) :
    find_at needle (text ++ rest) i = some j := by
  induction text generalizing i with
  | nil =>
    simp only [find_at] at h
    split at h
    · rename_i hn
      injection h with h
      subst hn
      cases rest with
      | nil => simp [find_at, h]
      | cons c rest => simp [find_at, starts_with, h]
    · cases h
  | cons c text ih =>
    simp only [find_at] at h
    split at h
    · rename_i hsw
      have := starts_with_append _ _ rest hsw
      simp only [List.cons_append] at this ⊢
      simp only [find_at, this, if_true]
      exact h
    · rename_i hsw
      have hge := find_at_ge h
      simp only [List.length_cons] at hl
      have hsw2 : starts_with needle (c :: (text ++ rest)) = false := by
        cases hx : starts_with needle (c :: (text ++ rest)) with
        | false => rfl
        | true =>
          exact absurd (starts_with_of_append needle (c :: text) rest hx
            (by simp only [List.length_cons]; omega)) hsw
      rw [List.cons_append, find_at_cons_of_not_starts _ _ _ _ hsw2]
      exact ih _ h (by omega)

theorem starts_with_before (needle u rest : List Char) (x : Char) (hx : x ∉ needle)
    (h : starts_with needle (u ++ x :: rest) = true) : starts_with needle u = true := by
  induction needle generalizing u with
  | nil => simp [starts_with]
  | cons a needle ih =>
    simp only [List.mem_cons, not_or] at hx
    cases u with
    | nil =>
      simp only [List.nil_append, starts_with, Bool.and_eq_true, decide_eq_true_eq] at h
      exact absurd h.1.symm hx.1
    | cons b u =>
      simp only [List.cons_append, starts_with, Bool.and_eq_true, decide_eq_true_eq] at h ⊢
      exact ⟨h.1, ih _ hx.2 h.2⟩

theorem find_at_past (needle a rest : List Char) (x : Char) (i : Nat) (hx : x ∉ needle)
    (h : find_at needle (a ++ [x]) i = none) :
    find_at needle (a ++ x :: rest) i = find_at needle rest (i + (a.length + 1)) := by
  induction a generalizing i with
  | nil =>
    simp only [List.nil_append, find_at] at h
    split at h
    · cases h
    · rename_i hsw
      have hsw2 : starts_with needle (x :: rest) = false := by
        cases hy : starts_with needle (x :: rest) with
        | false => rfl
        | true =>
          have := starts_with_before needle [] rest x hx hy
          exact absurd (starts_with_append needle [] [x] this) hsw
      rw [List.nil_append, find_at_cons_of_not_starts _ _ _ _ hsw2]
      rfl
  | cons y a ih =>
    simp only [List.cons_append, find_at] at h
    split at h
    · cases h
    · rename_i hsw
      have hsw2 : starts_with needle (y :: (a ++ x :: rest)) = false := by
        cases hy : starts_with needle (y :: (a ++ x :: rest)) with
        | false => rfl
        | true =>
          have := starts_with_before needle (y :: a) rest x hx hy
          exact absurd (starts_with_append needle (y :: a) [x] this) hsw
      rw [List.cons_append, find_at_cons_of_not_starts _ _ _ _ hsw2, ih _ h]
      simp only [List.length_cons]
      congr 1
      omega

end StdString

namespace RequestHandler

open StdString

/-- A reply made of a head that ends in "Content-Length: ", a number without a carriage
return, two line ends and a body: the declared length is the number and the body is the
body. -/
theorem reply_declares (a digits body : List Char)
    (hcl : find_at "Content-Length: ".data (a ++ [' ']) 0 = some (a.length + 1 - 16))
    (h16 : 16 ≤ a.length + 1)
    (hblank : find_at "\r\n\r\n".data (a ++ [' ']) 0 = none)
    (hd : '\r' ∉ digits) :
    declared_content_length
        (String.mk (a ++ [' '] ++ digits ++ "\r\n".data ++ "\r\n".data ++ body))
      = some (String.mk digits) ∧
    response_body
        (String.mk (a ++ [' '] ++ digits ++ "\r\n".data ++ "\r\n".data ++ body))
      = some (String.mk body) := by
  have hdata : a ++ [' '] ++ digits ++ "\r\n".data ++ "\r\n".data ++ body
      = (a ++ [' ']) ++ (digits ++ ('\r' :: '\n' :: '\r' :: '\n' :: body)) := by
    simp
  have hbody : find_at "\r\n\r\n".data
      ((a ++ [' ']) ++ (digits ++ ('\r' :: '\n' :: '\r' :: '\n' :: body))) 0
      = some (a.length + 1 + digits.length) := by
    have h1 := find_at_past "\r\n\r\n".data a
      (digits ++ ('\r' :: '\n' :: '\r' :: '\n' :: body)) ' ' 0 (by decide) hblank
    have h2 := find_at_skip '\r' ['\n', '\r', '\n'] digits
      ('\r' :: '\n' :: '\r' :: '\n' :: body) (0 + (a.length + 1)) hd
    have h3 := find_at_here ['\r', '\n', '\r', '\n'] body
      (0 + (a.length + 1) + digits.length) (by simp)
    rw [List.append_assoc, List.singleton_append, h1]
    show find_at ('\r' :: ['\n', '\r', '\n']) _ _ = _
    rw [h2]
    show find_at ['\r', '\n', '\r', '\n'] (['\r', '\n', '\r', '\n'] ++ body) _ = _
    rw [h3]
    congr 1
    omega
  rw [hdata]
  have hlen : (a ++ [' ']).length = a.length + 1 := by simp
  generalize a ++ [' '] = t at hcl hblank hlen hbody
  have hline : find_at "\r\n".data (digits ++ ('\r' :: '\n' :: '\r' :: '\n' :: body))
      t.length = some (t.length + digits.length) := by
    have h2 := find_at_skip '\r' ['\n'] digits
      ('\r' :: '\n' :: '\r' :: '\n' :: body) t.length hd
    have h3 := find_at_here ['\r', '\n'] ('\r' :: '\n' :: body)
      (t.length + digits.length) (by simp)
    show find_at ('\r' :: ['\n']) _ _ = _
    rw [h2]
    exact h3
  have hhead := find_at_append "Content-Length: ".data t
    (digits ++ ('\r' :: '\n' :: '\r' :: '\n' :: body)) 0 _ hcl
    (by rw [hlen]; show a.length + 1 - 16 + 16 ≤ _; omega)
  constructor
  · unfold declared_content_length
    have hf1 : find (String.mk (t ++ (digits ++ ('\r' :: '\n' :: '\r' :: '\n' :: body))))
        "Content-Length: " 0 = some (a.length + 1 - 16) := by
      rw [show ("Content-Length: " : String) = String.mk "Content-Length: ".data from rfl,
        find_mk _ _ _ (Nat.zero_le _)]
      exact hhead
    have hpos : a.length + 1 - 16 + 16 = t.length := by omega
    have hf2 : find (String.mk (t ++ (digits ++ ('\r' :: '\n' :: '\r' :: '\n' :: body))))
        "\r\n" t.length = some (t.length + digits.length) := by
      rw [show ("\r\n" : String) = String.mk "\r\n".data from rfl,
        find_mk _ _ _ (by simp), List.drop_left]
      exact hline
    rw [hf1]
    simp only [hpos, hf2, substr, List.drop_left, Nat.add_sub_cancel_left, List.take_left]
  · unfold response_body
    have hf : find (String.mk (t ++ (digits ++ ('\r' :: '\n' :: '\r' :: '\n' :: body))))
        "\r\n\r\n" 0 = some (a.length + 1 + digits.length) := by
      rw [show ("\r\n\r\n" : String) = String.mk "\r\n\r\n".data from rfl,
        find_mk _ _ _ (Nat.zero_le _)]
      exact hbody
    rw [hf]
    simp only [substr]
    congr 2
    have hsplit : t ++ (digits ++ ('\r' :: '\n' :: '\r' :: '\n' :: body))
        = (t ++ digits ++ ['\r', '\n', '\r', '\n']) ++ body := by simp
    rw [hsplit]
    exact List.drop_left' (by simp [hlen]; omega)

end RequestHandler

namespace RequestHandler

open StdString

/-- For every message, the reply of `send_error` declares the length of its body. -/
theorem error_response_declares (message : String) :
    declared_content_length (error_response message) = some (toString message.length) ∧
    response_body (error_response message) = some message := by
  have h := reply_declares
    "HTTP/1.1 500 Internal Server Error\r\nContent-Type: text/plain\r\nContent-Length:".data
    (toString message.length).data message.data (by decide) (by decide) (by decide)
    (toString_no_cr _)
  exact h

/-- For every text of the statistics, the 200 reply of the statistics endpoint declares
the length of its body. -/
theorem stats_response_declares (stats_json : String) :
    declared_content_length (stats_response stats_json)
      = some (toString stats_json.length) ∧
    response_body (stats_response stats_json) = some stats_json := by
  have h := reply_declares
    "HTTP/1.1 200 OK\r\nContent-Type: application/json\r\nContent-Length:".data
    (toString stats_json.length).data stats_json.data (by decide) (by decide) (by decide)
    (toString_no_cr _)
  exact h

end RequestHandler

/-! ## The cache key -/

namespace RequestHandler

open StdString CacheManager

theorem recv_not_mem_connect (net : Network) (host : String) (port : Int) :
    Event.recv_origin ∉ (connect_to_host net host port).1 := by
  unfold connect_to_host
  split_ifs <;> simp

/-- A run of `handle_http_request` that returns true after reading from the origin: the
host is named and not blocked, the lookup missed, the response is not empty and is stored
under the host, and the statistics exist. -/
theorem fetched_run (config : ConfigManager) (cache : CacheManager)
    (stats : Option Statistics) (net : Network) (now : Int) (request client_ip : String)
    (hend : (handle_http_request config cache stats net now request client_ip).ending
      = Ending.returned true)
    (hrecv : Event.recv_origin ∈
      (handle_http_request config cache stats net now request client_ip).events) :
    extract_host request ≠ "" ∧ config.is_blocked (extract_host request) = false ∧
    net.response ≠ "" ∧
    ∃ cache1 cache2 st,
      cache.get (extract_host request) now = some (cache1, none) ∧
      cache1.put (extract_host request) net.response config.cache_ttl net.fetch_time
        = some cache2 ∧
      (handle_http_request config cache stats net now request client_ip).cache = cache2 ∧
      (handle_http_request config cache stats net now request client_ip).stats = some st ∧
      (handle_http_request config cache stats net now request client_ip).events =
        [Event.log_url client_ip ("http://" ++ extract_host request ++ extract_path request)
           (substr request 0 (find request " " 0)),
         Event.dns_lookup (extract_host request),
         Event.connect_origin (extract_host request) 80,
         Event.send_origin ("GET " ++ extract_path request ++ " HTTP/1.0\r\n" ++
           "Host: " ++ extract_host request ++ "\r\n" ++ "Connection: close\r\n" ++ "\r\n"),
         Event.recv_origin, Event.close_origin,
         Event.send_client net.response,
         Event.log_request client_ip (extract_host request) "FETCHED"
           net.response.length] := by
  have hm := recv_not_mem_connect net (extract_host request) 80
  unfold handle_http_request at hend hrecv ⊢
  simp only [] at hend hrecv ⊢
  by_cases hh : extract_host request = ""
  · rw [if_pos hh] at hend
    cases hend
  · simp only [if_neg hh] at hend hrecv ⊢
    cases hb : config.is_blocked (extract_host request) with
    | true =>
      simp only [hb, if_true] at hend
      cases stats <;> cases hend
    | false =>
      simp only [hb, Bool.false_eq_true, if_false] at hend hrecv ⊢
      cases hg : cache.get (extract_host request) now with
      | none =>
        simp only [hg] at hend
        cases hend
      | some r =>
        obtain ⟨cache1, data⟩ := r
        cases data with
        | some cached_data =>
          simp only [hg] at hrecv
          cases stats <;> simp at hrecv
        | none =>
          simp only [hg] at hend hrecv ⊢
          cases hconn : connect_to_host net (extract_host request) 80 with
          | mk cev ok =>
          rw [hconn] at hm
          simp only [hconn] at hend hrecv ⊢
          cases ok with
          | false =>
            simp only [Bool.not_false, if_true] at hend
            cases stats <;> cases hend
          | true =>
            have hcev : cev = [Event.dns_lookup (extract_host request),
                Event.connect_origin (extract_host request) 80] := by
              unfold connect_to_host at hconn
              split_ifs at hconn <;> cases hconn
              rfl
            subst hcev
            simp only [Bool.not_true, Bool.false_eq_true, if_false] at hend hrecv ⊢
            cases hs : net.send_ok with
            | false =>
              simp only [hs, Bool.not_false, if_true] at hend
              cases stats <;> cases hend
            | true =>
              simp only [hs, Bool.not_true, Bool.false_eq_true, if_false] at hend hrecv ⊢
              by_cases hr : net.response = ""
              · simp only [if_pos hr] at hend
                cases stats <;> cases hend
              · simp only [if_neg hr] at hend hrecv ⊢
                refine ⟨hh, trivial, hr, ?_⟩
                cases hp : cache1.put (extract_host request) net.response config.cache_ttl
                  net.fetch_time with
                | none =>
                  simp only [hp] at hend
                  cases hend
                | some cache2 =>
                  simp only [hp] at hend ⊢
                  cases stats with
                  | none => cases hend
                  | some st =>
                    exact ⟨cache1, cache2, _, rfl, hp, rfl, rfl, rfl⟩

end RequestHandler

namespace CacheManager

theorem get_default_ttl {s s1 : CacheManager} {r : Option String} {key : String} {now : Int}
    (hs : cache_inv s) (h : get s key now = some (s1, r)) : s1.default_ttl = s.default_ttl := by
  rw [get_eq hs] at h
  cases hf : map_find s.cache key with
  | none =>
    simp only [hf, Option.some.injEq, Prod.mk.injEq] at h
    rw [← h.1]
  | some it =>
    simp only [hf] at h
    have hd := (drop_key_fields s key)
    split_ifs at h <;>
      (simp only [Option.some.injEq, Prod.mk.injEq] at h; rw [← h.1])
    · simp [hd]
    · simp [push_entry, hd]

end CacheManager

namespace RequestHandler

open StdString CacheManager

/-- The cache is looked up by what `extract_host` reads.  When a request was answered by a
fetch (the run read from the origin and returned true, so that the response R1 was stored),
then every later request from which `extract_host` reads the same host, handled within the
time-to-live of the entry, is answered with exactly R1 and logged CACHED, and the run makes
no call on the resolver or the origin. -/
theorem same_extracted_host_is_served_from_cache (config : ConfigManager)
    (cache : CacheManager)
    (stats : Option Statistics) (net1 net2 : Network) (now1 now2 : Int)
    (request1 request2 ip1 ip2 : String)
    (hinv : cache_inv cache)
    (hend : (handle_http_request config cache stats net1 now1 request1 ip1).ending
      = Ending.returned true)
    (hrecv : Event.recv_origin ∈
      (handle_http_request config cache stats net1 now1 request1 ip1).events)
    (hsame : extract_host request2 = extract_host request1)
    (hfresh : now2 - net1.fetch_time ≤
      (if config.cache_ttl < 0 then cache.default_ttl else config.cache_ttl)) :
    (handle_http_request config
        (handle_http_request config cache stats net1 now1 request1 ip1).cache
        (handle_http_request config cache stats net1 now1 request1 ip1).stats
        net2 now2 request2 ip2).ending = Ending.returned true ∧
    (handle_http_request config
        (handle_http_request config cache stats net1 now1 request1 ip1).cache
        (handle_http_request config cache stats net1 now1 request1 ip1).stats
        net2 now2 request2 ip2).events =
      [Event.log_url ip2 ("http://" ++ extract_host request1 ++ extract_path request2)
         (substr request2 0 (find request2 " " 0)),
       Event.send_client net1.response,
       Event.log_request ip2 (extract_host request1) "CACHED" net1.response.length] := by
  obtain ⟨hhost, hunblocked, _, cache1, cache2, st, hg, hp, hc, hst, _⟩ :=
    fetched_run config cache stats net1 now1 request1 ip1 hend hrecv
  have hinv1 := get_inv hinv hg
  rw [← get_default_ttl hinv hg] at hfresh
  obtain ⟨s1, s2, hput, hget2, _⟩ :=
    put_then_get hinv1 (extract_host request1) net1.response config.cache_ttl
      net1.fetch_time now2 hfresh
  rw [hp] at hput
  injection hput with hput
  subst hput
  rw [hc, hst]
  unfold handle_http_request
  simp only [hsame, hhost, if_false, hunblocked, Bool.false_eq_true, hget2,
    List.singleton_append, List.cons_append, List.nil_append, and_self]

/-- After `GET http://example.test/a` was fetched, `POST /b` for the same host
30 seconds later is answered from the cache with the response to the first request, on a
network on which no origin can be reached. -/
theorem same_extracted_host_scenario :
    extract_path "GET http://example.test/a HTTP/1.1\r\nHost: example.test\r\n\r\n" = "/a" ∧
    extract_path "POST /b HTTP/1.1\r\nHost: example.test\r\n\r\n" = "/b" ∧
    ((handle_http_request scenario_policy
        (handle_http_request scenario_policy (CacheManager.new 10 60) (some Statistics.new)
          sample_network 0 "GET http://example.test/a HTTP/1.1\r\nHost: example.test\r\n\r\n"
          "10.0.0.1").cache
        (handle_http_request scenario_policy (CacheManager.new 10 60) (some Statistics.new)
          sample_network 0 "GET http://example.test/a HTTP/1.1\r\nHost: example.test\r\n\r\n"
          "10.0.0.1").stats
        dead_network 30 "POST /b HTTP/1.1\r\nHost: example.test\r\n\r\n" "10.0.0.2").ending
      = Ending.returned true ∧
    (handle_http_request scenario_policy
        (handle_http_request scenario_policy (CacheManager.new 10 60) (some Statistics.new)
          sample_network 0 "GET http://example.test/a HTTP/1.1\r\nHost: example.test\r\n\r\n"
          "10.0.0.1").cache
        (handle_http_request scenario_policy (CacheManager.new 10 60) (some Statistics.new)
          sample_network 0 "GET http://example.test/a HTTP/1.1\r\nHost: example.test\r\n\r\n"
          "10.0.0.1").stats
        dead_network 30 "POST /b HTTP/1.1\r\nHost: example.test\r\n\r\n" "10.0.0.2").events =
      [Event.log_url "10.0.0.2"
         ("http://" ++
           extract_host "GET http://example.test/a HTTP/1.1\r\nHost: example.test\r\n\r\n" ++
           extract_path "POST /b HTTP/1.1\r\nHost: example.test\r\n\r\n")
         (substr "POST /b HTTP/1.1\r\nHost: example.test\r\n\r\n" 0
           (find "POST /b HTTP/1.1\r\nHost: example.test\r\n\r\n" " " 0)),
       Event.send_client sample_network.response,
       Event.log_request "10.0.0.2"
         (extract_host "GET http://example.test/a HTTP/1.1\r\nHost: example.test\r\n\r\n")
         "CACHED" sample_network.response.length]) :=
  ⟨by decide, by decide,
   same_extracted_host_is_served_from_cache scenario_policy (CacheManager.new 10 60)
     (some Statistics.new) sample_network dead_network 0 30
     "GET http://example.test/a HTTP/1.1\r\nHost: example.test\r\n\r\n"
     "POST /b HTTP/1.1\r\nHost: example.test\r\n\r\n" "10.0.0.1" "10.0.0.2"
     (by decide) (by decide) (by decide) (by decide) (by decide)⟩

end RequestHandler

/-! ## The connection limit -/

namespace ProxyServer

theorem step_inv {s s1 : ProxyServer} {e : LoopEvent} (hs : permits_inv s)
    (h : step s e = some s1) : permits_inv s1 ∧ s1.max_connections = s.max_connections := by
  obtain ⟨v, hv, hlive, hdead⟩ := hs
  unfold step at h
  cases ht : s.terminated with
  | true => simp [ht] at h
  | false =>
    have hsum := hlive ht
    simp only [ht, Bool.false_eq_true, if_false] at h
    cases e with
    | worker_started =>
      simp only [hv] at h
      cases v with
      | zero => simp at h
      | succ v =>
        simp only [Option.some.injEq] at h
        subst h
        refine ⟨⟨v, rfl, ?_, ?_⟩, rfl⟩
        · intro _
          simp only [Nat.cast_add, Nat.cast_one] at hsum ⊢
          omega
        · intro h2
          simp [ht] at h2
    | worker_returned =>
      simp only at h
      split_ifs at h with hw
      simp only [Option.some.injEq] at h
      subst h
      refine ⟨⟨v + 1, by simp [hv], ?_, ?_⟩, rfl⟩
      · intro _
        simp only [Nat.cast_add, Nat.cast_one]
        omega
      · intro h2
        simp [ht] at h2
    | worker_threw =>
      simp only at h
      split_ifs at h with hw
      simp only [Option.some.injEq] at h
      subst h
      refine ⟨⟨v, hv, ?_, ?_⟩, rfl⟩
      · intro h2
        simp at h2
      · intro _
        refine ⟨rfl, ?_⟩
        show (v : Int) ≤ s.max_connections
        omega

theorem run_inv {s s1 : ProxyServer} {events : List LoopEvent} (hs : permits_inv s)
    (h : run s events = some s1) : permits_inv s1 ∧ s1.max_connections = s.max_connections := by
  induction events generalizing s with
  | nil =>
    simp only [run, Option.some.injEq] at h
    subst h
    exact ⟨hs, rfl⟩
  | cons e es ih =>
    simp only [run] at h
    cases hstep : step s e with
    | none => simp [hstep] at h
    | some s2 =>
      simp only [hstep] at h
      obtain ⟨h2, hm2⟩ := step_inv hs hstep
      obtain ⟨h1, hm1⟩ := ih h2 h
      exact ⟨h1, hm1.trans hm2⟩

theorem new_permits_inv (max_conn configured : Int) (sem_open_ok : Bool)
    (hsem : (new max_conn configured sem_open_ok).connection_semaphore ≠ none) :
    permits_inv (new max_conn configured sem_open_ok) := by
  unfold new at hsem ⊢
  simp only at hsem ⊢
  generalize (if max_conn > 0 then max_conn else configured) = m at hsem ⊢
  cases hc : (sem_open_ok && decide (0 ≤ m)) with
  | false => simp [hc] at hsem
  | true =>
    simp only [Bool.and_eq_true, decide_eq_true_eq] at hc
    refine ⟨m.toNat, by simp [hc], ?_, ?_⟩
    · intro _
      simp only [Nat.cast_zero, add_zero]
      exact Int.toNat_of_nonneg hc.2
    · intro h2
      simp at h2

/-- C23, amended: when the named semaphore was created, then after every sequence of steps
of the accept loop and its workers the number of workers is at most `max_connections`, and
as long as the process runs the value of the semaphore and the number of workers add up to
`max_connections`: each worker holds the permit the loop took before starting it, until
`handle_client` returns and the worker gives it back. -/
theorem C23_workers_bounded_when_the_semaphore_exists (max_conn configured : Int)
    (sem_open_ok : Bool) (events : List LoopEvent) (s : ProxyServer)
    (hsem : (new max_conn configured sem_open_ok).connection_semaphore ≠ none)
    (hrun : run (new max_conn configured sem_open_ok) events = some s) :
    s.max_connections = (if max_conn > 0 then max_conn else configured) ∧
    (s.workers : Int) ≤ s.max_connections ∧
    ∃ v, s.connection_semaphore = some v ∧
      (s.terminated = false → (v : Int) + s.workers = s.max_connections) := by
  obtain ⟨⟨v, hv, hlive, hdead⟩, hm⟩ := run_inv (new_permits_inv _ _ _ hsem) hrun
  refine ⟨hm, ?_, v, hv, hlive⟩
  cases ht : s.terminated with
  | false =>
    have := hlive ht
    omega
  | true =>
    obtain ⟨hw, hle⟩ := hdead ht
    rw [hw]
    simp only [Nat.cast_zero]
    omega

/-- The amended C23 at work: with two permits, two workers start, one returns and a third
starts; two workers run and no permit is left, so that a fourth cannot start. -/
theorem C23_witness :
    (new 2 0 true).connection_semaphore ≠ none ∧
    run (new 2 0 true)
      [LoopEvent.worker_started, LoopEvent.worker_started, LoopEvent.worker_returned,
       LoopEvent.worker_started] = some sample_busy ∧
    step sample_busy LoopEvent.worker_started = none ∧
    (sample_busy.max_connections = (if (2 : Int) > 0 then 2 else 0) ∧
     (sample_busy.workers : Int) ≤ sample_busy.max_connections ∧
     ∃ v, sample_busy.connection_semaphore = some v ∧
       (sample_busy.terminated = false →
        (v : Int) + sample_busy.workers = sample_busy.max_connections)) :=
  ⟨by decide, by decide, by decide,
   C23_workers_bounded_when_the_semaphore_exists 2 0 true
     [LoopEvent.worker_started, LoopEvent.worker_started, LoopEvent.worker_returned,
      LoopEvent.worker_started] sample_busy (by decide) (by decide)⟩

/-- C23 fails on the code: when `sem_open` gives `SEM_FAILED` the loop starts a worker for
every accepted client, so with `max_connections = 1` two workers run at once. -/
theorem C23_counterexample :
    (new 1 0 false).max_connections = 1 ∧
    (new 1 0 false).connection_semaphore = none ∧
    run (new 1 0 false) [LoopEvent.worker_started, LoopEvent.worker_started]
      = some { max_connections := 1, connection_semaphore := none, workers := 2,
               terminated := false } := by
  decide

end ProxyServer

/-! ## The hit rate -/

namespace Double

theorem floor_le_round_half_even (y : ℚ) : ⌊y⌋ ≤ round_half_even y := by
  unfold round_half_even
  split_ifs <;> omega

theorem round_half_even_le_floor_succ (y : ℚ) : round_half_even y ≤ ⌊y⌋ + 1 := by
  unfold round_half_even
  split_ifs <;> omega

theorem round_half_even_intCast (n : ℤ) : round_half_even (n : ℚ) = n := by
  unfold round_half_even
  simp

theorem le_round_half_even {n : ℤ} {y : ℚ} (h : (n : ℚ) ≤ y) : n ≤ round_half_even y :=
  le_trans (Int.le_floor.2 h) (floor_le_round_half_even y)

theorem round_half_even_le {n : ℤ} {y : ℚ} (h : y ≤ (n : ℚ)) : round_half_even y ≤ n := by
  rcases h.lt_or_eq with hlt | heq
  · have : ⌊y⌋ < n := Int.floor_lt.2 hlt
    have := round_half_even_le_floor_succ y
    omega
  · rw [heq, round_half_even_intCast]

theorem round_half_even_mono {a b : ℚ} (h : a ≤ b) :
    round_half_even a ≤ round_half_even b := by
  rcases (Int.floor_mono h).lt_or_eq with hlt | heq
  · have h1 := round_half_even_le_floor_succ a
    have h2 := floor_le_round_half_even b
    omega
  · unfold round_half_even
    rw [← heq]
    have hab : a - ⌊a⌋ ≤ b - ⌊a⌋ := by linarith
    split_ifs <;> first | omega | (exfalso; linarith)

theorem abs_round_half_even_sub (y : ℚ) : |(round_half_even y : ℚ) - y| ≤ 1 / 2 := by
  have h0 := Int.floor_le y
  have h1 := Int.lt_floor_add_one y
  unfold round_half_even
  rw [abs_le]
  split_ifs <;> push_cast <;> constructor <;> linarith

end Double

namespace Double

theorem two_zpow_pos (e : ℤ) : (0 : ℚ) < (2 : ℚ) ^ e := zpow_pos (by norm_num) e

/-- The scaled magnitude lies between `2 ^ 52` and `2 ^ 53`. -/
theorem scaled_bounds {x : ℚ} (hx : 0 < x) :
    (2 : ℚ) ^ (52 : ℕ) ≤ x / (2 : ℚ) ^ ulp_exponent x ∧
    x / (2 : ℚ) ^ ulp_exponent x < (2 : ℚ) ^ (53 : ℕ) := by
  have h1 : ((2 : ℕ) : ℚ) ^ Int.log 2 x ≤ x := Int.zpow_log_le_self (by norm_num) hx
  have h2 : x < ((2 : ℕ) : ℚ) ^ (Int.log 2 x + 1) := Int.lt_zpow_succ_log_self (by norm_num) x
  simp only [Nat.cast_ofNat] at h1 h2
  have hp := two_zpow_pos (ulp_exponent x)
  have he : ulp_exponent x = Int.log 2 x - 52 := by
    unfold ulp_exponent
    rw [abs_of_pos hx]
  constructor
  · rw [le_div_iff₀ hp, ← zpow_natCast, ← zpow_add₀ (by norm_num : (2 : ℚ) ≠ 0), he]
    have : ((52 : ℕ) : ℤ) + (Int.log 2 x - 52) = Int.log 2 x := by push_cast; ring
    rw [this]
    exact h1
  · rw [div_lt_iff₀ hp, ← zpow_natCast, ← zpow_add₀ (by norm_num : (2 : ℚ) ≠ 0), he]
    have : ((53 : ℕ) : ℤ) + (Int.log 2 x - 52) = Int.log 2 x + 1 := by push_cast; ring
    rw [this]
    exact h2

/-- The exponent is fixed by the bracket of the magnitude. -/
theorem ulp_exponent_eq {x : ℚ} {e : ℤ} (hx : 0 < x)
    (h1 : (2 : ℚ) ^ (e + 52) ≤ x) (h2 : x < (2 : ℚ) ^ (e + 53)) : ulp_exponent x = e := by
  have hb : (1 : ℕ) < 2 := by norm_num
  have h1n : ((2 : ℕ) : ℚ) ^ (e + 52) ≤ x := by simpa using h1
  have h2n : x < ((2 : ℕ) : ℚ) ^ (e + 53) := by simpa using h2
  have a := (Int.zpow_le_iff_le_log hb hx).1 h1n
  have b := (Int.lt_zpow_iff_log_lt hb hx).1 h2n
  unfold ulp_exponent
  rw [abs_of_pos hx]
  omega

theorem ulp_exponent_mono {x y : ℚ} (hx : 0 < x) (h : x ≤ y) :
    ulp_exponent x ≤ ulp_exponent y := by
  unfold ulp_exponent
  rw [abs_of_pos hx, abs_of_pos (lt_of_lt_of_le hx h)]
  have := Int.log_mono_right (b := 2) hx h
  omega

theorem round_zero : round 0 = 0 := by simp [round]

theorem round_pos_eq {x : ℚ} (hx : 0 < x) :
    round x = (round_half_even (x / (2 : ℚ) ^ ulp_exponent x) : ℚ) * (2 : ℚ) ^ ulp_exponent x := by
  unfold round
  rw [if_neg hx.ne']

/-- A rounded positive number lies in the closed binade of the number. -/
theorem round_bounds {x : ℚ} (hx : 0 < x) :
    (2 : ℚ) ^ (ulp_exponent x + 52) ≤ round x ∧ round x ≤ (2 : ℚ) ^ (ulp_exponent x + 53) := by
  obtain ⟨h1, h2⟩ := scaled_bounds hx
  have hp := two_zpow_pos (ulp_exponent x)
  have hne : (2 : ℚ) ≠ 0 := by norm_num
  have l1 : ((2 ^ 52 : ℤ) : ℚ) ≤ x / (2 : ℚ) ^ ulp_exponent x := by push_cast; exact h1
  have l2 : x / (2 : ℚ) ^ ulp_exponent x ≤ ((2 ^ 53 : ℤ) : ℚ) := by push_cast; exact h2.le
  have r1 := le_round_half_even l1
  have r2 := round_half_even_le l2
  have r1q : (2 : ℚ) ^ (52 : ℕ) ≤ (round_half_even (x / (2 : ℚ) ^ ulp_exponent x) : ℚ) := by
    exact_mod_cast r1
  have r2q : (round_half_even (x / (2 : ℚ) ^ ulp_exponent x) : ℚ) ≤ (2 : ℚ) ^ (53 : ℕ) := by
    exact_mod_cast r2
  rw [round_pos_eq hx]
  constructor
  · rw [add_comm, zpow_add₀ hne]
    exact mul_le_mul_of_nonneg_right (by rw [zpow_ofNat]; exact r1q) hp.le
  · rw [add_comm, zpow_add₀ hne]
    exact mul_le_mul_of_nonneg_right (by rw [zpow_ofNat]; exact r2q) hp.le

theorem round_pos {x : ℚ} (hx : 0 < x) : 0 < round x :=
  lt_of_lt_of_le (two_zpow_pos _) (round_bounds hx).1

theorem round_nonneg {x : ℚ} (hx : 0 ≤ x) : 0 ≤ round x := by
  rcases hx.lt_or_eq with h | h
  · exact (round_pos h).le
  · rw [← h, round_zero]

/-- Rounding keeps the order of non-negative numbers. -/
theorem round_mono {x y : ℚ} (hx : 0 ≤ x) (h : x ≤ y) : round x ≤ round y := by
  rcases hx.lt_or_eq with hpos | h0
  · have hy : 0 < y := lt_of_lt_of_le hpos h
    rcases (ulp_exponent_mono hpos h).lt_or_eq with hlt | heq
    · have b1 := (round_bounds hpos).2
      have b2 := (round_bounds hy).1
      have : (2 : ℚ) ^ (ulp_exponent x + 53) ≤ (2 : ℚ) ^ (ulp_exponent y + 52) :=
        zpow_le_zpow_right₀ (by norm_num) (by omega)
      linarith
    · rw [round_pos_eq hpos, round_pos_eq hy, heq]
      have hp := two_zpow_pos (ulp_exponent y)
      have hdiv : x / (2 : ℚ) ^ ulp_exponent y ≤ y / (2 : ℚ) ^ ulp_exponent y :=
        div_le_div_of_nonneg_right h hp.le
      have := round_half_even_mono hdiv
      exact mul_le_mul_of_nonneg_right (by exact_mod_cast this) hp.le
  · rw [← h0, round_zero]
    exact round_nonneg (h0 ▸ h)

/-- A number with at most 53 significant bits is its own rounding. -/
theorem round_exact (m : ℤ) (e : ℤ) (h1 : 2 ^ 52 ≤ m) (h2 : m < 2 ^ 53) :
    round ((m : ℚ) * (2 : ℚ) ^ e) = (m : ℚ) * (2 : ℚ) ^ e := by
  have hp := two_zpow_pos e
  have hne : (2 : ℚ) ≠ 0 := by norm_num
  have hm : (0 : ℚ) < (m : ℚ) := by
    have : (0 : ℤ) < m := lt_of_lt_of_le (by norm_num) h1
    exact_mod_cast this
  have hx : 0 < (m : ℚ) * (2 : ℚ) ^ e := mul_pos hm hp
  have h1q : (2 : ℚ) ^ (52 : ℕ) ≤ (m : ℚ) := by exact_mod_cast h1
  have h2q : (m : ℚ) < (2 : ℚ) ^ (53 : ℕ) := by exact_mod_cast h2
  have he : ulp_exponent ((m : ℚ) * (2 : ℚ) ^ e) = e := by
    apply ulp_exponent_eq hx
    · rw [add_comm, zpow_add₀ hne]
      exact mul_le_mul_of_nonneg_right (by rw [zpow_ofNat]; exact h1q) hp.le
    · rw [add_comm, zpow_add₀ hne]
      exact mul_lt_mul_of_pos_right (by rw [zpow_ofNat]; exact h2q) hp
  rw [round_pos_eq hx, he, mul_div_assoc, div_self hp.ne', mul_one, round_half_even_intCast]

/-- The result of a rounding whose exponent and whose nearest integer are known. -/
theorem round_eq (x : ℚ) (e m : ℤ) (hx : 0 < x)
    (h1 : (2 : ℚ) ^ (e + 52) ≤ x) (h2 : x < (2 : ℚ) ^ (e + 53))
    (hlo : (m : ℚ) - 1 / 2 < x / (2 : ℚ) ^ e) (hhi : x / (2 : ℚ) ^ e < (m : ℚ) + 1 / 2) :
    round x = (m : ℚ) * (2 : ℚ) ^ e := by
  rw [round_pos_eq hx, ulp_exponent_eq hx h1 h2]
  congr 2
  generalize x / (2 : ℚ) ^ e = y at hlo hhi
  have hf0 := Int.floor_le y
  have hf1 := Int.lt_floor_add_one y
  have hfm : ⌊y⌋ = m ∨ ⌊y⌋ = m - 1 := by
    have a : (m : ℚ) - 1 < (⌊y⌋ : ℚ) + 1 := by linarith
    have b : (⌊y⌋ : ℚ) < (m : ℚ) + 1 / 2 := by linarith
    have a1 : m - 1 < ⌊y⌋ + 1 := by exact_mod_cast a
    have b1 : ⌊y⌋ < m + 1 := by
      have : (⌊y⌋ : ℚ) < ((m + 1 : ℤ) : ℚ) := by push_cast; linarith
      exact_mod_cast this
    omega
  unfold round_half_even
  rcases hfm with hf | hf
  · have hc : (⌊y⌋ : ℚ) = (m : ℚ) := by exact_mod_cast hf
    rw [if_pos (by linarith)]
    exact hf
  · have hc : (⌊y⌋ : ℚ) = (m : ℚ) - 1 := by
      have : (⌊y⌋ : ℚ) = ((m - 1 : ℤ) : ℚ) := by exact_mod_cast hf
      simpa using this
    rw [if_neg (by linarith), if_pos (by linarith)]
    omega

/-- Rounding changes a positive number by at most the fraction `2 ^ (-53)` of it. -/
theorem abs_round_sub_le {x : ℚ} (hx : 0 < x) : |round x - x| ≤ x / 2 ^ 53 := by
  obtain ⟨h1, _⟩ := scaled_bounds hx
  have hp := two_zpow_pos (ulp_exponent x)
  have hr := abs_round_half_even_sub (x / (2 : ℚ) ^ ulp_exponent x)
  have hfac : round x - x
      = ((round_half_even (x / (2 : ℚ) ^ ulp_exponent x) : ℚ) - x / (2 : ℚ) ^ ulp_exponent x)
        * (2 : ℚ) ^ ulp_exponent x := by
    rw [round_pos_eq hx, sub_mul, div_mul_cancel₀ _ hp.ne']
  rw [hfac, abs_mul, abs_of_pos hp]
  have hscale : (2 : ℚ) ^ ulp_exponent x ≤ x / 2 ^ 52 := by
    rw [le_div_iff₀ (by positivity)]
    rw [le_div_iff₀ hp] at h1
    linarith
  calc |(round_half_even (x / (2 : ℚ) ^ ulp_exponent x) : ℚ) - x / (2 : ℚ) ^ ulp_exponent x|
        * (2 : ℚ) ^ ulp_exponent x
      ≤ 1 / 2 * (2 : ℚ) ^ ulp_exponent x := mul_le_mul_of_nonneg_right hr hp.le
    _ ≤ 1 / 2 * (x / 2 ^ 52) := mul_le_mul_of_nonneg_left hscale (by norm_num)
    _ = x / 2 ^ 53 := by ring

end Double

namespace Double

theorem abs_round_sub_le_of_nonneg {x : ℚ} (hx : 0 ≤ x) : |round x - x| ≤ x / 2 ^ 53 := by
  rcases hx.lt_or_eq with h | h
  · exact abs_round_sub_le h
  · rw [← h, round_zero]
    norm_num

theorem round_one : round 1 = 1 := by
  have h := round_exact (2 ^ 52) (-52) (by norm_num) (by norm_num)
  have e : (((2 ^ 52 : ℤ) : ℚ)) * (2 : ℚ) ^ (-52 : ℤ) = 1 := by
    rw [zpow_neg, zpow_ofNat]
    norm_num
  rwa [e] at h

theorem round_hundred : round 100 = 100 := by
  have h := round_exact (25 * 2 ^ 48) (-46) (by norm_num) (by norm_num)
  have e : (((25 * 2 ^ 48 : ℤ) : ℚ)) * (2 : ℚ) ^ (-46 : ℤ) = 100 := by
    rw [zpow_neg, zpow_ofNat]
    norm_num
  rwa [e] at h

/-- The rounded quotient of the rounded counters, compared with the exact quotient. -/
theorem quotient_error {h t : ℚ} (hh : 0 ≤ h) (ht : 1 ≤ t) (hle : h ≤ t) :
    0 ≤ round (round h / round t) ∧ round (round h / round t) ≤ 1 ∧
    |round (round h / round t) - h / t| ≤ 4 / 2 ^ 53 := by
  have ht0 : 0 < t := by linarith
  have ha := abs_le.1 (abs_round_sub_le_of_nonneg hh)
  have hb := abs_le.1 (abs_round_sub_le_of_nonneg ht0.le)
  have hb1 : 1 ≤ round t := by
    have := round_mono (by norm_num : (0 : ℚ) ≤ 1) ht
    rwa [round_one] at this
  have hb0 : 0 < round t := by linarith
  have hab : round h ≤ round t := round_mono hh hle
  have ha0 : 0 ≤ round h := round_nonneg hh
  have hq0 : 0 ≤ round h / round t := div_nonneg ha0 hb0.le
  have hq1 : round h / round t ≤ 1 := (div_le_one hb0).2 hab
  have hp0 : 0 ≤ h / t := div_nonneg hh ht0.le
  have hp1 : h / t ≤ 1 := (div_le_one ht0).2 hle
  have hpt : h / t * t = h := div_mul_cancel₀ h ht0.ne'
  -- the exact quotient of the rounded counters
  have hup : round h / round t ≤ h / t + 3 / 2 ^ 53 := by
    rw [div_le_iff₀ hb0]
    have hbl : t * (1 - 1 / 2 ^ 53) ≤ round t := by linarith [hb.1]
    have hau : round h ≤ h / t * t * (1 + 1 / 2 ^ 53) := by rw [hpt]; linarith [ha.2]
    have hstep : h / t * t * (1 + 1 / 2 ^ 53) ≤ (h / t + 3 / 2 ^ 53) * (t * (1 - 1 / 2 ^ 53)) := by
      have key : h / t * (1 + 1 / 2 ^ 53) ≤ (h / t + 3 / 2 ^ 53) * (1 - 1 / 2 ^ 53) := by
        nlinarith [hp0, hp1]
      calc h / t * t * (1 + 1 / 2 ^ 53) = (h / t * (1 + 1 / 2 ^ 53)) * t := by ring
        _ ≤ ((h / t + 3 / 2 ^ 53) * (1 - 1 / 2 ^ 53)) * t :=
            mul_le_mul_of_nonneg_right key ht0.le
        _ = (h / t + 3 / 2 ^ 53) * (t * (1 - 1 / 2 ^ 53)) := by ring
    have hmul : (h / t + 3 / 2 ^ 53) * (t * (1 - 1 / 2 ^ 53))
        ≤ (h / t + 3 / 2 ^ 53) * round t :=
      mul_le_mul_of_nonneg_left hbl (by positivity)
    linarith
  have hlo : h / t - 3 / 2 ^ 53 ≤ round h / round t := by
    rw [le_div_iff₀ hb0]
    have hbu : round t ≤ t * (1 + 1 / 2 ^ 53) := by linarith [hb.2]
    have hal : h / t * t * (1 - 1 / 2 ^ 53) ≤ round h := by rw [hpt]; linarith [ha.1]
    by_cases hneg : h / t - 3 / 2 ^ 53 ≤ 0
    · have : (h / t - 3 / 2 ^ 53) * round t ≤ 0 :=
        mul_nonpos_of_nonpos_of_nonneg hneg hb0.le
      linarith
    · push_neg at hneg
      have hmul : (h / t - 3 / 2 ^ 53) * round t
          ≤ (h / t - 3 / 2 ^ 53) * (t * (1 + 1 / 2 ^ 53)) :=
        mul_le_mul_of_nonneg_left hbu hneg.le
      have key : (h / t - 3 / 2 ^ 53) * (1 + 1 / 2 ^ 53) ≤ h / t * (1 - 1 / 2 ^ 53) := by
        nlinarith [hp0, hp1]
      have hstep : (h / t - 3 / 2 ^ 53) * (t * (1 + 1 / 2 ^ 53))
          ≤ h / t * t * (1 - 1 / 2 ^ 53) := by
        calc (h / t - 3 / 2 ^ 53) * (t * (1 + 1 / 2 ^ 53))
            = ((h / t - 3 / 2 ^ 53) * (1 + 1 / 2 ^ 53)) * t := by ring
          _ ≤ (h / t * (1 - 1 / 2 ^ 53)) * t := mul_le_mul_of_nonneg_right key ht0.le
          _ = h / t * t * (1 - 1 / 2 ^ 53) := by ring
      linarith
  have hq := abs_le.1 (abs_round_sub_le_of_nonneg hq0)
  refine ⟨round_nonneg hq0, ?_, ?_⟩
  · have := round_mono hq0 hq1
    rwa [round_one] at this
  · have hsmall : round h / round t / 2 ^ 53 ≤ 1 / 2 ^ 53 :=
      div_le_div_of_nonneg_right hq1 (by positivity)
    rw [abs_le]
    constructor <;> linarith [hq.1, hq.2]

end Double

namespace CacheManager

/-- C11, amended: for all hit and miss counts whose sum is below `2 ^ 64`, `get_hit_rate`
is 0 when there was no lookup and otherwise the percentage `hits / (hits + misses) * 100`
as `double` arithmetic delivers it: the result lies between 0 and 100, is exactly 0 without
a hit and exactly 100 without a miss, and differs from the exact percentage by at most
`10 ^ (-13)`. -/
theorem C11_hit_rate_is_a_rounded_percentage (s : CacheManager)
    (hsum : s.cache_hits + s.cache_misses < 2 ^ 64) :
    (s.cache_hits + s.cache_misses = 0 → get_hit_rate s = 0) ∧
    (s.cache_hits = 0 → get_hit_rate s = 0) ∧
    (s.cache_misses = 0 → 0 < s.cache_hits → get_hit_rate s = 100) ∧
    0 ≤ get_hit_rate s ∧ get_hit_rate s ≤ 100 ∧
    (0 < s.cache_hits + s.cache_misses →
      |get_hit_rate s - (s.cache_hits : ℚ) / ((s.cache_hits : ℚ) + (s.cache_misses : ℚ)) * 100|
        ≤ 1 / 10 ^ 13) := by
  unfold get_hit_rate
  simp only [Nat.mod_eq_of_lt hsum]
  by_cases h0 : s.cache_hits + s.cache_misses = 0
  · have hh : s.cache_hits = 0 := by omega
    have hm : s.cache_misses = 0 := by omega
    simp [hh, hm]
  · rw [if_neg h0]
    have hh : (0 : ℚ) ≤ (s.cache_hits : ℚ) := Nat.cast_nonneg _
    have ht : (1 : ℚ) ≤ ((s.cache_hits + s.cache_misses : ℕ) : ℚ) := by
      exact_mod_cast Nat.one_le_iff_ne_zero.2 h0
    have hle : (s.cache_hits : ℚ) ≤ ((s.cache_hits + s.cache_misses : ℕ) : ℚ) := by
      exact_mod_cast Nat.le_add_right _ _
    obtain ⟨q0, q1, qe⟩ := Double.quotient_error hh ht hle
    have hcast : ((s.cache_hits + s.cache_misses : ℕ) : ℚ)
        = (s.cache_hits : ℚ) + (s.cache_misses : ℚ) := by push_cast; rfl
    have hzero : s.cache_hits = 0 →
        Double.round (Double.round (Double.round (s.cache_hits : ℚ) /
          Double.round ((s.cache_hits + s.cache_misses : ℕ) : ℚ)) * 100) = 0 := by
      intro hz
      simp [hz, Double.round_zero]
    have hfull : s.cache_misses = 0 → 0 < s.cache_hits →
        Double.round (Double.round (Double.round (s.cache_hits : ℚ) /
          Double.round ((s.cache_hits + s.cache_misses : ℕ) : ℚ)) * 100) = 100 := by
      intro hm hpos
      have hp : (0 : ℚ) < (s.cache_hits : ℚ) := by exact_mod_cast hpos
      rw [hm, Nat.add_zero, div_self (Double.round_pos hp).ne', Double.round_one, one_mul,
        Double.round_hundred]
    generalize Double.round (Double.round (s.cache_hits : ℚ) /
      Double.round ((s.cache_hits + s.cache_misses : ℕ) : ℚ)) = q at q0 q1 qe hzero hfull
    have hx0 : 0 ≤ q * 100 := by linarith
    have hx1 : q * 100 ≤ 100 := by linarith
    have hr := abs_le.1 (Double.abs_round_sub_le_of_nonneg hx0)
    have hr1 : Double.round (q * 100) ≤ 100 := by
      have := Double.round_mono hx0 hx1
      rwa [Double.round_hundred] at this
    refine ⟨fun h => absurd h h0, ?_, ?_, Double.round_nonneg hx0, hr1, ?_⟩
    · exact hzero
    · exact hfull
    · intro _
      rw [← hcast]
      have qe' := abs_le.1 qe
      have hsmall : q * 100 / 2 ^ 53 ≤ 100 / 2 ^ 53 :=
        div_le_div_of_nonneg_right hx1 (by positivity)
      rw [abs_le]
      constructor
      · have : (-(1 : ℚ) / 10 ^ 13) ≤ -(500 / 2 ^ 53) := by norm_num
        linarith [hr.1, qe'.1]
      · have : (500 : ℚ) / 2 ^ 53 ≤ 1 / 10 ^ 13 := by norm_num
        linarith [hr.2, qe'.2]

end CacheManager

namespace Double

theorem round_of_eq (x : ℚ) (m e : ℤ) (h1 : 2 ^ 52 ≤ m) (h2 : m < 2 ^ 53)
    (hx : x = (m : ℚ) * (2 : ℚ) ^ e) : round x = x := by
  rw [hx]
  exact round_exact m e h1 h2

end Double

namespace CacheManager

/-- C11, as stated, fails: with one hit and one miss `get_hit_rate` is 50, a percentage,
where the claim says 1/2 and a result between 0 and 1. -/
theorem C11_counterexample :
    sample_after_get_b.cache_hits = 1 ∧ sample_after_get_b.cache_misses = 1 ∧
    get_hit_rate sample_after_get_b = 50 ∧
    get_hit_rate sample_after_get_b ≠ 1 / (1 + 1) ∧
    ¬ get_hit_rate sample_after_get_b ≤ 1 := by
  have h1 : Double.round 1 = 1 := Double.round_one
  have h2 : Double.round 2 = 2 :=
    Double.round_of_eq 2 (2 ^ 52) (-51) (by norm_num) (by norm_num)
      (by rw [zpow_neg, zpow_ofNat]; norm_num)
  have h3 : Double.round (1 / 2) = 1 / 2 :=
    Double.round_of_eq (1 / 2) (2 ^ 52) (-53) (by norm_num) (by norm_num)
      (by rw [zpow_neg, zpow_ofNat]; norm_num)
  have h4 : Double.round 50 = 50 :=
    Double.round_of_eq 50 (25 * 2 ^ 48) (-47) (by norm_num) (by norm_num)
      (by rw [zpow_neg, zpow_ofNat]; norm_num)
  have hv : get_hit_rate sample_after_get_b = 50 := by
    have hh : sample_after_get_b.cache_hits = 1 := rfl
    have hm : sample_after_get_b.cache_misses = 1 := rfl
    unfold get_hit_rate
    rw [hh, hm]
    norm_num [h1, h2, h3, h4]
  refine ⟨rfl, rfl, hv, ?_, ?_⟩ <;> rw [hv] <;> norm_num

/-- One hit and two misses give the `double` next to 33.333333333333329, not 100/3. -/
theorem hit_rate_one_in_three :
    get_hit_rate sample_one_in_three = 2345624805922133 / 70368744177664 := by
  have h1 : Double.round 1 = 1 := Double.round_one
  have h3 : Double.round 3 = 3 :=
    Double.round_of_eq 3 (3 * 2 ^ 51) (-51) (by norm_num) (by norm_num)
      (by rw [zpow_neg, zpow_ofNat]; norm_num)
  have hq : Double.round (1 / 3) = 6004799503160661 / 18014398509481984 := by
    have := Double.round_eq (1 / 3) (-54) 6004799503160661 (by norm_num)
      (by rw [show (-54 : ℤ) + 52 = -2 by norm_num, zpow_neg, zpow_ofNat]; norm_num)
      (by rw [show (-54 : ℤ) + 53 = -1 by norm_num, zpow_neg, zpow_ofNat]; norm_num)
      (by rw [zpow_neg, zpow_ofNat]; norm_num)
      (by rw [zpow_neg, zpow_ofNat]; norm_num)
    rw [this, zpow_neg, zpow_ofNat]
    norm_num
  have hr : Double.round (6004799503160661 / 18014398509481984 * 100)
      = 2345624805922133 / 70368744177664 := by
    have := Double.round_eq (6004799503160661 / 18014398509481984 * 100) (-47)
      4691249611844266 (by norm_num)
      (by rw [show (-47 : ℤ) + 52 = 5 by norm_num, zpow_ofNat]; norm_num)
      (by rw [show (-47 : ℤ) + 53 = 6 by norm_num, zpow_ofNat]; norm_num)
      (by rw [zpow_neg, zpow_ofNat]; norm_num)
      (by rw [zpow_neg, zpow_ofNat]; norm_num)
    rw [this, zpow_neg, zpow_ofNat]
    norm_num
  have hr2 : Double.round (150119987579016525 / 4503599627370496)
      = 2345624805922133 / 70368744177664 := by
    have h := hr
    norm_num at h
    exact h
  have hh : sample_one_in_three.cache_hits = 1 := rfl
  have hm : sample_one_in_three.cache_misses = 2 := rfl
  unfold get_hit_rate
  rw [hh, hm]
  norm_num [h1, h3, hq, hr2]

/-- When the sum of the counters wraps to 0 the result is 0. -/
theorem hit_rate_of_wrapped_sum :
    sample_wrapped.cache_hits + sample_wrapped.cache_misses = 2 ^ 64 ∧
    get_hit_rate sample_wrapped = 0 := by
  constructor
  · decide
  · have hh : sample_wrapped.cache_hits = 2 ^ 64 - 1 := rfl
    have hm : sample_wrapped.cache_misses = 1 := rfl
    unfold get_hit_rate
    rw [hh, hm]
    norm_num

/-- The amended C11 at work: one hit and two misses. -/
theorem C11_witness :
    sample_one_in_three.cache_hits + sample_one_in_three.cache_misses < 2 ^ 64 ∧
    get_hit_rate sample_one_in_three = 2345624805922133 / 70368744177664 ∧
    get_hit_rate sample_one_in_three ≠ 100 / 3 ∧
    ((sample_one_in_three.cache_hits + sample_one_in_three.cache_misses = 0 →
        get_hit_rate sample_one_in_three = 0) ∧
     (sample_one_in_three.cache_hits = 0 → get_hit_rate sample_one_in_three = 0) ∧
     (sample_one_in_three.cache_misses = 0 → 0 < sample_one_in_three.cache_hits →
        get_hit_rate sample_one_in_three = 100) ∧
     0 ≤ get_hit_rate sample_one_in_three ∧ get_hit_rate sample_one_in_three ≤ 100 ∧
     (0 < sample_one_in_three.cache_hits + sample_one_in_three.cache_misses →
       |get_hit_rate sample_one_in_three -
          (sample_one_in_three.cache_hits : ℚ) /
            ((sample_one_in_three.cache_hits : ℚ) + (sample_one_in_three.cache_misses : ℚ))
            * 100| ≤ 1 / 10 ^ 13)) :=
  ⟨by decide, hit_rate_one_in_three, by rw [hit_rate_one_in_three]; norm_num,
   C11_hit_rate_is_a_rounded_percentage sample_one_in_three (by decide)⟩

end CacheManager

/-! ## The host a request names -/

namespace StdString

theorem find_at_over (needle a rest : List Char) (x : Char) (i : Nat) (hx : x ∉ needle)
    (hn : needle ≠ []) (h : find_at needle a i = none) :
    find_at needle (a ++ x :: rest) i = find_at needle rest (i + (a.length + 1)) := by
  induction a generalizing i with
  | nil =>
    have hsw : starts_with needle (x :: rest) = false := by
      cases needle with
      | nil => exact absurd rfl hn
      | cons c needle =>
        simp only [List.mem_cons, not_or] at hx
        simp [starts_with, Ne.symm hx.1]
    rw [List.nil_append, find_at_cons_of_not_starts _ _ _ _ hsw]
    rfl
  | cons y a ih =>
    simp only [find_at] at h
    split at h
    · cases h
    · rename_i hsw
      have hsw2 : starts_with needle (y :: (a ++ x :: rest)) = false := by
        cases hy : starts_with needle (y :: (a ++ x :: rest)) with
        | false => rfl
        | true => exact absurd (starts_with_before needle (y :: a) rest x hx hy) hsw
      rw [List.cons_append, find_at_cons_of_not_starts _ _ _ _ hsw2, ih _ h]
      simp only [List.length_cons]
      congr 1
      omega

theorem takeWhile_spaces (n : Nat) (l : List Char) (h : l.head? ≠ some ' ') :
    ((List.replicate n ' ' ++ l).takeWhile (fun c => decide (c = ' '))).length = n := by
  induction n with
  | zero =>
    cases l with
    | nil => rfl
    | cons c l =>
      have hc : c ≠ ' ' := fun e => h (by rw [e]; rfl)
      simp [List.takeWhile, hc]
  | succ n ih =>
    rw [List.replicate_succ, List.cons_append, List.takeWhile_cons_of_pos (by simp),
      List.length_cons, ih]

end StdString

namespace RequestHandler

open StdString CacheManager

/-- What `extract_host` reads from a request whose first `Host:` is the header line
`Host: ` followed by further spaces and the host. -/
theorem extract_host_of_chars (line host rest : List Char) (n : Nat)
    (hline : find_at "Host:".data line 0 = none)
    (hfirst : (host ++ '\r' :: '\n' :: rest).head? ≠ some ' ')
    (hcrlf : ¬ ∃ u v, host = u ++ ['\r', '\n'] ++ v) :
    extract_host (String.mk (line ++ '\r' :: '\n' :: ("Host: ".data ++
      (List.replicate n ' ' ++ (host ++ '\r' :: '\n' :: rest))))) = String.mk host := by
  have hfind : find (String.mk (line ++ '\r' :: '\n' :: ("Host: ".data ++
      (List.replicate n ' ' ++ (host ++ '\r' :: '\n' :: rest))))) "Host:" 0
      = some (line.length + 2) := by
    rw [show ("Host:" : String) = String.mk "Host:".data from rfl,
      find_mk _ _ _ (Nat.zero_le _), List.drop_zero,
      find_at_over _ _ _ _ _ (by decide) (by decide) hline]
    have hsw : starts_with "Host:".data ('\n' :: ("Host: ".data ++
        (List.replicate n ' ' ++ (host ++ '\r' :: '\n' :: rest)))) = false := by
      simp [starts_with]
    rw [find_at_cons_of_not_starts _ _ _ _ hsw]
    have := find_at_here "Host:".data (' ' :: (List.replicate n ' ' ++
      (host ++ '\r' :: '\n' :: rest))) (0 + (line.length + 1) + 1) (by decide)
    rw [show "Host: ".data ++ (List.replicate n ' ' ++ (host ++ '\r' :: '\n' :: rest))
      = "Host:".data ++ ' ' :: (List.replicate n ' ' ++ (host ++ '\r' :: '\n' :: rest))
      from rfl, this]
    congr 1
    omega
  have hsplit : line ++ '\r' :: '\n' :: ("Host: ".data ++
      (List.replicate n ' ' ++ (host ++ '\r' :: '\n' :: rest)))
      = (line ++ '\r' :: '\n' :: "Host: ".data) ++
        (List.replicate n ' ' ++ (host ++ '\r' :: '\n' :: rest)) := by simp
  have hlen : (line ++ '\r' :: '\n' :: "Host: ".data).length = line.length + 2 + 6 := by
    simp
  have hsplit2 : line ++ '\r' :: '\n' :: ("Host: ".data ++
      (List.replicate n ' ' ++ (host ++ '\r' :: '\n' :: rest)))
      = (line ++ '\r' :: '\n' :: "Host: ".data ++ List.replicate n ' ') ++
        (host ++ '\r' :: '\n' :: rest) := by simp
  have hlen2 : (line ++ '\r' :: '\n' :: "Host: ".data ++ List.replicate n ' ').length
      = line.length + 2 + 6 + n := by
    simp
    omega
  unfold extract_host
  rw [hfind]
  simp only []
  have hdrop : (line ++ '\r' :: '\n' :: ("Host: ".data ++
      (List.replicate n ' ' ++ (host ++ '\r' :: '\n' :: rest)))).drop (line.length + 2 + 6)
      = List.replicate n ' ' ++ (host ++ '\r' :: '\n' :: rest) := by
    rw [hsplit]
    exact List.drop_left' hlen
  rw [hdrop, takeWhile_spaces n _ hfirst]
  have hfind2 : find (String.mk (line ++ '\r' :: '\n' :: ("Host: ".data ++
      (List.replicate n ' ' ++ (host ++ '\r' :: '\n' :: rest))))) "\r\n"
      (line.length + 2 + 6 + n) = some (line.length + 2 + 6 + n + host.length) := by
    rw [show ("\r\n" : String) = String.mk "\r\n".data from rfl,
      find_mk _ _ _ (by rw [hsplit2, List.length_append, hlen2]; omega)]
    rw [hsplit2, List.drop_left' hlen2]
    exact find_crlf_skip host rest _ hcrlf
  rw [hfind2]
  simp only [substr, Nat.add_sub_cancel_left]
  rw [hsplit2, List.drop_left' hlen2, List.take_left]

/-- What `extract_host` reads from a request whose header line `Host: host` follows a
request line that does not hold the text `Host:`: the host, for any number of further
spaces in front of it. -/
theorem extract_host_of_header (line host rest : String) (n : Nat)
    (hline : ¬ ∃ u v, line.data = u ++ "Host:".data ++ v)
    (hfirst : host.data.head? ≠ some ' ')
    (hcrlf : ¬ ∃ u v, host.data = u ++ "\r\n".data ++ v) :
    extract_host (request_with_host line host rest n) = host := by
  have hf : (host.data ++ '\r' :: '\n' :: rest.data).head? ≠ some ' ' := by
    cases hd : host.data with
    | nil => simp
    | cons c l =>
      rw [hd] at hfirst
      simpa using hfirst
  have h := extract_host_of_chars line.data host.data rest.data n
    ((find_at_none_iff _ _ _).2 hline) hf hcrlf
  have e : request_with_host line host rest n
      = String.mk (line.data ++ '\r' :: '\n' :: ("Host: ".data ++
        (List.replicate n ' ' ++ (host.data ++ '\r' :: '\n' :: rest.data)))) := by
    unfold request_with_host
    apply String.ext
    simp [String.data_append]
  rw [e, h]

/-- Fetch, then hit, for the host a request names in its `Host` header line (written with
a space after the colon, after a request line without the text `Host:`): the response is
sent, logged FETCHED and stored under that host, with one request and no cached request
counted; the second identical request within the time-to-live gets the same bytes without
a call on the resolver or the origin, logged CACHED, with two requests and one cached
request counted and the bytes of the response counted each time. -/
theorem fetch_then_cached_for_host (config : ConfigManager) (cache : CacheManager)
    (st : Statistics) (net1 net2 : Network) (now1 now2 : Int)
    (line host rest client_ip : String) (n : Nat)
    (hline : ¬ ∃ u v, line.data = u ++ "Host:".data ++ v)
    (hfirst : host.data.head? ≠ some ' ')
    (hcrlf : ¬ ∃ u v, host.data = u ++ "\r\n".data ++ v)
    (hhost : host ≠ "")
    (hunblocked : config.is_blocked host = false)
    (hinv : cache_inv cache) (hempty : cache.cache = []) (hmax : 1 ≤ cache.max_entries)
    (hnet : net1.dns_ok = true ∧ net1.socket_ok = true ∧ net1.connect_ok = true ∧
      net1.send_ok = true)
    (hresp : net1.response ≠ "")
    (hfresh : now2 - net1.fetch_time ≤
      (if config.cache_ttl < 0 then cache.default_ttl else config.cache_ttl)) :
    ∃ run1 run2 st1 st2,
      handle_http_request config cache (some st) net1 now1
        (request_with_host line host rest n) client_ip = run1 ∧
      handle_http_request config run1.cache run1.stats net2 now2
        (request_with_host line host rest n) client_ip = run2 ∧
      run1.ending = Ending.returned true ∧
      Event.send_client net1.response ∈ run1.events ∧
      log_requests run1.events
        = [Event.log_request client_ip host "FETCHED" net1.response.length] ∧
      (∃ it, map_find run1.cache.cache host = some it ∧ it.1.data = net1.response) ∧
      run1.stats = some st1 ∧
      st1.total_requests = st.total_requests + 1 ∧ st1.total_cached = st.total_cached ∧
      st1.total_bytes_sent = st.total_bytes_sent + net1.response.length ∧
      run2.ending = Ending.returned true ∧
      run2.events =
        [Event.log_url client_ip
           ("http://" ++ host ++ extract_path (request_with_host line host rest n))
           (substr (request_with_host line host rest n) 0
             (find (request_with_host line host rest n) " " 0)),
         Event.send_client net1.response,
         Event.log_request client_ip host "CACHED" net1.response.length] ∧
      run2.stats = some st2 ∧
      st2.total_requests = st.total_requests + 2 ∧
      st2.total_cached = st.total_cached + 1 ∧
      st2.total_bytes_sent = st.total_bytes_sent + 2 * net1.response.length := by
  have he := extract_host_of_header line host rest n hline hfirst hcrlf
  obtain ⟨run1, run2, st1, st2, h1, h2, e1, ev1, hf, hs1, c1, c2, c3, e2, ev2, hs2, d1, d2,
    d3⟩ := fetch_then_cached config cache st net1 net2 now1 now2
      (request_with_host line host rest n) client_ip (by rw [he]; exact hhost)
      (by rw [he]; exact hunblocked) hinv hempty hmax hnet hresp hfresh
  rw [he] at ev1 hf ev2
  refine ⟨run1, run2, st1, st2, h1, h2, e1, ?_, ?_, hf, hs1, c1, c2, c3, e2, ev2, hs2, d1,
    d2, d3⟩
  · rw [ev1]
    simp
  · rw [ev1]
    simp [log_requests]

/-- The cache is looked up by the host of the `Host` header line, whatever the request
line: when a request for `host` was answered by a fetch, a later request with another
request line and the same host (both written with a space after the colon, after request
lines without the text `Host:`), handled within the time-to-live, is answered with the
stored response and logged CACHED, without a call on the resolver or the origin. -/
theorem same_host_is_served_from_cache (config : ConfigManager) (cache : CacheManager)
    (stats : Option Statistics) (net1 net2 : Network) (now1 now2 : Int)
    (line1 line2 host rest1 rest2 ip1 ip2 : String) (n1 n2 : Nat)
    (hline1 : ¬ ∃ u v, line1.data = u ++ "Host:".data ++ v)
    (hline2 : ¬ ∃ u v, line2.data = u ++ "Host:".data ++ v)
    (hfirst : host.data.head? ≠ some ' ')
    (hcrlf : ¬ ∃ u v, host.data = u ++ "\r\n".data ++ v)
    (hinv : cache_inv cache)
    (hend : (handle_http_request config cache stats net1 now1
      (request_with_host line1 host rest1 n1) ip1).ending = Ending.returned true)
    (hrecv : Event.recv_origin ∈ (handle_http_request config cache stats net1 now1
      (request_with_host line1 host rest1 n1) ip1).events)
    (hfresh : now2 - net1.fetch_time ≤
      (if config.cache_ttl < 0 then cache.default_ttl else config.cache_ttl)) :
    (handle_http_request config
        (handle_http_request config cache stats net1 now1
          (request_with_host line1 host rest1 n1) ip1).cache
        (handle_http_request config cache stats net1 now1
          (request_with_host line1 host rest1 n1) ip1).stats
        net2 now2 (request_with_host line2 host rest2 n2) ip2).ending
      = Ending.returned true ∧
    (handle_http_request config
        (handle_http_request config cache stats net1 now1
          (request_with_host line1 host rest1 n1) ip1).cache
        (handle_http_request config cache stats net1 now1
          (request_with_host line1 host rest1 n1) ip1).stats
        net2 now2 (request_with_host line2 host rest2 n2) ip2).events =
      [Event.log_url ip2
         ("http://" ++ host ++ extract_path (request_with_host line2 host rest2 n2))
         (substr (request_with_host line2 host rest2 n2) 0
           (find (request_with_host line2 host rest2 n2) " " 0)),
       Event.send_client net1.response,
       Event.log_request ip2 host "CACHED" net1.response.length] := by
  have he1 := extract_host_of_header line1 host rest1 n1 hline1 hfirst hcrlf
  have he2 := extract_host_of_header line2 host rest2 n2 hline2 hfirst hcrlf
  have h := same_extracted_host_is_served_from_cache config cache stats net1 net2 now1 now2
    (request_with_host line1 host rest1 n1) (request_with_host line2 host rest2 n2) ip1 ip2
    hinv hend hrecv (by rw [he1, he2]) hfresh
  rw [he1] at h
  exact h

end RequestHandler

namespace RequestHandler

open StdString CacheManager

/-- Scenario S1 is an instance: its request names `example.test` in the way
`fetch_then_cached_for_host` asks for. -/
theorem scenario_request_names_its_host :
    request_with_host "GET http://example.test/ HTTP/1.1" "example.test" "\r\n" 0
      = scenario_request ∧
    (¬ ∃ u v, "GET http://example.test/ HTTP/1.1".data = u ++ "Host:".data ++ v) ∧
    "example.test".data.head? ≠ some ' ' ∧
    (¬ ∃ u v, "example.test".data = u ++ "\r\n".data ++ v) ∧
    extract_host scenario_request = "example.test" := by
  have h1 : ¬ ∃ u v, "GET http://example.test/ HTTP/1.1".data = u ++ "Host:".data ++ v :=
    (find_at_none_iff _ _ 0).1 (by decide)
  have h2 : ¬ ∃ u v, "example.test".data = u ++ "\r\n".data ++ v :=
    (find_at_none_iff _ _ 0).1 (by decide)
  refine ⟨by decide, h1, by decide, h2, ?_⟩
  have := extract_host_of_header "GET http://example.test/ HTTP/1.1" "example.test" "\r\n" 0
    h1 (by decide) h2
  rwa [show request_with_host "GET http://example.test/ HTTP/1.1" "example.test" "\r\n" 0
    = scenario_request from by decide] at this

/-- C20 fails on the code for a request that names its host without a space after the
colon.  The request of scenario S1 written with `Host:example.test` is fetched for the host
`xample.test`: the resolver is asked for that name, the response is logged and stored under
it, and nothing is stored under `example.test`.  The same happens when the text `Host:`
stands in the request line: for the host `myHost:8080`, written as in scenario S1, the
handler reads the host `080/ HTTP/1.1`. -/
theorem C20_host_without_space_is_fetched_and_stored_under_another_host :
    extract_host "GET http://example.test/ HTTP/1.1\r\nHost:example.test\r\n\r\n"
      = "xample.test" ∧
    (handle_http_request scenario_policy (CacheManager.new 10 60) (some Statistics.new)
        sample_network 0 "GET http://example.test/ HTTP/1.1\r\nHost:example.test\r\n\r\n"
        "10.0.0.1").ending = Ending.returned true ∧
    (handle_http_request scenario_policy (CacheManager.new 10 60) (some Statistics.new)
        sample_network 0 "GET http://example.test/ HTTP/1.1\r\nHost:example.test\r\n\r\n"
        "10.0.0.1").events =
      [Event.log_url "10.0.0.1" "http://xample.test/" "GET",
       Event.dns_lookup "xample.test",
       Event.connect_origin "xample.test" 80,
       Event.send_origin "GET / HTTP/1.0\r\nHost: xample.test\r\nConnection: close\r\n\r\n",
       Event.recv_origin, Event.close_origin,
       Event.send_client sample_network.response,
       Event.log_request "10.0.0.1" "xample.test" "FETCHED" 40] ∧
    map_find (handle_http_request scenario_policy (CacheManager.new 10 60)
        (some Statistics.new) sample_network 0
        "GET http://example.test/ HTTP/1.1\r\nHost:example.test\r\n\r\n"
        "10.0.0.1").cache.cache "example.test" = none ∧
    (map_find (handle_http_request scenario_policy (CacheManager.new 10 60)
        (some Statistics.new) sample_network 0
        "GET http://example.test/ HTTP/1.1\r\nHost:example.test\r\n\r\n"
        "10.0.0.1").cache.cache "xample.test").map (fun it => it.1.data)
      = some sample_network.response ∧
    extract_host "GET http://myHost:8080/ HTTP/1.1\r\nHost: myHost:8080\r\n\r\n"
      = "080/ HTTP/1.1" ∧
    Event.dns_lookup "080/ HTTP/1.1" ∈
      (handle_http_request scenario_policy (CacheManager.new 10 60) (some Statistics.new)
        sample_network 0 "GET http://myHost:8080/ HTTP/1.1\r\nHost: myHost:8080\r\n\r\n"
        "10.0.0.1").events := by
  decide

/-- C25 fails on the code for a path that holds the text `Host:`.  After
`GET /a HTTP/1.1` for the host `example.test` was fetched and stored, the request
`GET /Host:zz HTTP/1.1` for the same host, 30 seconds later, is not answered from the
cache: the handler reads the host `z HTTP/1.1` from the request line, misses, asks the
resolver for that name and logs FETCHED under it.  Without a Statistics object the first
request already ends in the call through the null pointer. -/
theorem C25_path_with_the_text_Host_changes_the_cache_key :
    extract_host "GET /a HTTP/1.1\r\nHost: example.test\r\n\r\n" = "example.test" ∧
    extract_host "GET /Host:zz HTTP/1.1\r\nHost: example.test\r\n\r\n" = "z HTTP/1.1" ∧
    (handle_http_request scenario_policy (CacheManager.new 10 60) (some Statistics.new)
        sample_network 0 "GET /a HTTP/1.1\r\nHost: example.test\r\n\r\n"
        "10.0.0.1").ending = Ending.returned true ∧
    log_requests (handle_http_request scenario_policy (CacheManager.new 10 60)
        (some Statistics.new) sample_network 0
        "GET /a HTTP/1.1\r\nHost: example.test\r\n\r\n" "10.0.0.1").events
      = [Event.log_request "10.0.0.1" "example.test" "FETCHED" 40] ∧
    (handle_http_request scenario_policy
        (handle_http_request scenario_policy (CacheManager.new 10 60) (some Statistics.new)
          sample_network 0 "GET /a HTTP/1.1\r\nHost: example.test\r\n\r\n" "10.0.0.1").cache
        (handle_http_request scenario_policy (CacheManager.new 10 60) (some Statistics.new)
          sample_network 0 "GET /a HTTP/1.1\r\nHost: example.test\r\n\r\n" "10.0.0.1").stats
        sample_network 30 "GET /Host:zz HTTP/1.1\r\nHost: example.test\r\n\r\n"
        "10.0.0.2").events =
      [Event.log_url "10.0.0.2" "http://z HTTP/1.1/Host:zz" "GET",
       Event.dns_lookup "z HTTP/1.1",
       Event.connect_origin "z HTTP/1.1" 80,
       Event.send_origin
         "GET /Host:zz HTTP/1.0\r\nHost: z HTTP/1.1\r\nConnection: close\r\n\r\n",
       Event.recv_origin, Event.close_origin,
       Event.send_client sample_network.response,
       Event.log_request "10.0.0.2" "z HTTP/1.1" "FETCHED" 40] ∧
    (handle_http_request scenario_policy (CacheManager.new 10 60) none
        sample_network 0 "GET /a HTTP/1.1\r\nHost: example.test\r\n\r\n"
        "10.0.0.1").ending = Ending.null_dereference := by
  decide

end RequestHandler
